import Mathlib

/-!
Shallow embedding of the blueberry-browser action recorder feature:
the `ActionRecorder` state machine, the `PlaywrightGenerator` script
generator and the `ActionReplayer` script interpreter, together with
proofs of the specification claims about them.

JavaScript strings are embedded as `List Char` (written `Str` below);
each JS string operation the source uses (`split`, `trim`, `includes`,
`match`, `replace`, template interpolation) is given an executable
model in this file.  Functions that consume their input by more than
one character per step take an explicit fuel argument (initialised
with the input length) so that they are structurally recursive and
reduce inside the kernel.
-/

abbrev Str := List Char

/-- JS whitespace class membership for the common ASCII whitespace
characters (the model omits the exotic Unicode space code points,
which never occur in the strings this program builds). -/
def isWsChar (c : Char) : Bool :=
  c = ' ' || c = '\t' || c = '\n' || c = '\r' || c = '\x0b' || c = '\x0c'

/-- `hasPre p s` models "`s` starts with `p`". -/
def hasPre : Str → Str → Bool
  | [], _ => true
  | _ :: _, [] => false
  | a :: p, b :: s => a == b && hasPre p s

/-- `hasSub p s` models JS `s.includes(p)`. -/
def hasSub (p : Str) : Str → Bool
  | [] => hasPre p []
  | c :: rest => hasPre p (c :: rest) || hasSub p rest

/-- Fuelled worker for `countMatches`. -/
def cmFuel (p : Str) : Nat → Str → Nat
  | 0, _ => 0
  | _ + 1, [] => 0
  | fuel + 1, c :: rest =>
    if hasPre p (c :: rest) ∧ p ≠ [] then 1 + cmFuel p fuel ((c :: rest).drop p.length)
    else cmFuel p fuel rest

/-- `countMatches p s` models `(s.match(/p/g) || []).length` for a fixed
literal pattern `p`: the number of non-overlapping occurrences of `p`
in `s`, scanning left to right. -/
def countMatches (p s : Str) : Nat := cmFuel p s.length s

/-- `splitNL s` models JS `s.split("\n")`. -/
def splitNL : Str → List Str
  | [] => [[]]
  | c :: rest =>
    if c = '\n' then [] :: splitNL rest
    else
      match splitNL rest with
      | [] => [[c]]
      | h :: t => (c :: h) :: t

/-- `joinNL lines` models JS `lines.join("\n")`. -/
def joinNL : List Str → Str
  | [] => []
  | [l] => l
  | l :: ls => l ++ '\n' :: joinNL ls

/-- Fuelled worker for `jsSplitOn`. -/
def splitFuel (sep : Str) : Nat → Str → List Str
  | 0, s => [s]
  | _ + 1, [] => [[]]
  | fuel + 1, c :: rest =>
    if hasPre sep (c :: rest) ∧ sep ≠ [] then
      [] :: splitFuel sep fuel ((c :: rest).drop sep.length)
    else
      match splitFuel sep fuel rest with
      | [] => [[c]]
      | h :: t => (c :: h) :: t

/-- `jsSplitOn sep s` models JS `s.split(sep)` for a non-empty literal
separator (every separator the source splits on is a non-empty
comment-marker literal). -/
def jsSplitOn (sep s : Str) : List Str := splitFuel sep s.length s

/-- `jsTrim s` models JS `s.trim()`. -/
def jsTrim (s : Str) : Str :=
  ((s.dropWhile isWsChar).reverse.dropWhile isWsChar).reverse

/-- Fuelled worker for `replaceOnce`. -/
def roFuel (pat : Str) : Nat → Str → Str
  | 0, s => s
  | _ + 1, [] => []
  | fuel + 1, c :: rest =>
    if hasPre pat (c :: rest) ∧ pat ≠ [] then (c :: rest).drop pat.length
    else c :: roFuel pat fuel rest

/-- `replaceOnce pat s` models JS `s.replace(pat, "")` for a literal
pattern: remove the first occurrence of `pat`, if any. -/
def replaceOnce (pat s : Str) : Str := roFuel pat s.length s

example : hasSub "bcd".data "abcde".data = true := by decide
example : hasSub "bd".data "abcde".data = false := by decide
example : countMatches "aa".data "aaaa".data = 2 := by decide
example : splitNL "ab\ncd\n".data = ["ab".data, "cd".data, []] := by decide
example : joinNL ["ab".data, "cd".data] = "ab\ncd".data := by decide
example : jsSplitOn "X".data "aXbXc".data = ["a".data, "b".data, "c".data] := by decide
example : jsSplitOn "// ID:".data "// ID: xy".data = [[], " xy".data] := by decide
example : jsTrim "  ab c\t ".data = "ab c".data := by decide
example : replaceOnce ".spec.ts".data "abc.spec.ts".data = "abc".data := by decide

/-- The decimal digit character for `n % 10` (used to model JS number
formatting and `Date` field padding). -/
def dchar (n : Nat) : Char :=
  if n % 10 = 0 then '0' else if n % 10 = 1 then '1' else if n % 10 = 2 then '2'
  else if n % 10 = 3 then '3' else if n % 10 = 4 then '4' else if n % 10 = 5 then '5'
  else if n % 10 = 6 then '6' else if n % 10 = 7 then '7' else if n % 10 = 8 then '8'
  else '9'

/-- Numeric value of a decimal digit character. -/
def digitVal (c : Char) : Option Nat :=
  if c = '0' then some 0 else if c = '1' then some 1 else if c = '2' then some 2
  else if c = '3' then some 3 else if c = '4' then some 4 else if c = '5' then some 5
  else if c = '6' then some 6 else if c = '7' then some 7 else if c = '8' then some 8
  else if c = '9' then some 9 else none

/-- Fuelled worker for `natStr`. -/
def natStrFuel : Nat → Nat → Str
  | 0, _ => []
  | fuel + 1, n => if n < 10 then [dchar n] else natStrFuel fuel (n / 10) ++ [dchar n]

/-- Decimal rendering of a natural number (JS template interpolation of
a non-negative integer). -/
def natStr (n : Nat) : Str := natStrFuel (n + 1) n

/-- Decimal rendering of an integer (JS template interpolation of an
integral number value). -/
def intStr (i : Int) : Str := if i < 0 then '-' :: natStr i.natAbs else natStr i.toNat

/-- Value of a run of decimal digit characters (most significant first),
accumulator style. -/
def digitsVal (acc : Nat) : Str → Nat
  | [] => acc
  | c :: rest => digitsVal (10 * acc + (digitVal c).getD 0) rest

/-- `jsParseInt s` models JS `parseInt(s)` restricted to the exact
integer range (no float rounding): skip leading whitespace, read an
optional sign, detect a `0x`/`0X` hexadecimal prefix, then read the
longest run of digits of the radix; `none` models `NaN` (no digits).
-/
def jsParseInt (s : Str) : Option Int :=
  let t := s.dropWhile isWsChar
  let neg : Bool := hasPre ['-'] t
  let t1 := if hasPre ['-'] t || hasPre ['+'] t then t.drop 1 else t
  let hex : Bool := hasPre ['0', 'x'] t1 || hasPre ['0', 'X'] t1
  if hex then
    let digits := (t1.drop 2).takeWhile fun c => (digitVal c).isSome ||
      ('a' ≤ c && c ≤ 'f') || ('A' ≤ c && c ≤ 'F')
    if digits = [] then none
    else
      let hv : Char → Nat := fun c =>
        if 'a' ≤ c && c ≤ 'f' then c.toNat - 'a'.toNat + 10
        else if 'A' ≤ c && c ≤ 'F' then c.toNat - 'A'.toNat + 10
        else (digitVal c).getD 0
      let v := digits.foldl (fun acc c => 16 * acc + hv c) 0
      some (if neg then -(v : Int) else (v : Int))
  else
    let digits := t1.takeWhile fun c => (digitVal c).isSome
    if digits = [] then none
    else
      let v := digitsVal 0 digits
      some (if neg then -(v : Int) else (v : Int))

example : jsParseInt "1000".data = some 1000 := by decide
example : jsParseInt "abc".data = none := by decide
example : jsParseInt "  -42px".data = some (-42) := by decide
example : jsParseInt "0x1f".data = some 31 := by decide
example : jsParseInt "".data = none := by decide

/-! ### The `Date` model

The source calls two JS builtins: `new Date(ms).toISOString()` in the
generator and `new Date(str).getTime()` in the metadata parser.  Both
are modelled executably with the proleptic Gregorian calendar.  The
model covers the non-negative timestamps below the year 10000 (JS
switches to an expanded-year ISO format beyond that, and accepts more
date formats than the ISO one; neither occurs in this program, whose
timestamps come from `Date.now()` and from re-parsing its own
output). -/

def isLeap (y : Nat) : Bool := (y % 4 == 0 && y % 100 != 0) || (y % 400 == 0)

def daysInYear (y : Nat) : Nat := if isLeap y then 366 else 365

/-- Month lengths with the leap-day count `f` as an explicit flag
(keeping the flag symbolic makes the round-trip proofs tractable). -/
def daysInMonthF (f m : Nat) : Nat :=
  if m = 2 then 28 + f
  else if m = 4 ∨ m = 6 ∨ m = 9 ∨ m = 11 then 30
  else 31

def daysInMonth (y m : Nat) : Nat := daysInMonthF (if isLeap y then 1 else 0) m

/-- Sum of the lengths of `n` consecutive years starting at year `y`. -/
def sumFrom (y : Nat) : Nat → Nat
  | 0 => 0
  | n + 1 => daysInYear y + sumFrom (y + 1) n

/-- Year lookup loop: starting from year `y` with `days` whole days
remaining, subtract year lengths until less than a year remains.
Returns the year and the remaining 0-based day of year.  `fuel` is an
iteration bound (callers pass `days`, which is always enough). -/
def yearFromDays : Nat → Nat → Nat → Nat × Nat
  | 0, y, days => (y, days)
  | fuel + 1, y, days =>
    if days < daysInYear y then (y, days) else yearFromDays fuel (y + 1) (days - daysInYear y)

/-- First day of month `m` as a 0-based day of year, leap flag `f`. -/
def monthOffsetF (f m : Nat) : Nat :=
  if m = 1 then 0 else if m = 2 then 31 else if m = 3 then 59 + f
  else if m = 4 then 90 + f else if m = 5 then 120 + f else if m = 6 then 151 + f
  else if m = 7 then 181 + f else if m = 8 then 212 + f else if m = 9 then 243 + f
  else if m = 10 then 273 + f else if m = 11 then 304 + f else 334 + f

def monthOffset (y m : Nat) : Nat := monthOffsetF (if isLeap y then 1 else 0) m

/-- Month lookup from a 0-based day of year (leap flag `f`): returns
the month and the 0-based day of month. -/
def monthFromDoyF (f doy : Nat) : Nat × Nat :=
  if doy < 31 then (1, doy)
  else if doy < 59 + f then (2, doy - 31)
  else if doy < 90 + f then (3, doy - (59 + f))
  else if doy < 120 + f then (4, doy - (90 + f))
  else if doy < 151 + f then (5, doy - (120 + f))
  else if doy < 181 + f then (6, doy - (151 + f))
  else if doy < 212 + f then (7, doy - (181 + f))
  else if doy < 243 + f then (8, doy - (212 + f))
  else if doy < 273 + f then (9, doy - (243 + f))
  else if doy < 304 + f then (10, doy - (273 + f))
  else if doy < 334 + f then (11, doy - (304 + f))
  else (12, doy - (334 + f))

def monthFromDoy (y doy : Nat) : Nat × Nat := monthFromDoyF (if isLeap y then 1 else 0) doy

def pad2 (n : Nat) : Str := [dchar (n / 10), dchar n]

def pad3 (n : Nat) : Str := [dchar (n / 100), dchar (n / 10), dchar n]

def pad4 (n : Nat) : Str := [dchar (n / 1000), dchar (n / 100), dchar (n / 10), dchar n]

/-- `toISOString t` models `new Date(t).toISOString()` for a
non-negative millisecond timestamp `t` before the year 10000. -/
def toISOString (t : Nat) : Str :=
  let days := t / 86400000
  let rem := t % 86400000
  let yd := yearFromDays days 1970 days
  let md := monthFromDoy yd.1 yd.2
  pad4 yd.1 ++ '-' :: pad2 md.1 ++ '-' :: pad2 (md.2 + 1) ++
    'T' :: pad2 (rem / 3600000) ++ ':' :: pad2 (rem / 60000 % 60) ++
    ':' :: pad2 (rem / 1000 % 60) ++ '.' :: pad3 (t % 1000) ++ ['Z']

/-- Days between 1970-01-01 and the given civil date (negative for
dates before 1970). -/
def daysFromCivil (y m d : Nat) : Int :=
  let doy := monthOffset y m + (d - 1)
  (if 1970 ≤ y then (sumFrom 1970 (y - 1970) : Int) else -(sumFrom y (1970 - y) : Int)) + doy

/-- Pair of decimal digits. -/
def d2v (a b : Char) : Option Nat :=
  match digitVal a, digitVal b with
  | some x, some y => some (10 * x + y)
  | _, _ => none

def d3v (a b c : Char) : Option Nat :=
  match digitVal a, d2v b c with
  | some x, some y => some (100 * x + y)
  | _, _ => none

def d4v (a b c d : Char) : Option Nat :=
  match d2v a b, d2v c d with
  | some x, some y => some (100 * x + y)
  | _, _ => none

/-- `dateGetTime s` models `new Date(s).getTime()` restricted to the
24-character ISO-8601 shape `YYYY-MM-DDTHH:MM:SS.mmmZ` that
`toISOString` emits; every other string yields `none`, the model of
`NaN`.  Out-of-range fields also yield `NaN`, as in ECMAScript. -/
def dateGetTime (s : Str) : Option Int :=
  match s with
  | [y1, y2, y3, y4, '-', o1, o2, '-', a1, a2, 'T',
     h1, h2, ':', i1, i2, ':', e1, e2, '.', m1, m2, m3, 'Z'] =>
    match d4v y1 y2 y3 y4, d2v o1 o2, d2v a1 a2, d2v h1 h2, d2v i1 i2, d2v e1 e2, d3v m1 m2 m3 with
    | some y, some mo, some dd, some hh, some mi, some se, some ms =>
      if 1 ≤ mo ∧ mo ≤ 12 ∧ 1 ≤ dd ∧ dd ≤ daysInMonth y mo ∧ hh ≤ 23 ∧ mi ≤ 59 ∧ se ≤ 59 then
        some (daysFromCivil y mo dd * 86400000 +
          ((hh * 3600000 + mi * 60000 + se * 1000 + ms : Nat) : Int))
      else none
    | _, _, _, _, _, _, _ => none
  | _ => none

example : toISOString 0 = "1970-01-01T00:00:00.000Z".data := by decide
example : toISOString 1763340907065 = "2025-11-17T00:55:07.065Z".data := by decide
example : dateGetTime "2025-11-17T00:55:07.065Z".data = some 1763340907065 := by decide
example : dateGetTime "junk".data = none := by decide
example : dateGetTime "2025-13-01T00:00:00.000Z".data = none := by decide
example : dateGetTime "".data = none := by decide

/-! ### JSON model

The source calls `JSON.parse` on scroll payloads (`{"x":…,"y":…}`) and
keypress payloads (`{"key":…,…}`).  The model below parses JSON
values restricted to `null`, booleans, exact integers, strings (with
the standard escapes, `\uXXXX` without surrogate pairing) and objects;
arrays and fractional/exponent numbers are treated as a parse failure
(floating point is out of scope of the embedding, and this program
only ever stringifies flat objects of numbers and strings). -/

inductive JVal where
  | jnull : JVal
  | jbool (b : Bool) : JVal
  | jnum (n : Int) : JVal
  | jstr (s : Str) : JVal
  | jobj (fields : List (Str × JVal)) : JVal

def jsonWs (c : Char) : Bool := c = ' ' || c = '\t' || c = '\n' || c = '\r'

/-- JSON single-character string escapes. -/
def escChar (c : Char) : Option Char :=
  if c = '"' then some '"' else if c = '\\' then some '\\' else if c = '/' then some '/'
  else if c = 'b' then some '\x08' else if c = 'f' then some '\x0c'
  else if c = 'n' then some '\n' else if c = 'r' then some '\r'
  else if c = 't' then some '\t' else none

def hexVal (c : Char) : Option Nat :=
  let n := c.toNat
  if 48 ≤ n ∧ n ≤ 57 then some (n - 48)
  else if 97 ≤ n ∧ n ≤ 102 then some (n - 87)
  else if 65 ≤ n ∧ n ≤ 70 then some (n - 55)
  else none

def hex4 (a b c d : Char) : Option Nat := do
  let w ← hexVal a
  let x ← hexVal b
  let y ← hexVal c
  let z ← hexVal d
  pure (((w * 16 + x) * 16 + y) * 16 + z)

/-- Body of a JSON string after the opening quote: returns the decoded
characters and the remainder after the closing quote. -/
def jpStrBody : Str → Option (Str × Str)
  | [] => none
  | '"' :: r => some ([], r)
  | '\\' :: 'u' :: a :: b :: c :: d :: r =>
    (hex4 a b c d).bind fun n =>
      (jpStrBody r).map fun p => (Char.ofNat n :: p.1, p.2)
  | '\\' :: e :: r =>
    (escChar e).bind fun c => (jpStrBody r).map fun p => (c :: p.1, p.2)
  | c :: r => (jpStrBody r).map fun p => (c :: p.1, p.2)

/-- JSON integer literal: optional minus, digits with no leading zero,
rejected when followed by a fraction or exponent. -/
def jpNum (s : Str) : Option (Int × Str) :=
  let (neg, t) : Bool × Str := match s with
    | '-' :: r => (true, r)
    | _ => (false, s)
  let digits := t.takeWhile fun c => (digitVal c).isSome
  let rest := t.dropWhile fun c => (digitVal c).isSome
  if digits = [] then none
  else if 2 ≤ digits.length ∧ digits.headD ' ' = '0' then none
  else
    match rest with
    | '.' :: _ => none
    | 'e' :: _ => none
    | 'E' :: _ => none
    | _ =>
      let v := digitsVal 0 digits
      some (if neg then -(v : Int) else (v : Int), rest)

/-- Parser request: either a JSON value at `s`, or the member list of an
object whose opening brace (and any whitespace) is already consumed.
A single request type keeps the parser one structurally recursive
function on its fuel, so that it reduces in the kernel. -/
inductive JPReq where
  | val (s : Str) : JPReq
  | members (s : Str) (acc : List (Str × JVal)) : JPReq

inductive JPRes where
  | val (v : JVal) (rest : Str) : JPRes
  | members (fs : List (Str × JVal)) (rest : Str) : JPRes

def jpGo : Nat → JPReq → Option JPRes
  | 0, _ => none
  | fuel + 1, .val s =>
    match s.dropWhile jsonWs with
    | 'n' :: 'u' :: 'l' :: 'l' :: r => some (.val .jnull r)
    | 't' :: 'r' :: 'u' :: 'e' :: r => some (.val (.jbool true) r)
    | 'f' :: 'a' :: 'l' :: 's' :: 'e' :: r => some (.val (.jbool false) r)
    | '"' :: r => (jpStrBody r).bind fun p => some (.val (.jstr p.1) p.2)
    | '{' :: r =>
      match r.dropWhile jsonWs with
      | '}' :: r2 => some (.val (.jobj []) r2)
      | r1 =>
        match jpGo fuel (.members r1 []) with
        | some (.members fs rest) => some (.val (.jobj fs) rest)
        | _ => none
    | t => (jpNum t).bind fun p => some (.val (.jnum p.1) p.2)
  | fuel + 1, .members s acc =>
    match s with
    | '"' :: r =>
      match jpStrBody r with
      | none => none
      | some (key, r1) =>
        match r1.dropWhile jsonWs with
        | ':' :: r2 =>
          match jpGo fuel (.val r2) with
          | some (.val v r3) =>
            match r3.dropWhile jsonWs with
            | ',' :: r4 => jpGo fuel (.members (r4.dropWhile jsonWs) (acc ++ [(key, v)]))
            | '}' :: r4 => some (.members (acc ++ [(key, v)]) r4)
            | _ => none
          | _ => none
        | _ => none
    | _ => none

/-- `jsonParse s` models `JSON.parse(s)` (within the restrictions
documented above); `none` models a thrown `SyntaxError`. -/
def jsonParse (s : Str) : Option JVal :=
  match jpGo (s.length + 1) (.val s) with
  | some (.val v rest) => if rest.dropWhile jsonWs = [] then some v else none
  | _ => none

/-- JS member access `v.k` on a parsed JSON value; `none` models
`undefined`.  `JSON.parse` keeps the last of duplicate keys. -/
def jfield (v : JVal) (k : Str) : Option JVal :=
  match v with
  | .jobj fs => (fs.reverse.find? fun p => p.1 == k).map fun p => p.2
  | _ => none

/-- JS truthiness of a parsed JSON value. -/
def jsTruthy : JVal → Bool
  | .jnull => false
  | .jbool b => b
  | .jnum n => n != 0
  | .jstr s => !s.isEmpty
  | .jobj _ => true

/-- JS template-literal rendering (`String(v)`) of a parsed JSON value. -/
def jsDisplay : JVal → Str
  | .jnull => "null".data
  | .jbool true => "true".data
  | .jbool false => "false".data
  | .jnum n => intStr n
  | .jstr s => s
  | .jobj _ => "[object Object]".data

/-- Strict string comparison `v === "Enter"` on a JS value. -/
def isEnterVal : JVal → Bool
  | .jstr s => s = "Enter".data
  | _ => false

example : jsonParse "\x7b\"x\": 12, \"y\": -3\x7d".data =
    some (.jobj [("x".data, .jnum 12), ("y".data, .jnum (-3))]) := rfl
example : jsonParse "{}".data = some (.jobj []) := rfl
example : jsonParse "\x7b\"key\":\"Enter\",\"ctrlKey\":false\x7d".data =
    some (.jobj [("key".data, .jstr "Enter".data), ("ctrlKey".data, .jbool false)]) := rfl
example : jsonParse "junk".data = none := rfl
example : (jsonParse "\x7b\"x\": 1.5\x7d".data) = none := rfl
example : (jsonParse "\x7b\"a\":\x7b\"b\":7\x7d\x7d".data).bind (fun v => jfield v "a".data) =
    some (.jobj [("b".data, .jnum 7)]) := rfl

/-! ### Line-oriented command recognition (replayer regex model)

The replayer recognises commands with `String.match` against literal
regexes of the shape `lit\('([^']+)'\)`.  `scanCap1 lit post s` models
the first match of such a pattern: scan left to right for `lit`, take
the longest run of non-quote characters as the capture, and require it
non-empty and followed by `post`.  (A shorter capture can never make
the overall pattern match, because `post` always starts with a quote
while every shortened capture boundary sits on a non-quote character,
so greedy capture without backtracking is faithful to the regex.) -/

def tryCapAt (lit post : Str) (s : Str) : Option Str :=
  if hasPre lit s then
    let after := s.drop lit.length
    let cap := after.takeWhile fun c => c ≠ '\x27'
    let rem := after.dropWhile fun c => c ≠ '\x27'
    if cap ≠ [] ∧ hasPre post rem then some cap else none
  else none

def scanCap1 (lit post : Str) : Str → Option Str
  | [] => none
  | c :: rest =>
    match tryCapAt lit post (c :: rest) with
    | some cap => some cap
    | none => scanCap1 lit post rest

/-- First match of `/fill\('([^']+)',\s*'([^']*)'\)/`, returning both
captures. -/
def tryFillAt (s : Str) : Option (Str × Str) :=
  if hasPre "fill(\x27".data s then
    let a1 := s.drop 6
    let cap1 := a1.takeWhile fun c => c ≠ '\x27'
    let r1 := a1.dropWhile fun c => c ≠ '\x27'
    if cap1 ≠ [] ∧ hasPre "\x27,".data r1 then
      let r2 := (r1.drop 2).dropWhile isWsChar
      match r2 with
      | q :: a2 =>
        if q = '\x27' then
          let cap2 := a2.takeWhile fun c => c ≠ '\x27'
          let r3 := a2.dropWhile fun c => c ≠ '\x27'
          if hasPre "\x27)".data r3 then some (cap1, cap2) else none
        else none
      | [] => none
    else none
  else none

def scanFill : Str → Option (Str × Str)
  | [] => none
  | c :: rest =>
    match tryFillAt (c :: rest) with
    | some r => some r
    | none => scanFill rest

example : scanCap1 "goto(\x27".data "\x27)".data "  await page.goto(\x27https://a.b/\x27);".data =
    some "https://a.b/".data := by decide
example : scanCap1 "goto(\x27".data "\x27)".data "  await page.goto(\x27\x27);".data = none := by decide
example : scanFill "  await page.fill(\x27#q\x27, \x27ab\x27);".data =
    some ("#q".data, "ab".data) := by decide
example : scanFill "  await page.fill(\x27#q\x27, \x27\x27);".data =
    some ("#q".data, []) := by decide

/-! ### Data model (`types/RecorderTypes.ts`) -/

inductive ActionType where
  | click : ActionType
  | input : ActionType
  | select : ActionType
  | navigate : ActionType
  | scroll : ActionType
  | wait : ActionType
  | keypress : ActionType
  | manual_step : ActionType
deriving DecidableEq, Repr

structure ElementSelector where
  css : Option Str := none
  xpath : Option Str := none
  text : Option Str := none
  id : Option Str := none
  name : Option Str := none
deriving DecidableEq, Repr

structure RecordedAction where
  id : Str
  type : ActionType
  timestamp : Nat
  url : Str
  selector : Option ElementSelector := none
  value : Option Str := none
  description : Option Str := none
  screenshot : Option Str := none
  isContentField : Option Bool := none
  contentPlaceholder : Option Str := none
deriving DecidableEq, Repr

structure RecordingMetadata where
  targetSite : Option Str := none
  duration : Option Nat := none
  manualSteps : Option Nat := none
deriving DecidableEq, Repr

/-- `createdAt`/`updatedAt` are JS numbers that can be `NaN` after
re-parsing a malformed date comment; `none` models `NaN`. -/
structure Recording where
  id : Str
  name : Str
  description : Option Str := none
  createdAt : Option Int
  updatedAt : Option Int
  actions : List RecordedAction
  metadata : Option RecordingMetadata := none
deriving DecidableEq, Repr

structure PlaywrightScriptMetadata where
  id : Str
  name : Str
  description : Option Str := none
  createdAt : Nat
  targetSite : Option Str := none
deriving DecidableEq, Repr

/-- JS truthiness of a `string | undefined` value. -/
def truthyStr : Option Str → Bool
  | some s => !s.isEmpty
  | none => false

/-- JS `x || d` for a `string | undefined` value and a string default. -/
def jsOrDefault (v : Option Str) (d : Str) : Str :=
  match v with
  | some s => if s.isEmpty then d else s
  | none => d

/-! ### `PlaywrightGenerator` -/

namespace PlaywrightGenerator

/-- Selector resolution precedence (`getPreferredSelector`):
id > css > name > xpath, falling back to `"body"`. -/
def getPreferredSelector (selector : Option ElementSelector) : Str :=
  match selector with
  | none => "body".data
  | some sel =>
    if truthyStr sel.id then '#' :: sel.id.getD []
    else if truthyStr sel.css then sel.css.getD []
    else if truthyStr sel.name then "[name=\"".data ++ sel.name.getD [] ++ "\"]".data
    else if truthyStr sel.xpath then sel.xpath.getD []
    else "body".data

def getSelectorString (selector : Option ElementSelector) : Str :=
  getPreferredSelector selector

/-- `selector.replace(/'/g, "\\'")`. -/
def escapeSelector : Str → Str
  | [] => []
  | c :: rest => (if c = '\x27' then ['\\', '\x27'] else [c]) ++ escapeSelector rest

/-- `value.replace(/'/g, "\\'").replace(/\n/g, "\\n").replace(/\r/g, "\\r")`;
the three sequential global replaces fuse into one character map because
no replacement string contains a character replaced later. -/
def escapeValue : Str → Str
  | [] => []
  | c :: rest =>
    (if c = '\x27' then ['\\', '\x27']
     else if c = '\n' then ['\\', 'n']
     else if c = '\r' then ['\\', 'r']
     else [c]) ++ escapeValue rest

/-- The trailing ` // "text"` readability comment added when the
captured selector has (truthy) text. -/
def textComment (selectorObj : Option ElementSelector) : Str :=
  match selectorObj with
  | some sel => if truthyStr sel.text then " // \"".data ++ sel.text.getD [] ++ "\"".data else []
  | none => []

def generateClickCommand (action : RecordedAction) : Str :=
  "  await page.click(\x27".data ++ escapeSelector (getPreferredSelector action.selector) ++
    "\x27);".data ++ textComment action.selector

def generateInputCommand (selectorStr : Str) (value : Str) (selectorObj : Option ElementSelector) : Str :=
  "  await page.fill(\x27".data ++ escapeSelector selectorStr ++ "\x27, \x27".data ++
    escapeValue value ++ "\x27);".data ++ textComment selectorObj

/-- The JS value of `key` in `generateKeypressCommand`
(`JSON.parse(action.value || "{}")` then `keyInfo.key || "Enter"`);
`none` models the `JSON.parse` throw handled by the `catch`. -/
def keypressKeyVal (action : RecordedAction) : Option JVal :=
  match jsonParse (jsOrDefault action.value "{}".data) with
  | none => none
  | some keyInfo =>
    some (match jfield keyInfo "key".data with
      | some kv => if jsTruthy kv then kv else JVal.jstr "Enter".data
      | none => JVal.jstr "Enter".data)

def generateKeypressCommand (action : RecordedAction) : Str :=
  match keypressKeyVal action with
  | none => "  await page.keyboard.press(\x27Enter\x27);".data
  | some keyVal =>
    if isEnterVal keyVal then
      "  await page.keyboard.press(\x27".data ++ jsDisplay keyVal ++
        "\x27); // May trigger form submission".data
    else
      "  await page.keyboard.press(\x27".data ++ jsDisplay keyVal ++ "\x27);".data

/-- The rendered `x` and `y` coordinates of `generateScrollCommand`
(`${scrollData.x || 0}`, `${scrollData.y || 0}`); `none` models the
`JSON.parse` throw handled by the `catch`. -/
def scrollXY (action : RecordedAction) : Option (Str × Str) :=
  match jsonParse (jsOrDefault action.value "{}".data) with
  | none => none
  | some scrollData =>
    let render : Option JVal → Str := fun o =>
      match o with
      | some v => if jsTruthy v then jsDisplay v else "0".data
      | none => "0".data
    some (render (jfield scrollData "x".data), render (jfield scrollData "y".data))

def generateScrollCommand (action : RecordedAction) : Str :=
  match scrollXY action with
  | none => "  await page.evaluate(() => window.scrollTo(0, 0));".data
  | some xy =>
    "  await page.evaluate(() => window.scrollTo(".data ++ xy.1 ++ ", ".data ++ xy.2 ++
      "));".data

def generateSelectCommand (action : RecordedAction) : Str :=
  "  await page.selectOption(\x27".data ++
    escapeSelector (getPreferredSelector action.selector) ++ "\x27, \x27".data ++
    escapeValue (action.value.getD []) ++ "\x27);".data

def generateManualStepComment (action : RecordedAction) : Str :=
  "  // MANUAL STEP: ".data ++ jsOrDefault action.description "Complete this step manually".data

/-- Rendering of the `waitForTimeout` argument (`${waitMs}`; `NaN` when
`parseInt` failed). -/
def renderNum : Option Int → Str
  | some n => intStr n
  | none => "NaN".data

/-- The JS `Map` operations used for `consolidatedInputs`. -/
def mapHas (m : List (Str × Str)) (k : Str) : Bool := m.any fun p => p.1 == k

def mapGet (m : List (Str × Str)) (k : Str) : Option Str :=
  (m.find? fun p => p.1 == k).map fun p => p.2

def mapSet (m : List (Str × Str)) (k v : Str) : List (Str × Str) :=
  if mapHas m k then m.map fun p => if p.1 == k then (k, v) else p else m ++ [(k, v)]

/-- The pending-input flush used by the `click` and `keypress` cases:
`if (lastInputSelector && consolidatedInputs.has(lastInputSelector))`
emit the consolidated fill, clear the map and null the selector.
Returns (emitted lines, new map, new lastInputSelector). -/
def flushPending (pending : List (Str × Str)) (lastSel : Option Str)
    (selObj : Option ElementSelector) : List Str × List (Str × Str) × Option Str :=
  match lastSel with
  | some s =>
    if !s.isEmpty && mapHas pending s then
      ([generateInputCommand s ((mapGet pending s).getD []) selObj], [], none)
    else ([], pending, lastSel)
  | none => ([], pending, lastSel)

/-- The action loop of `generate`, carrying the loop state
(`lastUrl`, `consolidatedInputs`, `lastInputSelector`). -/
def processActions (lastUrl : Option Str) (pending : List (Str × Str))
    (lastSel : Option Str) : List RecordedAction → List Str
  | [] => []
  | action :: rest =>
    let nextAction := rest.head?
    let urlLines : List Str :=
      if some action.url ≠ lastUrl then ["  // Page navigated to: ".data ++ action.url] else []
    let lastUrl' := if some action.url ≠ lastUrl then some action.url else lastUrl
    match action.type with
    | .click =>
      match flushPending pending lastSel action.selector with
      | (fl, pending', lastSel') =>
        urlLines ++ fl ++ [generateClickCommand action] ++
          processActions lastUrl' pending' lastSel' rest
    | .input =>
      let inputSelector := getSelectorString action.selector
      let pre : List Str × List (Str × Str) :=
        match lastSel with
        | some ls =>
          if inputSelector ≠ ls ∧ !ls.isEmpty then
            ([generateInputCommand ls ((mapGet pending ls).getD []) action.selector], [])
          else ([], pending)
        | none => ([], pending)
      let pending2 := mapSet pre.2 inputSelector (action.value.getD [])
      let flushNow : Bool :=
        match nextAction with
        | none => true
        | some na => !(na.type = .input ∧ getSelectorString na.selector = inputSelector)
      if flushNow then
        urlLines ++ pre.1 ++
          [generateInputCommand inputSelector ((mapGet pending2 inputSelector).getD [])
            action.selector] ++
          processActions lastUrl' [] none rest
      else
        urlLines ++ pre.1 ++ processActions lastUrl' pending2 (some inputSelector) rest
    | .keypress =>
      match flushPending pending lastSel action.selector with
      | (fl, pending', lastSel') =>
        urlLines ++ fl ++ [generateKeypressCommand action] ++
          processActions lastUrl' pending' lastSel' rest
    | .select =>
      urlLines ++ [generateSelectCommand action] ++ processActions lastUrl' pending lastSel rest
    | .scroll =>
      urlLines ++ [generateScrollCommand action] ++ processActions lastUrl' pending lastSel rest
    | .manual_step =>
      urlLines ++ [generateManualStepComment action] ++
        processActions lastUrl' pending lastSel rest
    | .wait =>
      let waitMs := jsParseInt (jsOrDefault action.value "1000".data)
      urlLines ++ ["  await page.waitForTimeout(".data ++ renderNum waitMs ++ ");".data] ++
        processActions lastUrl' pending lastSel rest
    | .navigate => urlLines ++ processActions lastUrl' pending lastSel rest

/-- The lines pushed by `PlaywrightGenerator.generate` (header, test
block opener, optional initial navigation, action commands, closer). -/
def generateLines (metadata : PlaywrightScriptMetadata) (actions : List RecordedAction) :
    List Str :=
  ["import \x7b test, expect \x7d from \x27@playwright/test\x27;".data, [],
   "// Recording ID: ".data ++ metadata.id,
   "// Created: ".data ++ toISOString metadata.createdAt] ++
  (if truthyStr metadata.description then
    ["// Description: ".data ++ metadata.description.getD []] else []) ++
  [[], "test(\x27".data ++ metadata.name ++ "\x27, async (\x7b page \x7d) => \x7b".data] ++
  (if truthyStr metadata.targetSite then
    ["  // Navigate to starting URL".data,
     "  await page.goto(\x27".data ++ metadata.targetSite.getD [] ++ "\x27);".data, []]
   else []) ++
  processActions metadata.targetSite [] none actions ++
  ["\x7d);".data]

/-- `PlaywrightGenerator.generate`: the joined script text. -/
def generate (metadata : PlaywrightScriptMetadata) (actions : List RecordedAction) : Str :=
  joinNL (generateLines metadata actions)

end PlaywrightGenerator

/-! ### `ActionRecorder` -/

/-- The tab handle as the recorder sees it (`tab.id`, `tab.url`). -/
structure TabInfo where
  id : Nat
  url : Str
deriving DecidableEq, Repr

structure RecorderState where
  isRecording : Bool
  isPaused : Bool
  currentRecording : Option Recording
  recordings : List Recording
deriving DecidableEq, Repr

/-- The mutable fields of the `ActionRecorder` class: `this.state` and
`this.currentTab`. -/
structure RecorderS where
  state : RecorderState
  currentTab : Option TabInfo
deriving DecidableEq, Repr

namespace ActionRecorder

def initial : RecorderS :=
  { state := { isRecording := false, isPaused := false, currentRecording := none,
               recordings := [] },
    currentTab := none }

/-- The metadata accumulator of the `parsePlaywrightScript` line loop. -/
structure ParseAcc where
  id : Str
  name : Str
  description : Option Str
  createdAt : Option Int
  targetSite : Option Str
deriving DecidableEq, Repr

/-- One iteration of the `parsePlaywrightScript` line loop: the
`if`/`else if` marker chain. -/
def parseLine (acc : ParseAcc) (line : Str) : ParseAcc :=
  if hasSub "// Recording ID:".data line then
    { acc with id := jsTrim ((jsSplitOn "// Recording ID:".data line).getD 1 []) }
  else if hasSub "// Created:".data line then
    { acc with createdAt := dateGetTime (jsTrim ((jsSplitOn "// Created:".data line).getD 1 [])) }
  else if hasSub "// Description:".data line then
    { acc with description := some (jsTrim ((jsSplitOn "// Description:".data line).getD 1 [])) }
  else if hasSub "test(\x27".data line then
    match scanCap1 "test(\x27".data "\x27".data line with
    | some nm => { acc with name := nm }
    | none => acc
  else if hasSub "await page.goto(\x27".data line then
    match scanCap1 "goto(\x27".data "\x27)".data line with
    | some u => { acc with targetSite := some u }
    | none => acc
  else acc

/-- `ActionRecorder.parsePlaywrightScript`: recover a `Recording` from
the comment header of a script file. -/
def parsePlaywrightScript (filename content : Str) : Recording :=
  let initId := replaceOnce ".spec.ts".data filename
  let acc0 : ParseAcc :=
    { id := initId, name := initId, description := none, createdAt := some 0,
      targetSite := none }
  let acc := (splitNL content).foldl parseLine acc0
  let meta : RecordingMetadata :=
    { targetSite := acc.targetSite, duration := none,
      manualSteps := some (countMatches "// MANUAL STEP:".data content) }
  { id := acc.id, name := acc.name, description := acc.description,
    createdAt := acc.createdAt, updatedAt := acc.createdAt, actions := [],
    metadata := some meta }

/-- `ActionRecorder.startRecording`.  `injectError` models whether the
capture-listener injection (`this.injectRecorderScript(tab)`) throws,
and with what error; the new recording id and the `Date.now()` value
are passed in explicitly. -/
def startRecording (r : RecorderS) (tab : TabInfo) (nm : Str) (description : Option Str)
    (newId : Str) (now : Nat) (injectError : Option Str) : RecorderS × Except Str Recording :=
  if r.state.isRecording then (r, .error "Already recording".data)
  else
    let meta : RecordingMetadata :=
      { targetSite := some tab.url, duration := none, manualSteps := some 0 }
    let recording : Recording :=
      { id := newId, name := nm, description := description,
        createdAt := some (now : Int), updatedAt := some (now : Int), actions := [],
        metadata := some meta }
    let st2 : RecorderState :=
      { r.state with
        currentRecording := some recording
        isRecording := true
        isPaused := false }
    let r2 : RecorderS := { state := st2, currentTab := some tab }
    match injectError with
    | some e =>
      ({ state := { r2.state with isRecording := false, currentRecording := none },
         currentTab := none }, .error e)
    | none => (r2, .ok recording)

/-- `ActionRecorder.pauseRecording`. -/
def pauseRecording (r : RecorderS) : RecorderS × Except Str Unit :=
  if !r.state.isRecording then (r, .error "Not recording".data)
  else ({ r with state := { r.state with isPaused := true } }, .ok ())

/-- `ActionRecorder.resumeRecording`. -/
def resumeRecording (r : RecorderS) : RecorderS × Except Str Unit :=
  if !r.state.isRecording then (r, .error "Not recording".data)
  else ({ r with state := { r.state with isPaused := false } }, .ok ())

end ActionRecorder

/-! ### `ActionReplayer` -/

inductive ReplayState where
  | idle : ReplayState
  | running : ReplayState
  | paused : ReplayState
  | manual_step : ReplayState
  | completed : ReplayState
  | error : ReplayState
deriving DecidableEq, Repr

structure ReplayStatus where
  state : ReplayState
  currentActionIndex : Nat
  totalActions : Nat
  error : Option Str := none
  message : Option Str := none
deriving DecidableEq, Repr

/-- The mutable fields of the `ActionReplayer` class; `onStatusChange`
records whether a status callback is installed. -/
structure ReplayerS where
  recording : Option Recording
  currentActionIndex : Nat
  state : ReplayState
  onStatusChange : Bool
deriving DecidableEq, Repr

namespace ActionReplayer

def initial : ReplayerS :=
  { recording := none, currentActionIndex := 0, state := .idle, onStatusChange := false }

/-- A page-side execution request issued by the replayer. -/
inductive PageCall where
  | navigate (url : Str) : PageCall
  | click (selector : Str) : PageCall
  | fill (selector : Str) (value : Str) : PageCall
  | keyPress (key : Str) : PageCall
deriving DecidableEq, Repr

/-- `emitStatus`: the statuses delivered to the observer (empty when no
callback is installed). -/
def emitStatus (r : ReplayerS) (message : Option Str) (error : Option Str) :
    List ReplayStatus :=
  if r.onStatusChange then
    [{ state := r.state, currentActionIndex := r.currentActionIndex,
       totalActions := (r.recording.bind fun rec => rec.metadata.bind fun m =>
         m.manualSteps).getD 0,
       message := message, error := error }]
  else []

/-- The `if`/`else if` command-recognition chain of
`executePlaywrightInCurrentTab` applied to one trimmed line. -/
def lineCommand (trimmed : Str) : Option PageCall :=
  if hasSub "await page.goto(".data trimmed then
    (scanCap1 "goto(\x27".data "\x27)".data trimmed).map .navigate
  else if hasSub "await page.click(".data trimmed then
    (scanCap1 "click(\x27".data "\x27)".data trimmed).map .click
  else if hasSub "await page.fill(".data trimmed then
    (scanFill trimmed).map fun p => .fill p.1 p.2
  else if hasSub "await page.keyboard.press(".data trimmed then
    (scanCap1 "press(\x27".data "\x27)".data trimmed).map .keyPress
  else none

/-- Per-line processing: trim, skip comments / imports / blank lines,
then recognise a command. -/
def replayLineAction (line : Str) : Option PageCall :=
  let trimmed := jsTrim line
  if hasPre "//".data trimmed || hasPre "import".data trimmed || trimmed.isEmpty then none
  else lineCommand trimmed

/-- One page-side execution attempt; `false` from the oracle models the
injected script throwing (e.g. the selector resolving to nothing). -/
def runCall (ok : Bool) : Except Str Unit := if ok then .ok () else .error "exec failed".data

/-- The line loop of `executePlaywrightInCurrentTab`: each recognised
command is executed inside its own `try`/`catch`, and a caught error
only logs — the loop continues with the next line either way.  Returns
the trace of attempted page calls with their outcomes. -/
def execLoop (oracle : Nat → Bool) : List Str → Nat → List (PageCall × Bool)
  | [], _ => []
  | line :: rest, k =>
    match replayLineAction line with
    | none => execLoop oracle rest k
    | some c =>
      match runCall (oracle k) with
      | .ok _ => (c, true) :: execLoop oracle rest (k + 1)
      | .error _ => (c, false) :: execLoop oracle rest (k + 1)

def executePlaywrightInCurrentTab (content : Str) (oracle : Nat → Bool) :
    List (PageCall × Bool) :=
  execLoop oracle (splitNL content) 0

/-- `ActionReplayer.startReplay`.  `script` models the
`fs.readFileSync` result (`.error` = the read threw), `oracle` drives
the per-command page execution outcomes, and `postError` models a
throw from the post-replay session persistence (`new URL(...)` /
`saveSession`), which is only attempted when the recording carries a
target site.  Returns the new state, the call result, the emitted
statuses and the trace of attempted page calls. -/
def startReplay (r : ReplayerS) (rec : Recording) (hasCb : Bool)
    (script : Except Str Str) (oracle : Nat → Bool) (postError : Option Str) :
    ReplayerS × Except Str Unit × List ReplayStatus × List (PageCall × Bool) :=
  if r.state = .running then (r, .error "Already replaying".data, [], [])
  else
    let r1 : ReplayerS :=
      { recording := some rec, currentActionIndex := 0, state := .running,
        onStatusChange := hasCb }
    match script with
    | .error e =>
      let r2 := { r1 with state := .error }
      (r2, .error e, emitStatus r2 (some ("Replay failed: ".data ++ e)) none, [])
    | .ok content =>
      let trace := executePlaywrightInCurrentTab content oracle
      match (if truthyStr (rec.metadata.bind fun m => m.targetSite) then postError
             else none : Option Str) with
      | some e =>
        let r2 := { r1 with state := .error }
        (r2, .error e, emitStatus r2 (some ("Replay failed: ".data ++ e)) none, trace)
      | none =>
        let r2 := { r1 with state := .completed }
        (r2, .ok (), emitStatus r2 (some "Replay completed successfully".data) none, trace)

/-- `ActionReplayer.pause`. -/
def pause (r : ReplayerS) : ReplayerS × List ReplayStatus :=
  if r.state = .running then
    let r2 := { r with state := .paused }
    (r2, emitStatus r2 (some "Replay paused".data) none)
  else (r, [])

/-- `ActionReplayer.resume`. -/
def resume (r : ReplayerS) : ReplayerS × List ReplayStatus :=
  if r.state = .paused ∨ r.state = .manual_step then
    let r2 := { r with state := .running }
    (r2, emitStatus r2 (some "Replay resumed".data) none)
  else (r, [])

/-- `ActionReplayer.stop`. -/
def stop (r : ReplayerS) : ReplayerS × List ReplayStatus :=
  let r2 : ReplayerS := { r with state := .idle, recording := none, currentActionIndex := 0 }
  (r2, emitStatus r2 (some "Replay stopped".data) none)

/-- `ActionReplayer.getStatus`. -/
def getStatus (r : ReplayerS) : ReplayStatus :=
  { state := r.state, currentActionIndex := r.currentActionIndex, totalActions := 0 }

/-- The replayer states reachable from construction through the public
operations. -/
inductive Reach : ReplayerS → Prop where
  | init : Reach initial
  | start (s : ReplayerS) (rec : Recording) (hasCb : Bool) (script : Except Str Str)
      (oracle : Nat → Bool) (postError : Option Str) : Reach s →
      Reach (startReplay s rec hasCb script oracle postError).1
  | pauseStep (s : ReplayerS) : Reach s → Reach (pause s).1
  | resumeStep (s : ReplayerS) : Reach s → Reach (resume s).1
  | stopStep (s : ReplayerS) : Reach s → Reach (stop s).1

end ActionReplayer

/-! ### Specification-side definitions

These follow the spec's wording (maximal runs of consecutive `input`
actions on one resolved locator; the set of commands a script's lines
are recognised as) to be compared with the behaviour of the
source-derived definitions above. -/

/-- A fill datum: resolved selector string, value, and the selector
object of the action supplying the value (its captured text feeds the
trailing comment). -/
abbrev FillDatum := Str × Str × Option ElementSelector

mutual

/-- The consolidation rule as the spec states it: walk the action list;
every maximal run of consecutive `input` actions whose selectors
resolve to the same selector string contributes exactly one fill
datum, carrying the value of the last action of the run. -/
def fillRuns : List RecordedAction → List FillDatum
  | [] => []
  | a :: rest =>
    if a.type = .input then
      fillRun (PlaywrightGenerator.getSelectorString a.selector) a rest
    else fillRuns rest
termination_by as => (as.length, 0)

/-- Extend the current run (resolved selector `sel`, last action so far
`last`) through `rest`. -/
def fillRun (sel : Str) (last : RecordedAction) : List RecordedAction → List FillDatum
  | [] => [(sel, last.value.getD [], last.selector)]
  | b :: rest =>
    if b.type = .input ∧ PlaywrightGenerator.getSelectorString b.selector = sel then
      fillRun sel b rest
    else (sel, last.value.getD [], last.selector) :: fillRuns (b :: rest)
termination_by as => (as.length, 1)

end

/-- The fill command line a fill datum produces. -/
def fillLineOf (t : FillDatum) : Str :=
  PlaywrightGenerator.generateInputCommand t.1 t.2.1 t.2.2

/-- Recognising a generated fill command line by its fixed head. -/
def isFillLine (l : Str) : Bool := hasPre "  await page.fill(\x27".data l

/-- All commands recognised in a script's lines (what a replay must
attempt regardless of individual failures). -/
def recognizedCommands (content : Str) : List ActionReplayer.PageCall :=
  (splitNL content).filterMap ActionReplayer.replayLineAction

/-- Number of `manual_step` actions in an action list. -/
def manualCount (as : List RecordedAction) : Nat :=
  (as.filter fun a => a.type == ActionType.manual_step).length

/-! Sanity checks: the spec's example scenario (§8). -/

def exSel (i : Str) : Option ElementSelector :=
  some { css := some ('#' :: i), id := some i }

def exActions : List RecordedAction :=
  [ { id := "a1".data, type := .click, timestamp := 1, url := "https://example.com/".data,
      selector := exSel "go".data },
    { id := "a2".data, type := .input, timestamp := 2, url := "https://example.com/".data,
      selector := exSel "q".data, value := some "a".data },
    { id := "a3".data, type := .input, timestamp := 3, url := "https://example.com/".data,
      selector := exSel "q".data, value := some "ab".data },
    { id := "a4".data, type := .keypress, timestamp := 4, url := "https://example.com/".data,
      selector := exSel "q".data,
      value := some "\x7b\"key\":\"Enter\",\"code\":\"Enter\"\x7d".data } ]

def exMetadata : PlaywrightScriptMetadata :=
  { id := "rec-1".data, name := "Test".data, createdAt := 0,
    targetSite := some "https://example.com/".data }

example : PlaywrightGenerator.generateLines exMetadata exActions =
  [ "import \x7b test, expect \x7d from \x27@playwright/test\x27;".data, [],
    "// Recording ID: rec-1".data,
    "// Created: 1970-01-01T00:00:00.000Z".data, [],
    "test(\x27Test\x27, async (\x7b page \x7d) => \x7b".data,
    "  // Navigate to starting URL".data,
    "  await page.goto(\x27https://example.com/\x27);".data, [],
    "  await page.click(\x27#go\x27);".data,
    "  await page.fill(\x27#q\x27, \x27ab\x27);".data,
    "  await page.keyboard.press(\x27Enter\x27); // May trigger form submission".data,
    "\x7d);".data ] := by decide

example :
    recognizedCommands (PlaywrightGenerator.generate exMetadata exActions) =
      [ .navigate "https://example.com/".data, .click "#go".data,
        .fill "#q".data "ab".data, .keyPress "Enter".data ] := by decide

example :
    (PlaywrightGenerator.generateLines exMetadata exActions).filter isFillLine =
      ["  await page.fill(\x27#q\x27, \x27ab\x27);".data] := by decide

example :
    (ActionRecorder.parsePlaywrightScript "x.spec.ts".data
      (PlaywrightGenerator.generate exMetadata exActions)).id = "rec-1".data := by decide

example :
    (ActionRecorder.parsePlaywrightScript "x.spec.ts".data
      (PlaywrightGenerator.generate exMetadata exActions)).createdAt = some 0 := by decide

/-! ### Auxiliary predicates used in claim statements -/

/-- `sufB s t`: `s` is a suffix of `t` (boolean). -/
def sufB (s t : Str) : Bool := hasPre s.reverse t.reverse

/-- `noPS p A`: no non-empty proper prefix of `p` is a suffix of `A`.
When `A` is the concrete text standing immediately left of an unknown
string in a concatenation, this rules out occurrences of `p`
straddling the boundary. -/
def noPS (p A : Str) : Bool :=
  (List.range p.length).all fun k => decide (k = 0) || !sufB (p.take k) A

/-- A string is safe for the metadata header scan: it contains none of
the three header comment markers and no newline. -/
def headerSafe (s : Str) : Prop :=
  hasSub "// Recording ID:".data s = false ∧ hasSub "// Created:".data s = false ∧
  hasSub "// Description:".data s = false ∧ '\n' ∉ s

instance (s : Str) : Decidable (headerSafe s) := by
  unfold headerSafe
  infer_instance

/-- A string that cannot create or destroy `// MANUAL STEP:` marker
occurrences. -/
def manualSafe (s : Str) : Prop := hasSub "// MANUAL STEP:".data s = false

instance (s : Str) : Decidable (manualSafe s) := by
  unfold manualSafe
  infer_instance

namespace PlaywrightGenerator

/-- The captured text feeding a trailing readability comment. -/
def textOf (selectorObj : Option ElementSelector) : Str :=
  match selectorObj with
  | some sel => sel.text.getD []
  | none => []

/-- The rendered keypress key (empty when `JSON.parse` throws and the
catch branch emits the fixed `Enter` line). -/
def keyRendered (a : RecordedAction) : Str :=
  match keypressKeyVal a with
  | none => []
  | some v => jsDisplay v

/-- The variable substrings an action contributes to its generated
command line(s): its URL (for page-navigation comments) plus the
action-specific payload strings exactly as they are embedded. -/
def actionFragments (a : RecordedAction) : List Str :=
  a.url ::
  (match a.type with
   | .click => [escapeSelector (getPreferredSelector a.selector), textOf a.selector]
   | .input => [escapeSelector (getSelectorString a.selector),
                escapeValue (a.value.getD []), textOf a.selector]
   | .keypress => [keyRendered a, textOf a.selector]
   | .select => [escapeSelector (getPreferredSelector a.selector),
                 escapeValue (a.value.getD [])]
   | .scroll =>
     (match scrollXY a with
      | none => []
      | some xy => [xy.1, xy.2])
   | .manual_step => [jsOrDefault a.description "Complete this step manually".data]
   | .wait => []
   | .navigate => [])

end PlaywrightGenerator

/-! ## Lemma toolkit: prefix and substring reasoning -/

theorem hasPre_nil (s : Str) : hasPre [] s = true := by cases s <;> rfl

theorem hasPre_cons_cons (a b : Char) (p s : Str) :
    hasPre (a :: p) (b :: s) = (a == b && hasPre p s) := rfl

theorem hasPre_append_left (p s t : Str) (h : p.length ≤ s.length) :
    hasPre p (s ++ t) = hasPre p s := by
  induction p generalizing s with
  | nil => simp [hasPre_nil]
  | cons a p ih =>
    cases s with
    | nil => simp at h
    | cons b s' =>
      simp only [List.cons_append, hasPre_cons_cons]
      rw [ih s' (by simpa using h)]

theorem hasPre_append_right (p s t : Str) (h : hasPre p s = true) :
    hasPre p (s ++ t) = true := by
  induction p generalizing s with
  | nil => simp [hasPre_nil]
  | cons a p ih =>
    cases s with
    | nil => simp [hasPre] at h
    | cons b s' =>
      simp only [hasPre_cons_cons, Bool.and_eq_true, beq_iff_eq] at h
      simp only [List.cons_append, hasPre_cons_cons, Bool.and_eq_true, beq_iff_eq]
      exact ⟨h.1, ih s' h.2⟩

theorem hasPre_self_append (p t : Str) : hasPre p (p ++ t) = true := by
  induction p with
  | nil => exact hasPre_nil t
  | cons a p ih => simp [hasPre_cons_cons, ih]

theorem hasPre_refl (p : Str) : hasPre p p = true := by
  have := hasPre_self_append p []
  simpa using this

theorem hasPre_take (p s t : Str) (h : hasPre p (s ++ t) = true) (hl : s.length ≤ p.length) :
    p.take s.length = s := by
  induction s generalizing p with
  | nil => simp
  | cons b s' ih =>
    cases p with
    | nil => simp at hl
    | cons a p' =>
      simp only [List.cons_append, hasPre_cons_cons, Bool.and_eq_true, beq_iff_eq] at h
      simp only [List.length_cons, List.take_succ_cons, h.1]
      rw [ih p' h.2 (by simpa using hl)]

theorem hasPre_mem (p s : Str) (h : hasPre p s = true) : ∀ c ∈ p, c ∈ s := by
  induction p generalizing s with
  | nil => simp
  | cons a p ih =>
    cases s with
    | nil => simp [hasPre] at h
    | cons b s' =>
      simp only [hasPre_cons_cons, Bool.and_eq_true, beq_iff_eq] at h
      intro c hc
      rcases List.mem_cons.mp hc with hc | hc
      · simp [hc, h.1]
      · exact List.mem_cons_of_mem _ (ih s' h.2 c hc)

theorem hasPre_split (p xs : Str) (y : Char) (ys : Str)
    (h : hasPre p (xs ++ y :: ys) = true) : hasPre p xs = true ∨ y ∈ p := by
  induction p generalizing xs with
  | nil => exact Or.inl (hasPre_nil xs)
  | cons a p ih =>
    cases xs with
    | nil =>
      simp only [List.nil_append, hasPre_cons_cons, Bool.and_eq_true, beq_iff_eq] at h
      exact Or.inr (by simp [h.1])
    | cons b xs' =>
      simp only [List.cons_append, hasPre_cons_cons, Bool.and_eq_true, beq_iff_eq] at h
      rcases ih xs' h.2 with h3 | h3
      · exact Or.inl (by simp [hasPre_cons_cons, h.1, h3])
      · exact Or.inr (List.mem_cons_of_mem _ h3)

theorem hasSub_tail (p : Str) (c : Char) (s : Str) (h : hasSub p (c :: s) = false) :
    hasSub p s = false := by
  simp only [hasSub, Bool.or_eq_false_iff] at h
  exact h.2

theorem hasSub_of_hasPre (p s : Str) (h : hasPre p s = true) : hasSub p s = true := by
  cases s with
  | nil => simpa [hasSub] using h
  | cons c s' => simp [hasSub, h]

theorem hasSub_append_self (p t : Str) : hasSub p (p ++ t) = true :=
  hasSub_of_hasPre _ _ (hasPre_self_append p t)

theorem hasPre_false_of_hasSub_false (p s : Str) (h : hasSub p s = false) :
    hasPre p s = false := by
  cases s with
  | nil => simpa [hasSub] using h
  | cons c s' =>
    simp only [hasSub, Bool.or_eq_false_iff] at h
    exact h.1

theorem mem_of_hasSub (p s : Str) (h : hasSub p s = true) : ∀ c ∈ p, c ∈ s := by
  induction s with
  | nil =>
    cases p with
    | nil => simp
    | cons a p' => simp [hasSub, hasPre] at h
  | cons b s' ih =>
    simp only [hasSub, Bool.or_eq_true] at h
    intro c hc
    rcases h with h | h
    · exact hasPre_mem p _ h c hc
    · exact List.mem_cons_of_mem _ (ih h c hc)

theorem hasSub_false_of_missing (p s : Str) (c : Char) (hc : c ∈ p) (hs : c ∉ s) :
    hasSub p s = false := by
  cases h : hasSub p s
  · rfl
  · exact absurd (mem_of_hasSub p s h c hc) hs

theorem hasSub_append_cons (p xs : Str) (y : Char) (ys : Str)
    (hxs : hasSub p xs = false) (hys : hasSub p (y :: ys) = false) (hy : y ∉ p) :
    hasSub p (xs ++ y :: ys) = false := by
  induction xs with
  | nil => simpa using hys
  | cons c xs' ih =>
    have hxs' := hasSub_tail _ _ _ hxs
    show hasSub p (c :: (xs' ++ y :: ys)) = false
    simp only [hasSub, Bool.or_eq_false_iff]
    refine ⟨?_, ih hxs'⟩
    cases hpre : hasPre p (c :: (xs' ++ y :: ys))
    · rfl
    · exfalso
      have : hasPre p ((c :: xs') ++ y :: ys) = true := hpre
      rcases hasPre_split p (c :: xs') y ys this with h3 | h3
      · exact absurd (hasSub_of_hasPre _ _ h3) (by simp [hxs])
      · exact hy h3

theorem sufB_refl (A : Str) : sufB A A = true := hasPre_refl A.reverse

theorem sufB_cons (q : Str) (c : Char) (A : Str) (h : sufB q A = true) :
    sufB q (c :: A) = true := by
  unfold sufB at h ⊢
  rw [List.reverse_cons]
  exact hasPre_append_right _ _ _ h

theorem noPS_elim (p A : Str) (h : noPS p A = true) (k : Nat) (hk0 : 0 < k)
    (hk : k < p.length) : sufB (p.take k) A = false := by
  unfold noPS at h
  simp only [List.all_eq_true, List.mem_range] at h
  have := h k hk
  simp only [Bool.or_eq_true, decide_eq_true_eq, Bool.not_eq_true'] at this
  rcases this with h1 | h1
  · omega
  · exact h1

theorem noPS_tail (p : Str) (c : Char) (A : Str) (h : noPS p (c :: A) = true) :
    noPS p A = true := by
  unfold noPS at h ⊢
  simp only [List.all_eq_true, List.mem_range, Bool.or_eq_true, decide_eq_true_eq,
    Bool.not_eq_true'] at h ⊢
  intro k hk
  rcases h k hk with h1 | h1
  · exact Or.inl h1
  · refine Or.inr ?_
    cases hs : sufB (p.take k) A
    · rfl
    · exact absurd (sufB_cons _ c _ hs) (by simp [h1])

theorem hasSub_concrete_left (p A x : Str) (hA : hasSub p A = false) (hx : hasSub p x = false)
    (hps : noPS p A = true) : hasSub p (A ++ x) = false := by
  induction A with
  | nil => simpa using hx
  | cons c A' ih =>
    have hA' := hasSub_tail _ _ _ hA
    have hps' := noPS_tail _ _ _ hps
    show hasSub p (c :: (A' ++ x)) = false
    simp only [hasSub, Bool.or_eq_false_iff]
    refine ⟨?_, ih hA' hps'⟩
    cases hpre : hasPre p (c :: (A' ++ x))
    · rfl
    · exfalso
      have hpre' : hasPre p ((c :: A') ++ x) = true := hpre
      by_cases hl : p.length ≤ (c :: A').length
      · rw [hasPre_append_left p (c :: A') x hl] at hpre'
        exact absurd (hasSub_of_hasPre _ _ hpre') (by simp [hA])
      · push_neg at hl
        have htake : p.take (c :: A').length = c :: A' :=
          hasPre_take p (c :: A') x hpre' (le_of_lt hl)
        have := noPS_elim p (c :: A') hps (c :: A').length (by simp) hl
        rw [htake] at this
        exact absurd (sufB_refl (c :: A')) (by simp [this])

theorem hasPre_length_le (p s : Str) (h : hasPre p s = true) : p.length ≤ s.length := by
  induction p generalizing s with
  | nil => simp
  | cons a p ih =>
    cases s with
    | nil => simp [hasPre] at h
    | cons b s' =>
      simp only [hasPre_cons_cons, Bool.and_eq_true] at h
      have := ih s' h.2
      simp only [List.length_cons]
      omega

theorem hasPre_head_mem (p : Str) (c : Char) (s : Str) (h : hasPre p (c :: s) = true)
    (hp : p ≠ []) : c ∈ p := by
  cases p with
  | nil => exact absurd rfl hp
  | cons a p' =>
    simp only [hasPre_cons_cons, Bool.and_eq_true, beq_iff_eq] at h
    simp [h.1]

theorem cmFuel_congr (p : Str) (f1 f2 : Nat) (s : Str) (h1 : s.length ≤ f1)
    (h2 : s.length ≤ f2) : cmFuel p f1 s = cmFuel p f2 s := by
  induction f1 generalizing f2 s with
  | zero =>
    have hs : s = [] := List.eq_nil_of_length_eq_zero (by omega)
    subst hs
    cases f2 <;> rfl
  | succ f1 ih =>
    cases s with
    | nil => cases f2 <;> rfl
    | cons c rest =>
      cases f2 with
      | zero => simp at h2
      | succ f2' =>
        simp only [cmFuel]
        by_cases hcond : hasPre p (c :: rest) ∧ p ≠ []
        · rw [if_pos hcond, if_pos hcond]
          have hp : 1 ≤ p.length := by
            cases p with
            | nil => exact absurd rfl hcond.2
            | cons _ _ => simp
          simp only [List.length_cons] at h1 h2
          congr 1
          exact ih f2' _ (by simp only [List.length_drop, List.length_cons]; omega)
            (by simp only [List.length_drop, List.length_cons]; omega)
        · rw [if_neg hcond, if_neg hcond]
          simp only [List.length_cons] at h1 h2
          exact ih f2' rest (by omega) (by omega)

theorem countMatches_nilr (p : Str) : countMatches p [] = 0 := rfl

theorem countMatches_cons (p : Str) (c : Char) (rest : Str) :
    countMatches p (c :: rest) =
      if hasPre p (c :: rest) ∧ p ≠ [] then 1 + countMatches p ((c :: rest).drop p.length)
      else countMatches p rest := by
  unfold countMatches
  by_cases hcond : hasPre p (c :: rest) ∧ p ≠ []
  · simp only [List.length_cons, cmFuel, if_pos hcond]
    have hp : 1 ≤ p.length := by
      cases p with
      | nil => exact absurd rfl hcond.2
      | cons _ _ => simp
    congr 1
    exact cmFuel_congr p rest.length _ _
      (by simp only [List.length_drop, List.length_cons]; omega) le_rfl
  · simp only [List.length_cons, cmFuel, if_neg hcond]

theorem countMatches_eq_zero (p s : Str) (h : hasSub p s = false) : countMatches p s = 0 := by
  induction s with
  | nil => rfl
  | cons c rest ih =>
    rw [countMatches_cons]
    rw [if_neg (by simp [hasPre_false_of_hasSub_false p (c :: rest) h])]
    exact ih (hasSub_tail _ _ _ h)

theorem countMatches_append_cons (p : Str) (hp : p ≠ []) (xs : Str) (y : Char) (ys : Str)
    (hy : y ∉ p) :
    countMatches p (xs ++ y :: ys) = countMatches p xs + countMatches p (y :: ys) := by
  have main : ∀ (n : Nat) (xs : Str), xs.length ≤ n →
      countMatches p (xs ++ y :: ys) = countMatches p xs + countMatches p (y :: ys) := by
    intro n
    induction n with
    | zero =>
      intro xs hxs
      have : xs = [] := List.eq_nil_of_length_eq_zero (by omega)
      subst this
      simp [countMatches_nilr]
    | succ n ih =>
      intro xs hxs
      cases xs with
      | nil => simp [countMatches_nilr]
      | cons c xs' =>
        rw [show (c :: xs') ++ y :: ys = c :: (xs' ++ y :: ys) from rfl]
        rw [countMatches_cons p c (xs' ++ y :: ys), countMatches_cons p c xs']
        have hcond : hasPre p (c :: (xs' ++ y :: ys)) = hasPre p (c :: xs') := by
          show hasPre p ((c :: xs') ++ y :: ys) = hasPre p (c :: xs')
          by_cases hl : p.length ≤ (c :: xs').length
          · exact hasPre_append_left p (c :: xs') (y :: ys) hl
          · push_neg at hl
            cases hL : hasPre p ((c :: xs') ++ y :: ys)
            · cases hR : hasPre p (c :: xs')
              · rfl
              · exact absurd (hasPre_length_le p _ hR) (by omega)
            · exfalso
              rcases hasPre_split p (c :: xs') y ys hL with h3 | h3
              · exact absurd (hasPre_length_le p _ h3) (by omega)
              · exact hy h3
        rw [hcond]
        by_cases hc : hasPre p (c :: xs') = true ∧ p ≠ []
        · rw [if_pos hc, if_pos hc]
          have hlen : p.length ≤ (c :: xs').length := hasPre_length_le p _ hc.1
          have hdrop : (c :: (xs' ++ y :: ys)).drop p.length =
              ((c :: xs').drop p.length) ++ y :: ys := by
            rw [show c :: (xs' ++ y :: ys) = (c :: xs') ++ y :: ys from rfl]
            rw [List.drop_append_eq_append_drop]
            rw [show p.length - (c :: xs').length = 0 from by omega]
            rfl
          rw [hdrop]
          have hp1 : 1 ≤ p.length := by
            cases p with
            | nil => exact absurd rfl hp
            | cons _ _ => simp
          rw [ih ((c :: xs').drop p.length)
            (by simp only [List.length_drop, List.length_cons] at *; omega)]
          omega
        · rw [if_neg hc, if_neg hc]
          exact ih xs' (by simp only [List.length_cons] at hxs; omega)
  exact main xs.length xs le_rfl

theorem noPS_drop (p : Str) (A : Str) (n : Nat) (h : noPS p A = true) :
    noPS p (A.drop n) = true := by
  induction A generalizing n with
  | nil => simpa using h
  | cons c A' ih =>
    cases n with
    | zero => simpa using h
    | succ n => exact ih n (noPS_tail p c A' h)

theorem countMatches_concrete_left (p : Str) (hp : p ≠ []) (A x : Str)
    (hps : noPS p A = true) :
    countMatches p (A ++ x) = countMatches p A + countMatches p x := by
  have main : ∀ (n : Nat) (A : Str), A.length ≤ n → noPS p A = true →
      countMatches p (A ++ x) = countMatches p A + countMatches p x := by
    intro n
    induction n with
    | zero =>
      intro A hA _
      have : A = [] := List.eq_nil_of_length_eq_zero (by omega)
      subst this
      simp [countMatches_nilr]
    | succ n ih =>
      intro A hA hps'
      cases A with
      | nil => simp [countMatches_nilr]
      | cons c A' =>
        rw [show (c :: A') ++ x = c :: (A' ++ x) from rfl]
        rw [countMatches_cons p c (A' ++ x), countMatches_cons p c A']
        have hcond : hasPre p (c :: (A' ++ x)) = hasPre p (c :: A') := by
          show hasPre p ((c :: A') ++ x) = hasPre p (c :: A')
          by_cases hl : p.length ≤ (c :: A').length
          · exact hasPre_append_left p (c :: A') x hl
          · push_neg at hl
            cases hL : hasPre p ((c :: A') ++ x)
            · cases hR : hasPre p (c :: A')
              · rfl
              · exact absurd (hasPre_length_le p _ hR) (by omega)
            · exfalso
              have htake : p.take (c :: A').length = c :: A' :=
                hasPre_take p (c :: A') x hL (le_of_lt hl)
              have := noPS_elim p (c :: A') hps' (c :: A').length (by simp) hl
              rw [htake] at this
              exact absurd (sufB_refl (c :: A')) (by simp [this])
        rw [hcond]
        by_cases hc : hasPre p (c :: A') = true ∧ p ≠ []
        · rw [if_pos hc, if_pos hc]
          have hlen : p.length ≤ (c :: A').length := hasPre_length_le p _ hc.1
          have hdrop : (c :: (A' ++ x)).drop p.length = ((c :: A').drop p.length) ++ x := by
            rw [show c :: (A' ++ x) = (c :: A') ++ x from rfl]
            rw [List.drop_append_eq_append_drop]
            rw [show p.length - (c :: A').length = 0 from by omega]
            rfl
          rw [hdrop]
          have hp1 : 1 ≤ p.length := by
            cases p with
            | nil => exact absurd rfl hp
            | cons _ _ => simp
          rw [ih ((c :: A').drop p.length)
            (by simp only [List.length_drop, List.length_cons] at *; omega)
            (noPS_drop p (c :: A') p.length hps')]
          omega
        · rw [if_neg hc, if_neg hc]
          exact ih A' (by simp only [List.length_cons] at hA; omega) (noPS_tail p c A' hps')
  exact main A.length A le_rfl hps

theorem countMatches_newline_cons (p : Str) (hnl : '\n' ∉ p) (rest : Str) :
    countMatches p ('\n' :: rest) = countMatches p rest := by
  rw [countMatches_cons]
  rw [if_neg]
  rintro ⟨h1, h2⟩
  exact hnl (hasPre_head_mem p '\n' rest h1 h2)

theorem countMatches_joinNL (p : Str) (hp : p ≠ []) (hnl : '\n' ∉ p) (ls : List Str) :
    countMatches p (joinNL ls) = (ls.map (countMatches p)).sum := by
  induction ls with
  | nil => simp [joinNL, countMatches_nilr]
  | cons l ls ih =>
    cases ls with
    | nil => simp [joinNL]
    | cons l2 ls' =>
      rw [show joinNL (l :: l2 :: ls') = l ++ '\n' :: joinNL (l2 :: ls') from rfl]
      rw [countMatches_append_cons p hp l '\n' _ hnl]
      rw [countMatches_newline_cons p hnl]
      rw [ih]
      simp

theorem splitFuel_congr (sep : Str) (f1 f2 : Nat) (s : Str) (h1 : s.length ≤ f1)
    (h2 : s.length ≤ f2) : splitFuel sep f1 s = splitFuel sep f2 s := by
  induction f1 generalizing f2 s with
  | zero =>
    have hs : s = [] := List.eq_nil_of_length_eq_zero (by omega)
    subst hs
    cases f2 <;> rfl
  | succ f1 ih =>
    cases s with
    | nil => cases f2 <;> rfl
    | cons c rest =>
      cases f2 with
      | zero => simp at h2
      | succ f2' =>
        simp only [splitFuel]
        by_cases hcond : hasPre sep (c :: rest) = true ∧ sep ≠ []
        · rw [if_pos hcond, if_pos hcond]
          have hp : 1 ≤ sep.length := by
            cases sep with
            | nil => exact absurd rfl hcond.2
            | cons _ _ => simp
          simp only [List.length_cons] at h1 h2
          rw [ih f2' _ (by simp only [List.length_drop, List.length_cons]; omega)
            (by simp only [List.length_drop, List.length_cons]; omega)]
        · rw [if_neg hcond, if_neg hcond]
          simp only [List.length_cons] at h1 h2
          rw [ih f2' rest (by omega) (by omega)]

theorem jsSplitOn_cons (sep : Str) (c : Char) (rest : Str) :
    jsSplitOn sep (c :: rest) =
      if hasPre sep (c :: rest) = true ∧ sep ≠ [] then
        [] :: jsSplitOn sep ((c :: rest).drop sep.length)
      else
        match jsSplitOn sep rest with
        | [] => [[c]]
        | h :: t => (c :: h) :: t := by
  unfold jsSplitOn
  by_cases hcond : hasPre sep (c :: rest) = true ∧ sep ≠ []
  · simp only [List.length_cons, splitFuel, if_pos hcond]
    have hp : 1 ≤ sep.length := by
      cases sep with
      | nil => exact absurd rfl hcond.2
      | cons _ _ => simp
    congr 1
    exact splitFuel_congr sep rest.length _ _
      (by simp only [List.length_drop, List.length_cons]; omega) le_rfl
  · simp only [List.length_cons, splitFuel, if_neg hcond]

theorem jsSplitOn_no_sub (sep s : Str) (h : hasSub sep s = false) : jsSplitOn sep s = [s] := by
  induction s with
  | nil =>
    cases sep with
    | nil => simp [hasSub, hasPre_nil] at h
    | cons a sep' => rfl
  | cons c rest ih =>
    rw [jsSplitOn_cons]
    rw [if_neg (by rintro ⟨h1, _⟩; rw [hasPre_false_of_hasSub_false sep _ h] at h1; simp at h1)]
    rw [ih (hasSub_tail _ _ _ h)]

theorem jsSplitOn_head_match (sep r : Str) (hsep : sep ≠ []) :
    jsSplitOn sep (sep ++ r) = [] :: jsSplitOn sep r := by
  cases sep with
  | nil => exact absurd rfl hsep
  | cons a sep' =>
    rw [show (a :: sep') ++ r = a :: (sep' ++ r) from rfl]
    rw [jsSplitOn_cons]
    rw [if_pos ⟨hasPre_self_append (a :: sep') r, hsep⟩]
    congr 1
    rw [show a :: (sep' ++ r) = (a :: sep') ++ r from rfl, List.drop_left]

theorem jsTrim_cons_ws (c : Char) (s : Str) (hc : isWsChar c = true) :
    jsTrim (c :: s) = jsTrim s := by
  unfold jsTrim
  rw [List.dropWhile_cons_of_pos (by simpa using hc)]

theorem jsTrim_eq_self_of_ends (s : Str) (hh : ∀ c, s.head? = some c → isWsChar c = false)
    (hl : ∀ c, s.getLast? = some c → isWsChar c = false) : jsTrim s = s := by
  unfold jsTrim
  have h1 : s.dropWhile isWsChar = s := by
    cases s with
    | nil => rfl
    | cons c s' => rw [List.dropWhile_cons_of_neg (by simp [hh c rfl])]
  rw [h1]
  have h2 : s.reverse.dropWhile isWsChar = s.reverse := by
    cases hr : s.reverse with
    | nil => rfl
    | cons c r' =>
      rw [List.dropWhile_cons_of_neg]
      have : s.getLast? = some c := by
        rw [← List.head?_reverse, hr]
        rfl
      simp [hl c this]
  rw [h2, List.reverse_reverse]

theorem splitNL_join (ls : List Str) (h : ∀ l ∈ ls, '\n' ∉ l) (hne : ls ≠ []) :
    splitNL (joinNL ls) = ls := by
  induction ls with
  | nil => exact absurd rfl hne
  | cons l ls ih =>
    have hl : '\n' ∉ l := h l (by simp)
    cases ls with
    | nil =>
      show splitNL l = [l]
      clear ih h hne
      induction l with
      | nil => rfl
      | cons c l' ihl =>
        have hc : c ≠ '\n' := by
          intro hc
          exact hl (by simp [hc])
        have hl' : '\n' ∉ l' := fun hx => hl (List.mem_cons_of_mem _ hx)
        simp only [splitNL, if_neg hc]
        rw [ihl hl']
    | cons l2 ls' =>
      rw [show joinNL (l :: l2 :: ls') = l ++ '\n' :: joinNL (l2 :: ls') from rfl]
      have hrest : splitNL (joinNL (l2 :: ls')) = l2 :: ls' :=
        ih (fun x hx => h x (List.mem_cons_of_mem _ hx)) (by simp)
      clear ih h hne
      induction l with
      | nil =>
        show splitNL ('\n' :: joinNL (l2 :: ls')) = [] :: l2 :: ls'
        simp [splitNL, hrest]
      | cons c l' ihl =>
        have hc : c ≠ '\n' := by
          intro hc
          exact hl (by simp [hc])
        have hl' : '\n' ∉ l' := fun hx => hl (List.mem_cons_of_mem _ hx)
        show splitNL (c :: (l' ++ '\n' :: joinNL (l2 :: ls'))) = (c :: l') :: l2 :: ls'
        simp only [splitNL, if_neg hc]
        rw [ihl hl']

theorem hasPre_cons_head_ne (h0 : Char) (p' : Str) (c : Char) (s : Str) (h : h0 ≠ c) :
    hasPre (h0 :: p') (c :: s) = false := by
  simp [hasPre_cons_cons, h]

theorem hasSub_cons_false (p : Str) (c : Char) (s : Str) (hpre : hasPre p (c :: s) = false)
    (hrest : hasSub p s = false) : hasSub p (c :: s) = false := by
  simp [hasSub, hpre, hrest]

theorem dchar_mem (n : Nat) : dchar n ∈ "0123456789".data := by
  unfold dchar
  split_ifs <;> decide

theorem digitVal_dchar (n : Nat) : digitVal (dchar n) = some (n % 10) := by
  have h : n % 10 < 10 := Nat.mod_lt _ (by norm_num)
  rcases (show n % 10 = 0 ∨ n % 10 = 1 ∨ n % 10 = 2 ∨ n % 10 = 3 ∨ n % 10 = 4 ∨ n % 10 = 5 ∨
      n % 10 = 6 ∨ n % 10 = 7 ∨ n % 10 = 8 ∨ n % 10 = 9 from by omega) with
    h'|h'|h'|h'|h'|h'|h'|h'|h'|h' <;>
    · rw [show dchar n = _ from by unfold dchar; rw [h']]
      rw [h']
      decide

theorem natStrFuel_mem (fuel n : Nat) : ∀ c ∈ natStrFuel fuel n, c ∈ "0123456789".data := by
  induction fuel generalizing n with
  | zero => simp [natStrFuel]
  | succ fuel ih =>
    intro c hc
    simp only [natStrFuel] at hc
    by_cases h : n < 10
    · rw [if_pos h] at hc
      simp only [List.mem_singleton] at hc
      subst hc
      exact dchar_mem n
    · rw [if_neg h] at hc
      rcases List.mem_append.mp hc with h1 | h1
      · exact ih (n / 10) c h1
      · simp only [List.mem_singleton] at h1
        subst h1
        exact dchar_mem n

theorem intStr_mem (i : Int) : ∀ c ∈ intStr i, c ∈ "-0123456789".data := by
  intro c hc
  have hsub : ∀ x ∈ "0123456789".data, x ∈ "-0123456789".data := by decide
  unfold intStr at hc
  split_ifs at hc
  · rcases List.mem_cons.mp hc with h1 | h1
    · subst h1; decide
    · exact hsub c (natStrFuel_mem _ _ c h1)
  · exact hsub c (natStrFuel_mem _ _ c hc)

theorem renderNum_mem (o : Option Int) :
    ∀ c ∈ PlaywrightGenerator.renderNum o, c ∈ "-0123456789Na".data := by
  intro c hc
  have h1 : ∀ x ∈ "NaN".data, x ∈ "-0123456789Na".data := by decide
  have h2 : ∀ x ∈ "-0123456789".data, x ∈ "-0123456789Na".data := by decide
  cases o with
  | none =>
    simp only [PlaywrightGenerator.renderNum] at hc
    exact h1 c hc
  | some n =>
    simp only [PlaywrightGenerator.renderNum] at hc
    exact h2 c (intStr_mem n c hc)

/-! ## The `Date` model: correctness of the round trip -/

theorem sumFrom_add (y a b : Nat) : sumFrom y (a + b) = sumFrom y a + sumFrom (y + a) b := by
  induction a generalizing y with
  | zero => simp [sumFrom]
  | succ a ih =>
    have h1 : a + 1 + b = (a + b) + 1 := by omega
    rw [h1, sumFrom, sumFrom, ih (y + 1)]
    have h2 : y + 1 + a = y + (a + 1) := by omega
    rw [h2]
    omega

set_option maxRecDepth 8000 in
theorem sumFrom_1970_1000 : sumFrom 1970 1000 = 365243 := by decide

set_option maxRecDepth 8000 in
theorem sumFrom_2970_1000 : sumFrom 2970 1000 = 365242 := by decide

set_option maxRecDepth 8000 in
theorem sumFrom_3970_1000 : sumFrom 3970 1000 = 365243 := by decide

set_option maxRecDepth 8000 in
theorem sumFrom_4970_1000 : sumFrom 4970 1000 = 365242 := by decide

set_option maxRecDepth 8000 in
theorem sumFrom_5970_1000 : sumFrom 5970 1000 = 365243 := by decide

set_option maxRecDepth 8000 in
theorem sumFrom_6970_1000 : sumFrom 6970 1000 = 365242 := by decide

set_option maxRecDepth 8000 in
theorem sumFrom_7970_1000 : sumFrom 7970 1000 = 365243 := by decide

set_option maxRecDepth 8000 in
theorem sumFrom_8970_1000 : sumFrom 8970 1000 = 365242 := by decide

theorem sumFrom_9970_30 : sumFrom 9970 30 = 10957 := by decide

/-- Days from 1970-01-01 to 10000-01-01. -/
theorem sumFrom_1970_8030 : sumFrom 1970 8030 = 2932897 := by
  have h1 : (8030 : Nat) = 1000 + (1000 + (1000 + (1000 + (1000 + (1000 + (1000 +
      (1000 + 30))))))) := by norm_num
  rw [h1]
  rw [sumFrom_add 1970 1000, sumFrom_add 2970 1000, sumFrom_add 3970 1000,
    sumFrom_add 4970 1000, sumFrom_add 5970 1000, sumFrom_add 6970 1000,
    sumFrom_add 7970 1000, sumFrom_add 8970 1000]
  rw [sumFrom_1970_1000, sumFrom_2970_1000, sumFrom_3970_1000, sumFrom_4970_1000,
    sumFrom_5970_1000, sumFrom_6970_1000, sumFrom_7970_1000, sumFrom_8970_1000,
    sumFrom_9970_30]

theorem sumFrom_le (y n : Nat) : 365 * n ≤ sumFrom y n := by
  induction n generalizing y with
  | zero => simp [sumFrom]
  | succ n ih =>
    rw [sumFrom]
    have := ih (y + 1)
    unfold daysInYear
    split_ifs <;> omega

/-- The year loop is correct: with enough fuel it lands on the year
containing the day, returning the in-year offset. -/
theorem yearFromDays_spec (fuel : Nat) : ∀ (y days : Nat), days ≤ fuel →
    y ≤ (yearFromDays fuel y days).1 ∧
    (yearFromDays fuel y days).2 < daysInYear (yearFromDays fuel y days).1 ∧
    sumFrom y ((yearFromDays fuel y days).1 - y) + (yearFromDays fuel y days).2 = days := by
  induction fuel with
  | zero =>
    intro y days hd
    have : days = 0 := by omega
    subst this
    simp only [yearFromDays, sumFrom]
    refine ⟨le_rfl, ?_, by simp [sumFrom]⟩
    unfold daysInYear
    split_ifs <;> omega
  | succ fuel ih =>
    intro y days hd
    by_cases h : days < daysInYear y
    · simp only [yearFromDays, if_pos h]
      exact ⟨le_rfl, by simpa using h, by simp [sumFrom]⟩
    · push_neg at h
      simp only [yearFromDays, if_neg (by omega : ¬ days < daysInYear y)]
      have hdy : 365 ≤ daysInYear y := by unfold daysInYear; split_ifs <;> omega
      have hrec := ih (y + 1) (days - daysInYear y) (by omega)
      obtain ⟨h1, h2, h3⟩ := hrec
      refine ⟨by omega, h2, ?_⟩
      have hy1 : (yearFromDays fuel (y + 1) (days - daysInYear y)).1 - y =
          ((yearFromDays fuel (y + 1) (days - daysInYear y)).1 - (y + 1)) + 1 := by omega
      rw [hy1]
      have : sumFrom y (((yearFromDays fuel (y + 1) (days - daysInYear y)).1 - (y + 1)) + 1) =
          daysInYear y +
            sumFrom (y + 1) ((yearFromDays fuel (y + 1) (days - daysInYear y)).1 - (y + 1)) := by
        rw [show ((yearFromDays fuel (y + 1) (days - daysInYear y)).1 - (y + 1)) + 1 =
          1 + ((yearFromDays fuel (y + 1) (days - daysInYear y)).1 - (y + 1)) from by omega]
        rw [sumFrom_add y 1]
        simp [sumFrom]
      rw [this]
      omega

/-- The month table is correct: for an in-range day of year, the month
lookup inverts the month offset table. -/
theorem monthFromDoyF_spec (f doy : Nat) (h : doy < 365 + f) :
    1 ≤ (monthFromDoyF f doy).1 ∧ (monthFromDoyF f doy).1 ≤ 12 ∧
    (monthFromDoyF f doy).2 + 1 ≤ daysInMonthF f (monthFromDoyF f doy).1 ∧
    monthOffsetF f (monthFromDoyF f doy).1 + (monthFromDoyF f doy).2 = doy := by
  unfold monthFromDoyF
  by_cases h1 : doy < 31
  · rw [if_pos h1]
    refine ⟨by norm_num, by norm_num, ?_, ?_⟩ <;> simp [daysInMonthF, monthOffsetF] <;> omega
  · rw [if_neg h1]
    by_cases h2 : doy < 59 + f
    · rw [if_pos h2]
      refine ⟨by norm_num, by norm_num, ?_, ?_⟩ <;> simp [daysInMonthF, monthOffsetF] <;> omega
    · rw [if_neg h2]
      by_cases h3 : doy < 90 + f
      · rw [if_pos h3]
        refine ⟨by norm_num, by norm_num, ?_, ?_⟩ <;> simp [daysInMonthF, monthOffsetF] <;> omega
      · rw [if_neg h3]
        by_cases h4 : doy < 120 + f
        · rw [if_pos h4]
          refine ⟨by norm_num, by norm_num, ?_, ?_⟩ <;> simp [daysInMonthF, monthOffsetF] <;> omega
        · rw [if_neg h4]
          by_cases h5 : doy < 151 + f
          · rw [if_pos h5]
            refine ⟨by norm_num, by norm_num, ?_, ?_⟩ <;> simp [daysInMonthF, monthOffsetF] <;> omega
          · rw [if_neg h5]
            by_cases h6 : doy < 181 + f
            · rw [if_pos h6]
              refine ⟨by norm_num, by norm_num, ?_, ?_⟩ <;> simp [daysInMonthF, monthOffsetF] <;> omega
            · rw [if_neg h6]
              by_cases h7 : doy < 212 + f
              · rw [if_pos h7]
                refine ⟨by norm_num, by norm_num, ?_, ?_⟩ <;> simp [daysInMonthF, monthOffsetF] <;> omega
              · rw [if_neg h7]
                by_cases h8 : doy < 243 + f
                · rw [if_pos h8]
                  refine ⟨by norm_num, by norm_num, ?_, ?_⟩ <;> simp [daysInMonthF, monthOffsetF] <;> omega
                · rw [if_neg h8]
                  by_cases h9 : doy < 273 + f
                  · rw [if_pos h9]
                    refine ⟨by norm_num, by norm_num, ?_, ?_⟩ <;> simp [daysInMonthF, monthOffsetF] <;> omega
                  · rw [if_neg h9]
                    by_cases h10 : doy < 304 + f
                    · rw [if_pos h10]
                      refine ⟨by norm_num, by norm_num, ?_, ?_⟩ <;> simp [daysInMonthF, monthOffsetF] <;> omega
                    · rw [if_neg h10]
                      by_cases h11 : doy < 334 + f
                      · rw [if_pos h11]
                        refine ⟨by norm_num, by norm_num, ?_, ?_⟩ <;> simp [daysInMonthF, monthOffsetF] <;> omega
                      · rw [if_neg h11]
                        refine ⟨by norm_num, by norm_num, ?_, ?_⟩ <;> simp [daysInMonthF, monthOffsetF] <;> omega

theorem daysInYear_eq (y : Nat) : daysInYear y = 365 + (if isLeap y then 1 else 0) := by
  unfold daysInYear
  cases isLeap y <;> simp

theorem monthFromDoy_spec (y doy : Nat) (h : doy < daysInYear y) :
    1 ≤ (monthFromDoy y doy).1 ∧ (monthFromDoy y doy).1 ≤ 12 ∧
    (monthFromDoy y doy).2 + 1 ≤ daysInMonth y (monthFromDoy y doy).1 ∧
    monthOffset y (monthFromDoy y doy).1 + (monthFromDoy y doy).2 = doy := by
  rw [daysInYear_eq] at h
  unfold monthFromDoy daysInMonth monthOffset
  exact monthFromDoyF_spec _ doy h

theorem d2v_dchar (a b : Nat) : d2v (dchar a) (dchar b) = some (10 * (a % 10) + b % 10) := by
  unfold d2v
  rw [digitVal_dchar, digitVal_dchar]

theorem d3v_dchar (a b c : Nat) :
    d3v (dchar a) (dchar b) (dchar c) = some (100 * (a % 10) + (10 * (b % 10) + c % 10)) := by
  unfold d3v
  rw [digitVal_dchar, d2v_dchar]

theorem d4v_dchar (a b c d : Nat) :
    d4v (dchar a) (dchar b) (dchar c) (dchar d) =
      some (100 * (10 * (a % 10) + b % 10) + (10 * (c % 10) + d % 10)) := by
  unfold d4v
  rw [d2v_dchar, d2v_dchar]

set_option maxRecDepth 4000 in
/-- The central `Date` fact: re-parsing the emitted ISO string recovers
the exact millisecond timestamp, for any timestamp before the year
10000. -/
theorem dateGetTime_toISO (t : Nat) (h : t < 253402300800000) :
    dateGetTime (toISOString t) = some (t : Int) := by
  have hdb : t / 86400000 ≤ 2932896 := by omega
  have hyd := yearFromDays_spec (t / 86400000) 1970 (t / 86400000) le_rfl
  rcases hy : yearFromDays (t / 86400000) 1970 (t / 86400000) with ⟨y, doy⟩
  rw [hy] at hyd
  dsimp only at hyd
  obtain ⟨hy1970, hdoy, hsum⟩ := hyd
  have hy9999 : y ≤ 9999 := by
    by_contra hcon
    push_neg at hcon
    have h8030 : y - 1970 = 8030 + (y - 1970 - 8030) := by omega
    have := sumFrom_add 1970 8030 (y - 1970 - 8030)
    rw [← h8030] at this
    rw [this, sumFrom_1970_8030] at hsum
    omega
  have hmd := monthFromDoy_spec y doy hdoy
  rcases hm : monthFromDoy y doy with ⟨mo, dom⟩
  rw [hm] at hmd
  dsimp only at hmd
  obtain ⟨hmo1, hmo12, hdom, hoff⟩ := hmd
  have hdim : daysInMonth y mo ≤ 31 := by
    unfold daysInMonth daysInMonthF
    split_ifs <;> omega
  have hiso : toISOString t =
      pad4 y ++ '-' :: pad2 mo ++ '-' :: pad2 (dom + 1) ++
        'T' :: pad2 (t % 86400000 / 3600000) ++ ':' :: pad2 (t % 86400000 / 60000 % 60) ++
        ':' :: pad2 (t % 86400000 / 1000 % 60) ++ '.' :: pad3 (t % 1000) ++ ['Z'] := by
    unfold toISOString
    dsimp only
    rw [hy]
    dsimp only
    rw [hm]
  rw [hiso]
  simp only [pad4, pad2, pad3, List.cons_append, List.nil_append]
  rw [dateGetTime]
  rw [show d4v (dchar (y / 1000)) (dchar (y / 100)) (dchar (y / 10)) (dchar y) = some y from by
    rw [d4v_dchar]; exact Option.some_inj.mpr (by omega)]
  rw [show d2v (dchar (mo / 10)) (dchar mo) = some mo from by
    rw [d2v_dchar]; exact Option.some_inj.mpr (by omega)]
  rw [show d2v (dchar ((dom + 1) / 10)) (dchar (dom + 1)) = some (dom + 1) from by
    rw [d2v_dchar]; exact Option.some_inj.mpr (by omega)]
  rw [show d2v (dchar (t % 86400000 / 3600000 / 10)) (dchar (t % 86400000 / 3600000)) =
      some (t % 86400000 / 3600000) from by
    rw [d2v_dchar]; exact Option.some_inj.mpr (by omega)]
  rw [show d2v (dchar (t % 86400000 / 60000 % 60 / 10)) (dchar (t % 86400000 / 60000 % 60)) =
      some (t % 86400000 / 60000 % 60) from by
    rw [d2v_dchar]; exact Option.some_inj.mpr (by omega)]
  rw [show d2v (dchar (t % 86400000 / 1000 % 60 / 10)) (dchar (t % 86400000 / 1000 % 60)) =
      some (t % 86400000 / 1000 % 60) from by
    rw [d2v_dchar]; exact Option.some_inj.mpr (by omega)]
  rw [show d3v (dchar (t % 1000 / 100)) (dchar (t % 1000 / 10)) (dchar (t % 1000)) =
      some (t % 1000) from by
    rw [d3v_dchar]; exact Option.some_inj.mpr (by omega)]
  dsimp only
  rw [if_pos (show 1 ≤ mo ∧ mo ≤ 12 ∧ 1 ≤ dom + 1 ∧ dom + 1 ≤ daysInMonth y mo ∧
      t % 86400000 / 3600000 ≤ 23 ∧ t % 86400000 / 60000 % 60 ≤ 59 ∧
      t % 86400000 / 1000 % 60 ≤ 59 from
    ⟨hmo1, hmo12, by omega, hdom, by omega, by omega, by omega⟩)]
  congr 1
  unfold daysFromCivil
  rw [if_pos hy1970]
  have hoff' : monthOffset y mo + (dom + 1 - 1) = doy := by omega
  rw [hoff']
  push_cast
  omega

/-! ## Claim C1: rollback of a failed `startRecording` -/

/-- C1: if the capture-listener injection throws during
`startRecording`, the call rethrows that error and resets the recorder
to idle: `isRecording` is false, `currentRecording` is null and the
current tab reference is null. -/
theorem c1_start_rollback (r : RecorderS) (tab : TabInfo) (nm : Str)
    (description : Option Str) (newId : Str) (now : Nat) (e : Str)
    (hidle : r.state.isRecording = false) :
    (ActionRecorder.startRecording r tab nm description newId now (some e)).2 =
        Except.error e ∧
    (ActionRecorder.startRecording r tab nm description newId now
        (some e)).1.state.isRecording = false ∧
    (ActionRecorder.startRecording r tab nm description newId now
        (some e)).1.state.currentRecording = none ∧
    (ActionRecorder.startRecording r tab nm description newId now (some e)).1.currentTab =
        none := by
  unfold ActionRecorder.startRecording
  rw [if_neg (by simp [hidle])]
  exact ⟨rfl, rfl, rfl, rfl⟩

theorem c1_start_rollback_witness :
    ActionRecorder.initial.state.isRecording = false ∧
    ((ActionRecorder.startRecording ActionRecorder.initial ⟨1, "https://e.com/".data⟩
        "rec".data none "id1".data 5 (some "boom".data)).2 = Except.error "boom".data ∧
     (ActionRecorder.startRecording ActionRecorder.initial ⟨1, "https://e.com/".data⟩
        "rec".data none "id1".data 5 (some "boom".data)).1.state.isRecording = false ∧
     (ActionRecorder.startRecording ActionRecorder.initial ⟨1, "https://e.com/".data⟩
        "rec".data none "id1".data 5 (some "boom".data)).1.state.currentRecording = none ∧
     (ActionRecorder.startRecording ActionRecorder.initial ⟨1, "https://e.com/".data⟩
        "rec".data none "id1".data 5 (some "boom".data)).1.currentTab = none) :=
  ⟨rfl, c1_start_rollback ActionRecorder.initial ⟨1, "https://e.com/".data⟩ "rec".data none
    "id1".data 5 "boom".data rfl⟩

/-! ## Claim C4: the `startReplay` guard -/

/-- C4 counterexample: from the `completed` state (which is not
`idle`), `startReplay` does not throw the already-replaying error — it
runs to completion. -/
theorem c4_guard_counterexample :
    (ActionReplayer.startReplay
        { recording := none, currentActionIndex := 0, state := .completed,
          onStatusChange := false }
        { id := "r".data, name := "r".data, createdAt := some 0, updatedAt := some 0,
          actions := [] }
        false (Except.ok []) (fun _ => true) none).2.1 = Except.ok () ∧
    (ActionReplayer.startReplay
        { recording := none, currentActionIndex := 0, state := .completed,
          onStatusChange := false }
        { id := "r".data, name := "r".data, createdAt := some 0, updatedAt := some 0,
          actions := [] }
        false (Except.ok []) (fun _ => true) none).1.state = .completed := by
  exact ⟨rfl, rfl⟩

/-- C4 (amended): `startReplay` fails with the already-replaying error
exactly when the state is `running` (leaving the state untouched and
executing nothing); from every other state — including `paused`,
`manual_step`, `completed` and `error` — the guard passes, the
recording is installed and the script is executed. -/
theorem c4_guard (r : ReplayerS) (rec : Recording) (hasCb : Bool) (script : Except Str Str)
    (oracle : Nat → Bool) (postError : Option Str) :
    (r.state = .running →
      ActionReplayer.startReplay r rec hasCb script oracle postError =
        (r, Except.error "Already replaying".data, [], [])) ∧
    (r.state ≠ .running →
      (ActionReplayer.startReplay r rec hasCb script oracle postError).1.recording =
          some rec ∧
      ∀ content, script = Except.ok content →
        (ActionReplayer.startReplay r rec hasCb script oracle postError).2.2.2 =
          ActionReplayer.executePlaywrightInCurrentTab content oracle) := by
  constructor
  · intro hrun
    unfold ActionReplayer.startReplay
    rw [if_pos hrun]
  · intro hnot
    unfold ActionReplayer.startReplay
    rw [if_neg hnot]
    cases script with
    | error e => exact ⟨rfl, by intro content hc; cases hc⟩
    | ok content =>
      refine ⟨?_, ?_⟩
      · cases hpost : (if truthyStr (rec.metadata.bind fun m => m.targetSite) then postError
          else none : Option Str) <;> simp [hpost]
      · intro content' hc
        cases hc
        cases hpost : (if truthyStr (rec.metadata.bind fun m => m.targetSite) then postError
          else none : Option Str) <;> simp [hpost]

theorem c4_guard_witness :
    ((⟨none, 0, .running, false⟩ : ReplayerS).state = .running) ∧
    (ActionReplayer.startReplay ⟨none, 0, .running, false⟩
        { id := "r".data, name := "r".data, createdAt := some 0, updatedAt := some 0,
          actions := [] }
        false (Except.ok []) (fun _ => true) none =
      (⟨none, 0, .running, false⟩, Except.error "Already replaying".data, [], [])) :=
  ⟨rfl, (c4_guard ⟨none, 0, .running, false⟩
    { id := "r".data, name := "r".data, createdAt := some 0, updatedAt := some 0,
      actions := [] }
    false (Except.ok []) (fun _ => true) none).1 rfl⟩

/-! ## Claim C6: the `pauseRecording` / `resumeRecording` guards -/

/-- C6 counterexample: pausing while already paused succeeds (it does
not fail with the not-recording error), contradicting the claim that
`pause` is valid only from the un-paused `recording` state. -/
theorem c6_guard_counterexample :
    (ActionRecorder.pauseRecording (⟨⟨true, true, none, []⟩, none⟩ : RecorderS)).2 =
        Except.ok () ∧
    (ActionRecorder.resumeRecording (⟨⟨true, false, none, []⟩, none⟩ : RecorderS)).2 =
        Except.ok () := ⟨rfl, rfl⟩

/-- C6 (amended): `pauseRecording` and `resumeRecording` fail with the
not-recording error exactly when `isRecording` is false; whenever
`isRecording` is true both succeed — pausing while already paused and
resuming while not paused are accepted no-ops, not errors. -/
theorem c6_guard (r : RecorderS) :
    ((ActionRecorder.pauseRecording r).2 = Except.error "Not recording".data ↔
      r.state.isRecording = false) ∧
    ((ActionRecorder.resumeRecording r).2 = Except.error "Not recording".data ↔
      r.state.isRecording = false) ∧
    (r.state.isRecording = true →
      (ActionRecorder.pauseRecording r).2 = Except.ok () ∧
      (ActionRecorder.pauseRecording r).1.state.isPaused = true ∧
      (ActionRecorder.resumeRecording r).2 = Except.ok () ∧
      (ActionRecorder.resumeRecording r).1.state.isPaused = false) := by
  unfold ActionRecorder.pauseRecording ActionRecorder.resumeRecording
  cases hrec : r.state.isRecording <;> simp [hrec]

theorem c6_guard_witness :
    ((⟨⟨true, true, none, []⟩, none⟩ : RecorderS).state.isRecording = true) ∧
    (ActionRecorder.pauseRecording (⟨⟨true, true, none, []⟩, none⟩ : RecorderS)).2 =
        Except.ok () :=
  ⟨rfl, ((c6_guard (⟨⟨true, true, none, []⟩, none⟩ : RecorderS)).2.2 rfl).1⟩

/-! ## Claim C5: the `wait` duration -/

theorem digit_mem (c : Char) (h : (digitVal c).isSome = true) : c ∈ "0123456789".data := by
  unfold digitVal at h
  split_ifs at h with h0 h1 h2 h3 h4 h5 h6 h7 h8 h9
  all_goals first | (subst_vars; decide) | simp at h

theorem digit_props (c : Char) (h : (digitVal c).isSome = true) :
    isWsChar c = false ∧ c ≠ '-' ∧ c ≠ '+' ∧ c ≠ 'x' ∧ c ≠ 'X' := by
  have hm := digit_mem c h
  have hall : ∀ x ∈ "0123456789".data,
      isWsChar x = false ∧ x ≠ '-' ∧ x ≠ '+' ∧ x ≠ 'x' ∧ x ≠ 'X' := by decide
  exact hall c hm

theorem takeWhile_all {p : Char → Bool} (l : Str) (h : ∀ c ∈ l, p c = true) :
    List.takeWhile p l = l := by
  induction l with
  | nil => rfl
  | cons c l ih =>
    rw [List.takeWhile_cons, if_pos (h c (by simp))]
    rw [ih fun x hx => h x (by simp [hx])]

theorem jsParseInt_digits (v : Str) (hne : v ≠ [])
    (hall : ∀ c ∈ v, (digitVal c).isSome = true) :
    jsParseInt v = some ((digitsVal 0 v : Nat) : Int) := by
  cases v with
  | nil => exact absurd rfl hne
  | cons c v2 =>
    have hc := digit_props c (hall c (by simp))
    have hdrop : List.dropWhile isWsChar (c :: v2) = c :: v2 := by
      rw [List.dropWhile_cons, if_neg (by simp [hc.1])]
    have hneg : hasPre ['-'] (c :: v2) = false := by
      have hb : ('-' == c) = false := by
        rw [beq_eq_false_iff_ne]
        exact Ne.symm hc.2.1
      simp [hasPre, hb]
    have hplus : hasPre ['+'] (c :: v2) = false := by
      have hb : ('+' == c) = false := by
        rw [beq_eq_false_iff_ne]
        exact Ne.symm hc.2.2.1
      simp [hasPre, hb]
    have hhex1 : hasPre ['0', 'x'] (c :: v2) = false := by
      cases v2 with
      | nil => simp [hasPre]
      | cons c2 v3 =>
        have hd2 := digit_props c2 (hall c2 (by simp))
        have hb : ('x' == c2) = false := by
          rw [beq_eq_false_iff_ne]
          exact Ne.symm hd2.2.2.2.1
        simp [hasPre, hb]
    have hhex2 : hasPre ['0', 'X'] (c :: v2) = false := by
      cases v2 with
      | nil => simp [hasPre]
      | cons c2 v3 =>
        have hd2 := digit_props c2 (hall c2 (by simp))
        have hb : ('X' == c2) = false := by
          rw [beq_eq_false_iff_ne]
          exact Ne.symm hd2.2.2.2.2
        simp [hasPre, hb]
    have htake : List.takeWhile (fun c => (digitVal c).isSome) (c :: v2) = c :: v2 :=
      takeWhile_all _ hall
    unfold jsParseInt
    simp only [hdrop, hneg, hplus, hhex1, hhex2, Bool.or_self, Bool.or_false, Bool.false_or,
      if_false, Bool.false_eq_true, ite_false, htake]
    rw [if_neg (by simp : ¬(c :: v2 = []))]

theorem jsParseInt_headJunk (c : Char) (v : Str) (hw : isWsChar c = false)
    (hd : digitVal c = none) (hm : c ≠ '-') (hp : c ≠ '+') :
    jsParseInt (c :: v) = none := by
  have hdrop : List.dropWhile isWsChar (c :: v) = c :: v := by
    rw [List.dropWhile_cons, if_neg (by simp [hw])]
  have hneg : hasPre ['-'] (c :: v) = false := by
    have hb : ('-' == c) = false := by
      rw [beq_eq_false_iff_ne]
      exact Ne.symm hm
    simp [hasPre, hb]
  have hplus : hasPre ['+'] (c :: v) = false := by
    have hb : ('+' == c) = false := by
      rw [beq_eq_false_iff_ne]
      exact Ne.symm hp
    simp [hasPre, hb]
  have hc0 : ('0' == c) = false := by
    rw [beq_eq_false_iff_ne]
    intro h0
    rw [← h0] at hd
    simp [digitVal] at hd
  have hhex1 : hasPre ['0', 'x'] (c :: v) = false := by simp [hasPre, hc0]
  have hhex2 : hasPre ['0', 'X'] (c :: v) = false := by simp [hasPre, hc0]
  have htake : List.takeWhile (fun c => (digitVal c).isSome) (c :: v) = [] := by
    rw [List.takeWhile_cons, if_neg (by simp [hd])]
  unfold jsParseInt
  simp only [hdrop, hneg, hplus, hhex1, hhex2, Bool.or_self, Bool.or_false, Bool.false_or,
    if_false, Bool.false_eq_true, ite_false, htake]
  rfl

theorem jsParseInt_1000 : jsParseInt "1000".data = some 1000 := by decide

theorem intStr_ofNat (n : Nat) : intStr ((n : Nat) : Int) = natStr n := by
  unfold intStr
  rw [if_neg (by omega)]
  simp

/-- C5 counterexample: for a `wait` action whose value is the
non-numeric non-empty string "abc", the generated command is
`waitForTimeout(NaN)` — the 1000ms default is *not* applied. -/
theorem c5_wait_counterexample :
    PlaywrightGenerator.processActions (some "https://e.com/".data) [] none
        [{ id := "a1".data, type := .wait, timestamp := 0, url := "https://e.com/".data,
           value := some "abc".data }] =
      ["  await page.waitForTimeout(NaN);".data] ∧
    "  await page.waitForTimeout(1000);".data ∉
      PlaywrightGenerator.processActions (some "https://e.com/".data) [] none
        [{ id := "a1".data, type := .wait, timestamp := 0, url := "https://e.com/".data,
           value := some "abc".data }] := by
  constructor
  · rfl
  · decide

/-- C5 (amended): every `wait` action emits a `waitForTimeout` command
whose duration is `parseInt(value || "1000")`: the 1000ms default
applies exactly when the value is absent or the empty string; a value
made of decimal digits yields its numeric value; a non-numeric
non-empty value (first character not whitespace, not a sign, not a
digit) yields the literal `NaN`, not 1000. -/
theorem c5_wait_duration (lastUrl : Option Str) (pending : List (Str × Str))
    (lastSel : Option Str) (a : RecordedAction) (rest : List RecordedAction)
    (hw : a.type = .wait) :
    ("  await page.waitForTimeout(".data ++
        PlaywrightGenerator.renderNum (jsParseInt (jsOrDefault a.value "1000".data)) ++
        ");".data ∈
      PlaywrightGenerator.processActions lastUrl pending lastSel (a :: rest)) ∧
    (a.value = none ∨ a.value = some [] →
      PlaywrightGenerator.renderNum (jsParseInt (jsOrDefault a.value "1000".data)) =
        natStr 1000) ∧
    (∀ v, a.value = some v → v ≠ [] → (∀ c ∈ v, (digitVal c).isSome = true) →
      PlaywrightGenerator.renderNum (jsParseInt (jsOrDefault a.value "1000".data)) =
        natStr (digitsVal 0 v)) ∧
    (∀ c v, a.value = some (c :: v) → isWsChar c = false → digitVal c = none →
      c ≠ '-' → c ≠ '+' →
      PlaywrightGenerator.renderNum (jsParseInt (jsOrDefault a.value "1000".data)) =
        "NaN".data) := by
  refine ⟨?_, ?_, ?_, ?_⟩
  · simp only [PlaywrightGenerator.processActions]
    rw [hw]
    simp [List.mem_append]
  · rintro (h | h) <;> rw [h] <;> rfl
  · intro v hv hne hall
    rw [hv]
    have hemp : v.isEmpty = false := by
      cases v with
      | nil => exact absurd rfl hne
      | cons c v2 => rfl
    show PlaywrightGenerator.renderNum
      (jsParseInt (if v.isEmpty then "1000".data else v)) = _
    rw [hemp]
    rw [if_neg (by simp)]
    rw [jsParseInt_digits v hne hall]
    show intStr _ = _
    rw [intStr_ofNat]
  · intro c v hv hwch hd hm hp
    rw [hv]
    show PlaywrightGenerator.renderNum
      (jsParseInt (if (c :: v).isEmpty then "1000".data else c :: v)) = _
    rw [show (c :: v).isEmpty = false from rfl]
    rw [if_neg (by simp)]
    rw [jsParseInt_headJunk c v hwch hd hm hp]
    rfl

theorem c5_wait_duration_witness :
    ({ id := "a1".data, type := .wait, timestamp := 0, url := "https://e.com/".data,
        value := some "250".data } : RecordedAction).type = .wait ∧
    ("  await page.waitForTimeout(".data ++
        PlaywrightGenerator.renderNum (jsParseInt (jsOrDefault
          ({ id := "a1".data, type := .wait, timestamp := 0, url := "https://e.com/".data,
             value := some "250".data } : RecordedAction).value "1000".data)) ++
        ");".data ∈
      PlaywrightGenerator.processActions (some "https://e.com/".data) [] none
        [{ id := "a1".data, type := .wait, timestamp := 0, url := "https://e.com/".data,
           value := some "250".data }]) :=
  ⟨rfl, (c5_wait_duration (some "https://e.com/".data) [] none
    { id := "a1".data, type := .wait, timestamp := 0, url := "https://e.com/".data,
      value := some "250".data } [] rfl).1⟩

/-! ## Claim C7: failure isolation in the replay loop -/

theorem execLoop_map_fst (oracle : Nat → Bool) (lines : List Str) :
    ∀ k, (ActionReplayer.execLoop oracle lines k).map Prod.fst =
      lines.filterMap ActionReplayer.replayLineAction := by
  induction lines with
  | nil => intro k; rfl
  | cons line rest ih =>
    intro k
    rw [ActionReplayer.execLoop]
    cases hla : ActionReplayer.replayLineAction line with
    | none => simp [hla, ih k]
    | some c =>
      cases hok : oracle k with
      | false => simp [ActionReplayer.runCall, hla, hok, ih (k + 1)]
      | true => simp [ActionReplayer.runCall, hla, hok, ih (k + 1)]

/-- C7: the set of page commands a replay attempts does not depend on
which commands fail: under every failure oracle the trace of attempted
calls is exactly the recognised commands of the script, and a replay
whose page commands all fail still finishes with a success result (no
error is propagated from a failing line). -/
theorem c7_failure_isolation (content : Str) (oracle : Nat → Bool) :
    ((ActionReplayer.executePlaywrightInCurrentTab content oracle).map Prod.fst =
      recognizedCommands content) ∧
    (∀ r rec hasCb, r.state ≠ ReplayState.running →
      (ActionReplayer.startReplay r rec hasCb (Except.ok content) oracle none).2.1 =
        Except.ok ()) := by
  constructor
  · exact execLoop_map_fst oracle (splitNL content) 0
  · intro r rec hasCb hr
    unfold ActionReplayer.startReplay
    rw [if_neg hr]
    simp only [ite_self]

theorem c7_failure_isolation_witness :
    ((ActionReplayer.executePlaywrightInCurrentTab
        "  await page.click(\x27#a\x27);\n  await page.fill(\x27#q\x27, \x27v\x27);".data
        (fun _ => false)).map Prod.fst =
      recognizedCommands
        "  await page.click(\x27#a\x27);\n  await page.fill(\x27#q\x27, \x27v\x27);".data) ∧
    (ActionReplayer.initial.state ≠ ReplayState.running) ∧
    ((ActionReplayer.startReplay ActionReplayer.initial
        { id := "r".data, name := "r".data, createdAt := some 0, updatedAt := some 0,
          actions := [] }
        false
        (Except.ok "  await page.click(\x27#a\x27);\n  await page.fill(\x27#q\x27, \x27v\x27);".data)
        (fun _ => false) none).2.1 = Except.ok ()) :=
  ⟨(c7_failure_isolation
      "  await page.click(\x27#a\x27);\n  await page.fill(\x27#q\x27, \x27v\x27);".data
      (fun _ => false)).1,
   by decide,
   (c7_failure_isolation
      "  await page.click(\x27#a\x27);\n  await page.fill(\x27#q\x27, \x27v\x27);".data
      (fun _ => false)).2 ActionReplayer.initial
      { id := "r".data, name := "r".data, createdAt := some 0, updatedAt := some 0,
        actions := [] }
      false (by decide)⟩

/-! ## Claim C10: the replayer never reports progress -/

theorem reach_idx_zero (s : ReplayerS) (h : ActionReplayer.Reach s) :
    s.currentActionIndex = 0 := by
  induction h with
  | init => rfl
  | start s rec hasCb script oracle postError hs ih =>
    unfold ActionReplayer.startReplay
    by_cases hr : s.state = ReplayState.running
    · rw [if_pos hr]; exact ih
    · rw [if_neg hr]
      cases script with
      | error e => rfl
      | ok content =>
        dsimp only
        cases hm : (if truthyStr (rec.metadata.bind fun m => m.targetSite) then postError
            else none : Option Str) with
        | none => rfl
        | some e => rfl
  | pauseStep s hs ih =>
    unfold ActionReplayer.pause
    by_cases hr : s.state = ReplayState.running
    · rw [if_pos hr]; exact ih
    · rw [if_neg hr]; exact ih
  | resumeStep s hs ih =>
    unfold ActionReplayer.resume
    by_cases hr : s.state = ReplayState.paused ∨ s.state = ReplayState.manual_step
    · rw [if_pos hr]; exact ih
    · rw [if_neg hr]; exact ih
  | stopStep s hs ih => rfl

/-- C10: in every reachable replayer state the action index is 0;
`getStatus` always reports index 0 and `totalActions` 0, and every
status delivered to the observer carries index 0 and `totalActions`
equal to the recording metadata's manual-step count (defaulting to 0),
never the number of executed commands. -/
theorem c10_no_progress (s : ReplayerS) (h : ActionReplayer.Reach s) :
    s.currentActionIndex = 0 ∧
    (ActionReplayer.getStatus s).currentActionIndex = 0 ∧
    (ActionReplayer.getStatus s).totalActions = 0 ∧
    (∀ msg err st, st ∈ ActionReplayer.emitStatus s msg err →
      st.currentActionIndex = 0 ∧
      st.totalActions = (s.recording.bind fun rec => rec.metadata.bind fun m =>
        m.manualSteps).getD 0) := by
  have hidx := reach_idx_zero s h
  refine ⟨hidx, hidx, rfl, ?_⟩
  intro msg err st hst
  unfold ActionReplayer.emitStatus at hst
  by_cases hcb : s.onStatusChange = true
  · rw [if_pos hcb] at hst
    rw [List.mem_singleton] at hst
    subst hst
    exact ⟨hidx, rfl⟩
  · rw [if_neg hcb] at hst
    cases hst

theorem c10_no_progress_witness :
    (ActionReplayer.getStatus ActionReplayer.initial).currentActionIndex = 0 ∧
    (ActionReplayer.getStatus ActionReplayer.initial).totalActions = 0 :=
  ⟨(c10_no_progress ActionReplayer.initial ActionReplayer.Reach.init).2.1,
   (c10_no_progress ActionReplayer.initial ActionReplayer.Reach.init).2.2.1⟩

/-! ## Claim C2: input consolidation into single fill commands -/

theorem hasPre_false_of_take (p s t : Str) (h : hasPre (p.take s.length) s = false) :
    hasPre p (s ++ t) = false := by
  induction p generalizing s with
  | nil => simp [hasPre_nil] at h
  | cons a p ih =>
    cases s with
    | nil => simp [hasPre_nil] at h
    | cons b s2 =>
      rw [List.length_cons, List.take_succ_cons, hasPre_cons_cons] at h
      rw [List.cons_append, hasPre_cons_cons]
      cases hab : (a == b) with
      | false => simp [hab]
      | true =>
        simp only [hab, Bool.true_and] at h ⊢
        exact ih s2 h

theorem isFillLine_concat (s t : Str)
    (h : hasPre ("  await page.fill(\x27".data.take s.length) s = false) :
    isFillLine (s ++ t) = false :=
  hasPre_false_of_take _ s t h

theorem not_fill_url (u : Str) :
    isFillLine ("  // Page navigated to: ".data ++ u) = false :=
  isFillLine_concat "  // Page navigated to: ".data u (by decide)

theorem not_fill_click (a : RecordedAction) :
    isFillLine (PlaywrightGenerator.generateClickCommand a) = false :=
  isFillLine_concat "  await page.click(\x27".data _ (by decide)

theorem not_fill_keypress (a : RecordedAction) :
    isFillLine (PlaywrightGenerator.generateKeypressCommand a) = false := by
  unfold PlaywrightGenerator.generateKeypressCommand
  cases PlaywrightGenerator.keypressKeyVal a with
  | none => decide
  | some v =>
    cases his : isEnterVal v <;> simp only [his, Bool.false_eq_true, if_false, if_true] <;>
      exact isFillLine_concat "  await page.keyboard.press(\x27".data _ (by decide)

theorem not_fill_scroll (a : RecordedAction) :
    isFillLine (PlaywrightGenerator.generateScrollCommand a) = false := by
  unfold PlaywrightGenerator.generateScrollCommand
  cases PlaywrightGenerator.scrollXY a with
  | none => decide
  | some xy =>
    exact isFillLine_concat "  await page.evaluate(() => window.scrollTo(".data _ (by decide)

theorem not_fill_select (a : RecordedAction) :
    isFillLine (PlaywrightGenerator.generateSelectCommand a) = false :=
  isFillLine_concat "  await page.selectOption(\x27".data _ (by decide)

theorem not_fill_manual (a : RecordedAction) :
    isFillLine (PlaywrightGenerator.generateManualStepComment a) = false :=
  isFillLine_concat "  // MANUAL STEP: ".data _ (by decide)

theorem not_fill_wait (s : Str) :
    isFillLine ("  await page.waitForTimeout(".data ++ s ++ ");".data) = false := by
  rw [List.append_assoc]
  exact isFillLine_concat "  await page.waitForTimeout(".data _ (by decide)

theorem is_fill_input (s v : Str) (o : Option ElementSelector) :
    isFillLine (PlaywrightGenerator.generateInputCommand s v o) = true := by
  unfold PlaywrightGenerator.generateInputCommand isFillLine
  exact hasPre_append_right _ _ _ (hasPre_append_right _ _ _ (hasPre_append_right _ _ _
    (hasPre_append_right _ _ _ (hasPre_append_right _ _ _ (hasPre_refl _)))))

theorem filter_fill_url (lastUrl : Option Str) (a : RecordedAction) :
    ((if some a.url ≠ lastUrl then ["  // Page navigated to: ".data ++ a.url] else []).filter
      isFillLine) = [] := by
  split
  · rw [List.filter_cons, not_fill_url]
    rfl
  · rfl

theorem getPreferredSelector_ne_nil (sel : Option ElementSelector) :
    PlaywrightGenerator.getPreferredSelector sel ≠ [] := by
  unfold PlaywrightGenerator.getPreferredSelector
  cases sel with
  | none => decide
  | some s =>
    dsimp only
    split_ifs with h1 h2 h3 h4
    · exact List.cons_ne_nil _ _
    · cases hc : s.css with
      | none => rw [hc] at h2; cases h2
      | some c =>
        simp only [hc, Option.getD_some]
        intro hnil
        subst hnil
        rw [hc] at h2
        simp [truthyStr] at h2
    · intro h
      rw [List.append_eq_nil, List.append_eq_nil] at h
      exact absurd h.1.1 (by decide)
    · cases hx : s.xpath with
      | none => rw [hx] at h4; cases h4
      | some c =>
        simp only [hx, Option.getD_some]
        intro hnil
        subst hnil
        rw [hx] at h4
        simp [truthyStr] at h4
    · decide

theorem getSelectorString_ne_nil (sel : Option ElementSelector) :
    PlaywrightGenerator.getSelectorString sel ≠ [] :=
  getPreferredSelector_ne_nil sel

theorem mapSet_nil (k v : Str) : PlaywrightGenerator.mapSet [] k v = [(k, v)] := by
  simp [PlaywrightGenerator.mapSet, PlaywrightGenerator.mapHas]

theorem mapSet_one (k v0 v : Str) :
    PlaywrightGenerator.mapSet [(k, v0)] k v = [(k, v)] := by
  simp [PlaywrightGenerator.mapSet, PlaywrightGenerator.mapHas]

theorem mapGet_one (k v : Str) : PlaywrightGenerator.mapGet [(k, v)] k = some v := by
  simp [PlaywrightGenerator.mapGet]

theorem fills_aux : ∀ (n : Nat) (as : List RecordedAction), as.length ≤ n →
    (∀ lastUrl,
      (PlaywrightGenerator.processActions lastUrl [] none as).filter isFillLine =
        (fillRuns as).map fillLineOf) ∧
    (∀ lastUrl sel v last a rest2, as = a :: rest2 → a.type = ActionType.input →
      PlaywrightGenerator.getSelectorString a.selector = sel →
      (PlaywrightGenerator.processActions lastUrl [(sel, v)] (some sel) as).filter
          isFillLine =
        (fillRun sel last as).map fillLineOf) := by
  intro n
  induction n with
  | zero =>
    intro as hlen
    have hnil : as = [] := List.length_eq_zero.mp (Nat.le_zero.mp hlen)
    subst hnil
    refine ⟨fun lastUrl => by rw [fillRuns]; rfl, ?_⟩
    intro lastUrl sel v last a rest2 heq
    cases heq
  | succ n ihn =>
    intro as hlen
    cases as with
    | nil =>
      refine ⟨fun lastUrl => by rw [fillRuns]; rfl, ?_⟩
      intro lastUrl sel v last a rest2 heq
      cases heq
    | cons a rest =>
      have hrl : rest.length ≤ n := by
        rw [List.length_cons] at hlen
        omega
      constructor
      · intro lastUrl
        cases ht : a.type with
        | click =>
          simp only [PlaywrightGenerator.processActions]
          rw [fillRuns, ht]
          rw [if_neg (show ¬(ActionType.click = ActionType.input) from by decide)]
          dsimp only [PlaywrightGenerator.flushPending]
          rw [List.filter_append, List.filter_append, List.filter_append]
          rw [filter_fill_url, List.filter_cons, not_fill_click]
          rw [(ihn rest hrl).1]
          simp
        | keypress =>
          simp only [PlaywrightGenerator.processActions]
          rw [fillRuns, ht]
          rw [if_neg (show ¬(ActionType.keypress = ActionType.input) from by decide)]
          dsimp only [PlaywrightGenerator.flushPending]
          rw [List.filter_append, List.filter_append, List.filter_append]
          rw [filter_fill_url, List.filter_cons, not_fill_keypress]
          rw [(ihn rest hrl).1]
          simp
        | select =>
          simp only [PlaywrightGenerator.processActions]
          rw [fillRuns, ht]
          rw [if_neg (show ¬(ActionType.select = ActionType.input) from by decide)]
          rw [List.filter_append, List.filter_append]
          rw [filter_fill_url, List.filter_cons, not_fill_select]
          rw [(ihn rest hrl).1]
          simp
        | scroll =>
          simp only [PlaywrightGenerator.processActions]
          rw [fillRuns, ht]
          rw [if_neg (show ¬(ActionType.scroll = ActionType.input) from by decide)]
          rw [List.filter_append, List.filter_append]
          rw [filter_fill_url, List.filter_cons, not_fill_scroll]
          rw [(ihn rest hrl).1]
          simp
        | manual_step =>
          simp only [PlaywrightGenerator.processActions]
          rw [fillRuns, ht]
          rw [if_neg (show ¬(ActionType.manual_step = ActionType.input) from by decide)]
          rw [List.filter_append, List.filter_append]
          rw [filter_fill_url, List.filter_cons, not_fill_manual]
          rw [(ihn rest hrl).1]
          simp
        | wait =>
          simp only [PlaywrightGenerator.processActions]
          rw [fillRuns, ht]
          rw [if_neg (show ¬(ActionType.wait = ActionType.input) from by decide)]
          rw [List.filter_append, List.filter_append]
          rw [filter_fill_url, List.filter_cons, not_fill_wait]
          rw [(ihn rest hrl).1]
          simp
        | navigate =>
          simp only [PlaywrightGenerator.processActions]
          rw [fillRuns, ht]
          rw [if_neg (show ¬(ActionType.navigate = ActionType.input) from by decide)]
          rw [List.filter_append]
          rw [filter_fill_url]
          rw [(ihn rest hrl).1]
          simp
        | input =>
          simp only [PlaywrightGenerator.processActions]
          rw [fillRuns, ht]
          rw [if_pos (show ActionType.input = ActionType.input from rfl)]
          dsimp only
          rw [mapSet_nil, mapGet_one]
          cases rest with
          | nil =>
            dsimp only [List.head?]
            simp only [eq_self_iff_true, if_true]
            rw [List.filter_append, List.filter_append, List.filter_append]
            rw [filter_fill_url, List.filter_cons, is_fill_input]
            rw [fillRun]
            simp [fillLineOf, PlaywrightGenerator.processActions]
          | cons b rest2 =>
            dsimp only [List.head?]
            by_cases hb : b.type = ActionType.input ∧
                PlaywrightGenerator.getSelectorString b.selector =
                  PlaywrightGenerator.getSelectorString a.selector
            · simp only [decide_eq_true hb, Bool.not_true, Bool.false_eq_true, if_false]
              rw [List.filter_append, List.filter_append]
              rw [filter_fill_url]
              rw [(ihn (b :: rest2) hrl).2
                (if some a.url ≠ lastUrl then some a.url else lastUrl)
                (PlaywrightGenerator.getSelectorString a.selector) (a.value.getD []) a
                b rest2 rfl hb.1 hb.2]
              simp
            · rw [fillRun, if_neg hb]
              simp only [decide_eq_false hb, Bool.not_false, eq_self_iff_true, if_true]
              rw [List.filter_append, List.filter_append, List.filter_append]
              rw [filter_fill_url, List.filter_cons, is_fill_input]
              rw [(ihn (b :: rest2) hrl).1]
              simp [fillLineOf]
      · intro lastUrl sel v last a2 rest2 heq hty hsel
        injection heq with h1 h2
        subst h1
        subst h2
        simp only [PlaywrightGenerator.processActions]
        rw [hty, hsel]
        dsimp only
        rw [if_neg (show ¬(sel ≠ sel ∧ (!sel.isEmpty) = true) from fun h => h.1 rfl)]
        rw [mapSet_one, mapGet_one]
        rw [fillRun, if_pos (show a.type = ActionType.input ∧
          PlaywrightGenerator.getSelectorString a.selector = sel from ⟨hty, hsel⟩)]
        cases rest with
        | nil =>
          dsimp only [List.head?]
          simp only [eq_self_iff_true, if_true]
          rw [List.filter_append, List.filter_append, List.filter_append]
          rw [filter_fill_url, List.filter_cons, is_fill_input]
          rw [fillRun]
          simp [fillLineOf, PlaywrightGenerator.processActions]
        | cons b rest2 =>
          dsimp only [List.head?]
          by_cases hb : b.type = ActionType.input ∧
              PlaywrightGenerator.getSelectorString b.selector = sel
          · simp only [decide_eq_true hb, Bool.not_true, Bool.false_eq_true, if_false]
            rw [List.filter_append, List.filter_append]
            rw [filter_fill_url]
            rw [(ihn (b :: rest2) hrl).2
              (if some a.url ≠ lastUrl then some a.url else lastUrl)
              sel (a.value.getD []) a b rest2 rfl hb.1 hb.2]
            simp
          · rw [fillRun, if_neg hb]
            simp only [decide_eq_false hb, Bool.not_false, eq_self_iff_true, if_true]
            rw [List.filter_append, List.filter_append, List.filter_append]
            rw [filter_fill_url, List.filter_cons, is_fill_input]
            rw [(ihn (b :: rest2) hrl).1]
            simp [fillLineOf]

theorem not_fill_rid (s : Str) : isFillLine ("// Recording ID: ".data ++ s) = false :=
  isFillLine_concat "// Recording ID: ".data s (by decide)

theorem not_fill_created (s : Str) : isFillLine ("// Created: ".data ++ s) = false :=
  isFillLine_concat "// Created: ".data s (by decide)

theorem not_fill_descr (s : Str) : isFillLine ("// Description: ".data ++ s) = false :=
  isFillLine_concat "// Description: ".data s (by decide)

theorem not_fill_test (s t : Str) :
    isFillLine ("test(\x27".data ++ s ++ t) = false := by
  rw [List.append_assoc]
  exact isFillLine_concat "test(\x27".data _ (by decide)

theorem not_fill_goto (s t : Str) :
    isFillLine ("  await page.goto(\x27".data ++ s ++ t) = false := by
  rw [List.append_assoc]
  exact isFillLine_concat "  await page.goto(\x27".data _ (by decide)

theorem filter_fill_nil_of (l : List Str) (h : ∀ x ∈ l, isFillLine x = false) :
    l.filter isFillLine = [] := by
  induction l with
  | nil => rfl
  | cons a l ih =>
    rw [List.filter_cons, h a (by simp)]
    exact ih fun x hx => h x (by simp [hx])

/-- C2: the fill commands of a generated script are exactly one per
maximal run of consecutive `input` actions resolving to the same
selector string, each carrying the value of the run's last action
(`fillRuns` is the spec-worded consolidation rule; the equality says no
other fill command appears anywhere in the script). -/
theorem c2_input_consolidation (metadata : PlaywrightScriptMetadata)
    (actions : List RecordedAction) :
    (PlaywrightGenerator.generateLines metadata actions).filter isFillLine =
      (fillRuns actions).map fillLineOf := by
  unfold PlaywrightGenerator.generateLines
  rw [List.filter_append, List.filter_append, List.filter_append, List.filter_append,
    List.filter_append]
  rw [(fills_aux actions.length actions le_rfl).1]
  have hhead : List.filter isFillLine
      ["import \x7b test, expect \x7d from \x27@playwright/test\x27;".data, [],
       "// Recording ID: ".data ++ metadata.id,
       "// Created: ".data ++ toISOString metadata.createdAt] = [] := by
    refine filter_fill_nil_of _ ?_
    intro x hx
    simp only [List.mem_cons, List.not_mem_nil, or_false] at hx
    rcases hx with rfl | rfl | rfl | rfl
    · decide
    · decide
    · exact not_fill_rid _
    · exact not_fill_created _
  have hdesc : (if truthyStr metadata.description then
      ["// Description: ".data ++ metadata.description.getD []] else []).filter
        isFillLine = [] := by
    split
    · refine filter_fill_nil_of _ ?_
      intro x hx
      simp only [List.mem_singleton] at hx
      subst hx
      exact not_fill_descr _
    · rfl
  have htest : List.filter isFillLine
      [[], "test(\x27".data ++ metadata.name ++
        "\x27, async (\x7b page \x7d) => \x7b".data] = [] := by
    refine filter_fill_nil_of _ ?_
    intro x hx
    simp only [List.mem_cons, List.not_mem_nil, or_false] at hx
    rcases hx with rfl | rfl
    · decide
    · exact not_fill_test _ _
  have hnav : (if truthyStr metadata.targetSite then
      ["  // Navigate to starting URL".data,
       "  await page.goto(\x27".data ++ metadata.targetSite.getD [] ++ "\x27);".data, []]
      else []).filter isFillLine = [] := by
    split
    · refine filter_fill_nil_of _ ?_
      intro x hx
      simp only [List.mem_cons, List.not_mem_nil, or_false] at hx
      rcases hx with rfl | rfl | rfl
      · decide
      · exact not_fill_goto _ _
      · decide
    · rfl
  have hclose : List.filter isFillLine ["\x7d);".data] = [] := by decide
  rw [hhead, hdesc, htest, hnav, hclose]
  simp

/-! ## Claim C9: select, scroll and wait lines are skipped on replay -/

theorem hasSub_renderNum_false (p : Str) (hw : 'w' ∈ p) (o : Option Int) :
    hasSub p (PlaywrightGenerator.renderNum o) = false := by
  refine hasSub_false_of_missing p _ 'w' hw ?_
  intro hmem
  have := renderNum_mem o 'w' hmem
  revert this
  decide

theorem hasSub_selectLine (p : Str) (s v : Str)
    (hp1 : hasSub p "await page.selectOption(\x27".data = false)
    (hp2 : hasSub p "\x27, \x27".data = false)
    (hp3 : hasSub p "\x27);".data = false)
    (hq : '\x27' ∉ p)
    (hn1 : noPS p "await page.selectOption(\x27".data = true)
    (hn2 : noPS p "\x27, \x27".data = true)
    (hs : hasSub p s = false) (hv : hasSub p v = false) :
    hasSub p ("await page.selectOption(\x27".data ++ s ++ "\x27, \x27".data ++ v ++
      "\x27);".data) = false := by
  rw [List.append_assoc, List.append_assoc, List.append_assoc]
  refine hasSub_concrete_left p _ _ hp1 ?_ hn1
  refine hasSub_append_cons p s '\x27' _ hs ?_ hq
  have h2 : hasSub p ("\x27, \x27".data ++ (v ++ "\x27);".data)) = false := by
    refine hasSub_concrete_left p _ _ hp2 ?_ hn2
    refine hasSub_append_cons p v '\x27' _ hv ?_ hq
    exact hp3
  exact h2

theorem hasSub_scrollLine (p : Str) (x y : Str)
    (hp1 : hasSub p "await page.evaluate(() => window.scrollTo(".data = false)
    (hp2 : hasSub p ", ".data = false)
    (hp3 : hasSub p "));".data = false)
    (hcm : ',' ∉ p) (hpa : ')' ∉ p)
    (hn1 : noPS p "await page.evaluate(() => window.scrollTo(".data = true)
    (hn2 : noPS p ", ".data = true)
    (hx : hasSub p x = false) (hy : hasSub p y = false) :
    hasSub p ("await page.evaluate(() => window.scrollTo(".data ++ x ++ ", ".data ++ y ++
      "));".data) = false := by
  rw [List.append_assoc, List.append_assoc, List.append_assoc]
  refine hasSub_concrete_left p _ _ hp1 ?_ hn1
  refine hasSub_append_cons p x ',' _ hx ?_ hcm
  have h2 : hasSub p (", ".data ++ (y ++ "));".data)) = false := by
    refine hasSub_concrete_left p _ _ hp2 ?_ hn2
    refine hasSub_append_cons p y ')' _ hy ?_ hpa
    exact hp3
  exact h2

theorem hasSub_waitLine (p : Str) (hw : 'w' ∈ p) (hpa : ')' ∉ p)
    (hp1 : hasSub p "await page.waitForTimeout(".data = false)
    (hp3 : hasSub p ");".data = false)
    (hn1 : noPS p "await page.waitForTimeout(".data = true)
    (o : Option Int) :
    hasSub p ("await page.waitForTimeout(".data ++ PlaywrightGenerator.renderNum o ++
      ");".data) = false := by
  rw [List.append_assoc]
  refine hasSub_concrete_left p _ _ hp1 ?_ hn1
  refine hasSub_append_cons p _ ')' _ (hasSub_renderNum_false p hw o) ?_ hpa
  exact hp3

theorem replayLineAction_skip (R : Str) (c0 : Char) (rest : Str) (hR : R = c0 :: rest)
    (hc0 : isWsChar c0 = false) (hc0a : c0 ≠ '/') (hc0i : c0 ≠ 'i')
    (hlast : ∀ c, R.getLast? = some c → isWsChar c = false)
    (hg : hasSub "await page.goto(".data R = false)
    (hc : hasSub "await page.click(".data R = false)
    (hf : hasSub "await page.fill(".data R = false)
    (hk : hasSub "await page.keyboard.press(".data R = false) :
    ActionReplayer.replayLineAction (' ' :: ' ' :: R) = none := by
  unfold ActionReplayer.replayLineAction
  rw [jsTrim_cons_ws _ _ (by decide), jsTrim_cons_ws _ _ (by decide)]
  rw [jsTrim_eq_self_of_ends R ?hh hlast]
  case hh =>
    intro c hc2
    rw [hR] at hc2
    injection hc2 with h
    subst h
    exact hc0
  have h1 : hasPre "//".data R = false := by
    rw [hR]
    exact hasPre_cons_head_ne _ _ _ _ fun h => hc0a h.symm
  have h2 : hasPre "import".data R = false := by
    rw [hR]
    exact hasPre_cons_head_ne _ _ _ _ fun h => hc0i h.symm
  have h3 : R.isEmpty = false := by rw [hR]; rfl
  dsimp only
  rw [h1, h2, h3]
  simp only [Bool.or_self, Bool.or_false, Bool.false_or, Bool.false_eq_true, if_false,
    ite_false]
  unfold ActionReplayer.lineCommand
  rw [hg, hc, hf, hk]
  simp only [Bool.false_eq_true, if_false, ite_false]

theorem replay_skip_select (a : RecordedAction)
    (h : ∀ p ∈ ["await page.goto(".data, "await page.click(".data, "await page.fill(".data,
        "await page.keyboard.press(".data],
      hasSub p (PlaywrightGenerator.escapeSelector
        (PlaywrightGenerator.getPreferredSelector a.selector)) = false ∧
      hasSub p (PlaywrightGenerator.escapeValue (a.value.getD [])) = false) :
    ActionReplayer.replayLineAction (PlaywrightGenerator.generateSelectCommand a) =
      none := by
  have hline : PlaywrightGenerator.generateSelectCommand a = ' ' :: ' ' ::
      ("await page.selectOption(\x27".data ++ PlaywrightGenerator.escapeSelector
          (PlaywrightGenerator.getPreferredSelector a.selector) ++ "\x27, \x27".data ++
        PlaywrightGenerator.escapeValue (a.value.getD []) ++ "\x27);".data) := rfl
  rw [hline]
  refine replayLineAction_skip _ 'a'
    ("wait page.selectOption(\x27".data ++ PlaywrightGenerator.escapeSelector
        (PlaywrightGenerator.getPreferredSelector a.selector) ++ "\x27, \x27".data ++
      PlaywrightGenerator.escapeValue (a.value.getD []) ++ "\x27);".data) rfl
    (by decide) (by decide) (by decide) ?_ ?_ ?_ ?_ ?_
  · intro c hc2
    rw [List.getLast?_append_of_ne_nil _ (show "\x27);".data ≠ [] from by decide)] at hc2
    rw [show ("\x27);".data.getLast? : Option Char) = some ';' from rfl] at hc2
    injection hc2 with hcc
    subst hcc
    decide
  · exact hasSub_selectLine _ _ _ (by decide) (by decide) (by decide) (by decide)
      (by decide) (by decide) (h _ (by decide)).1 (h _ (by decide)).2
  · exact hasSub_selectLine _ _ _ (by decide) (by decide) (by decide) (by decide)
      (by decide) (by decide) (h _ (by decide)).1 (h _ (by decide)).2
  · exact hasSub_selectLine _ _ _ (by decide) (by decide) (by decide) (by decide)
      (by decide) (by decide) (h _ (by decide)).1 (h _ (by decide)).2
  · exact hasSub_selectLine _ _ _ (by decide) (by decide) (by decide) (by decide)
      (by decide) (by decide) (h _ (by decide)).1 (h _ (by decide)).2

theorem replay_skip_scroll (a : RecordedAction)
    (h : ∀ x y, PlaywrightGenerator.scrollXY a = some (x, y) →
      ∀ p ∈ ["await page.goto(".data, "await page.click(".data, "await page.fill(".data,
          "await page.keyboard.press(".data],
        hasSub p x = false ∧ hasSub p y = false) :
    ActionReplayer.replayLineAction (PlaywrightGenerator.generateScrollCommand a) =
      none := by
  unfold PlaywrightGenerator.generateScrollCommand
  cases hxy : PlaywrightGenerator.scrollXY a with
  | none => decide
  | some xy =>
    obtain ⟨x, y⟩ := xy
    have hm := h x y hxy
    dsimp only
    have hline : "  await page.evaluate(() => window.scrollTo(".data ++ x ++ ", ".data ++
        y ++ "));".data = ' ' :: ' ' ::
        ("await page.evaluate(() => window.scrollTo(".data ++ x ++ ", ".data ++ y ++
          "));".data) := rfl
    rw [hline]
    refine replayLineAction_skip _ 'a'
      ("wait page.evaluate(() => window.scrollTo(".data ++ x ++ ", ".data ++ y ++
        "));".data) rfl (by decide) (by decide) (by decide) ?_ ?_ ?_ ?_ ?_
    · intro c hc2
      rw [List.getLast?_append_of_ne_nil _ (show "));".data ≠ [] from by decide)] at hc2
      rw [show ("));".data.getLast? : Option Char) = some ';' from rfl] at hc2
      injection hc2 with hcc
      subst hcc
      decide
    · exact hasSub_scrollLine _ _ _ (by decide) (by decide) (by decide) (by decide)
        (by decide) (by decide) (by decide) (hm _ (by decide)).1 (hm _ (by decide)).2
    · exact hasSub_scrollLine _ _ _ (by decide) (by decide) (by decide) (by decide)
        (by decide) (by decide) (by decide) (hm _ (by decide)).1 (hm _ (by decide)).2
    · exact hasSub_scrollLine _ _ _ (by decide) (by decide) (by decide) (by decide)
        (by decide) (by decide) (by decide) (hm _ (by decide)).1 (hm _ (by decide)).2
    · exact hasSub_scrollLine _ _ _ (by decide) (by decide) (by decide) (by decide)
        (by decide) (by decide) (by decide) (hm _ (by decide)).1 (hm _ (by decide)).2

theorem replay_skip_wait (w : Option Int) :
    ActionReplayer.replayLineAction ("  await page.waitForTimeout(".data ++
      PlaywrightGenerator.renderNum w ++ ");".data) = none := by
  have hline : "  await page.waitForTimeout(".data ++ PlaywrightGenerator.renderNum w ++
      ");".data = ' ' :: ' ' :: ("await page.waitForTimeout(".data ++
      PlaywrightGenerator.renderNum w ++ ");".data) := rfl
  rw [hline]
  refine replayLineAction_skip _ 'a' ("wait page.waitForTimeout(".data ++
    PlaywrightGenerator.renderNum w ++ ");".data) rfl (by decide) (by decide) (by decide)
    ?_ ?_ ?_ ?_ ?_
  · intro c hc2
    rw [List.getLast?_append_of_ne_nil _ (show ");".data ≠ [] from by decide)] at hc2
    rw [show (");".data.getLast? : Option Char) = some ';' from rfl] at hc2
    injection hc2 with hcc
    subst hcc
    decide
  · exact hasSub_waitLine _ (by decide) (by decide) (by decide) (by decide) (by decide) w
  · exact hasSub_waitLine _ (by decide) (by decide) (by decide) (by decide) (by decide) w
  · exact hasSub_waitLine _ (by decide) (by decide) (by decide) (by decide) (by decide) w
  · exact hasSub_waitLine _ (by decide) (by decide) (by decide) (by decide) (by decide) w

/-- C9 counterexample: a `select` action whose selector is the string
`await page.goto(` and whose value is `)` generates a `selectOption`
line that the executor recognises as a `goto` command and executes: the
replayer performs a navigation call for a select action. -/
theorem c9_counterexample :
    ActionReplayer.replayLineAction (PlaywrightGenerator.generateSelectCommand
      { id := "a1".data, type := ActionType.select, timestamp := 0,
        url := "https://e.com/".data,
        selector := some { css := some "await page.goto(".data },
        value := some ")".data }) =
      some (ActionReplayer.PageCall.navigate ", ".data) ∧
    (ActionReplayer.executePlaywrightInCurrentTab
      (PlaywrightGenerator.generate
        { id := "r1".data, name := "t".data, createdAt := 0 }
        [{ id := "a1".data, type := ActionType.select, timestamp := 0,
           url := "https://e.com/".data,
           selector := some { css := some "await page.goto(".data },
           value := some ")".data }])
      (fun _ => true)).map Prod.fst =
      [ActionReplayer.PageCall.navigate ", ".data] := by
  constructor
  · decide
  · decide

/-- C9 (amended): the `selectOption`, `scrollTo` and `waitForTimeout`
lines emitted for select, scroll and wait actions match none of the
four command shapes the executor recognises — so those actions are
silently skipped on replay — *provided* the interpolated fragments
(escaped selector and value for select, rendered coordinates for
scroll) do not themselves contain one of the four recognised command
markers; the wait line is skipped unconditionally. -/
theorem c9_select_scroll_wait_skip (a : RecordedAction) (w : Option Int) :
    ((∀ p ∈ ["await page.goto(".data, "await page.click(".data, "await page.fill(".data,
        "await page.keyboard.press(".data],
      hasSub p (PlaywrightGenerator.escapeSelector
        (PlaywrightGenerator.getPreferredSelector a.selector)) = false ∧
      hasSub p (PlaywrightGenerator.escapeValue (a.value.getD [])) = false) →
      ActionReplayer.replayLineAction (PlaywrightGenerator.generateSelectCommand a) =
        none) ∧
    ((∀ x y, PlaywrightGenerator.scrollXY a = some (x, y) →
      ∀ p ∈ ["await page.goto(".data, "await page.click(".data, "await page.fill(".data,
          "await page.keyboard.press(".data],
        hasSub p x = false ∧ hasSub p y = false) →
      ActionReplayer.replayLineAction (PlaywrightGenerator.generateScrollCommand a) =
        none) ∧
    ActionReplayer.replayLineAction ("  await page.waitForTimeout(".data ++
      PlaywrightGenerator.renderNum w ++ ");".data) = none :=
  ⟨replay_skip_select a, replay_skip_scroll a, replay_skip_wait w⟩

theorem c9_select_scroll_wait_skip_witness :
    ActionReplayer.replayLineAction (PlaywrightGenerator.generateSelectCommand
      { id := "a1".data, type := ActionType.select, timestamp := 0,
        url := "https://e.com/".data, selector := some { css := some "#color".data },
        value := some "red".data }) = none ∧
    ActionReplayer.replayLineAction (PlaywrightGenerator.generateScrollCommand
      { id := "a2".data, type := ActionType.scroll, timestamp := 0,
        url := "https://e.com/".data,
        value := some "\x7b\"x\":100,\"y\":250\x7d".data }) = none :=
  ⟨(c9_select_scroll_wait_skip
      { id := "a1".data, type := ActionType.select, timestamp := 0,
        url := "https://e.com/".data, selector := some { css := some "#color".data },
        value := some "red".data } none).1 (by decide),
   (c9_select_scroll_wait_skip
      { id := "a2".data, type := ActionType.scroll, timestamp := 0,
        url := "https://e.com/".data,
        value := some "\x7b\"x\":100,\"y\":250\x7d".data } none).2.1 (by
      intro x y hxy
      rw [show PlaywrightGenerator.scrollXY
          { id := "a2".data, type := ActionType.scroll, timestamp := 0,
            url := "https://e.com/".data,
            value := some "\x7b\"x\":100,\"y\":250\x7d".data } =
          some ("100".data, "250".data) from by decide] at hxy
      injection hxy with hp
      rw [show x = "100".data from congrArg Prod.fst hp.symm,
        show y = "250".data from congrArg Prod.snd hp.symm]
      decide)⟩

/-! ## C3/C8 shared development: no comment marker occurs in a generated
command line (given marker-free fragments) -/

theorem hasSub_nil (p : Str) (hp : p ≠ []) : hasSub p [] = false := by
  cases p with
  | nil => exact absurd rfl hp
  | cons c p' => rfl

theorem hasSub_renderNum_any (p : Str)
    (h : p.any (fun c => decide (c ∉ "-0123456789Na".data)) = true) (o : Option Int) :
    hasSub p (PlaywrightGenerator.renderNum o) = false := by
  rcases List.any_eq_true.mp h with ⟨c, hcp, hdec⟩
  have hnc : c ∉ "-0123456789Na".data := of_decide_eq_true hdec
  refine hasSub_false_of_missing p _ c hcp ?_
  intro hmem
  exact hnc (renderNum_mem o c hmem)

theorem hasSub_textComment (p : Str)
    (hp : p ∈ ["// Recording ID:".data, "// Created:".data, "// Description:".data,
      "// MANUAL STEP:".data, "\n".data])
    (sel : Option ElementSelector)
    (ht : hasSub p (PlaywrightGenerator.textOf sel) = false) :
    hasSub p (PlaywrightGenerator.textComment sel) = false := by
  unfold PlaywrightGenerator.textComment
  unfold PlaywrightGenerator.textOf at ht
  cases sel with
  | none =>
    simp only [List.mem_cons, List.not_mem_nil, or_false] at hp
    rcases hp with rfl | rfl | rfl | rfl | rfl <;> rfl
  | some s =>
    cases htr : truthyStr s.text with
    | false =>
      simp only [htr, Bool.false_eq_true, if_false]
      simp only [List.mem_cons, List.not_mem_nil, or_false] at hp
      rcases hp with rfl | rfl | rfl | rfl | rfl <;> rfl
    | true =>
      simp only [htr, if_true]
      rw [List.append_assoc]
      simp only [List.mem_cons, List.not_mem_nil, or_false] at hp
      rcases hp with rfl | rfl | rfl | rfl | rfl <;>
      · refine hasSub_concrete_left _ _ _ (by decide) ?_ (by decide)
        refine hasSub_append_cons _ _ '"' _ ht ?_ (by decide)
        decide

theorem hasSub_urlCmt (p : Str)
    (hp : p ∈ ["// Recording ID:".data, "// Created:".data, "// Description:".data,
      "// MANUAL STEP:".data, "\n".data])
    (u : Str) (hu : hasSub p u = false) :
    hasSub p ("  // Page navigated to: ".data ++ u) = false := by
  simp only [List.mem_cons, List.not_mem_nil, or_false] at hp
  rcases hp with rfl | rfl | rfl | rfl | rfl <;>
    exact hasSub_concrete_left _ _ _ (by decide) hu (by decide)

theorem hasSub_clickCmd (p : Str)
    (hp : p ∈ ["// Recording ID:".data, "// Created:".data, "// Description:".data,
      "// MANUAL STEP:".data, "\n".data])
    (a : RecordedAction)
    (hsel : hasSub p (PlaywrightGenerator.escapeSelector
      (PlaywrightGenerator.getPreferredSelector a.selector)) = false)
    (ht : hasSub p (PlaywrightGenerator.textOf a.selector) = false) :
    hasSub p (PlaywrightGenerator.generateClickCommand a) = false := by
  have htc := hasSub_textComment p hp a.selector ht
  unfold PlaywrightGenerator.generateClickCommand
  rw [List.append_assoc, List.append_assoc]
  simp only [List.mem_cons, List.not_mem_nil, or_false] at hp
  rcases hp with rfl | rfl | rfl | rfl | rfl <;>
  · refine hasSub_concrete_left _ _ _ (by decide) ?_ (by decide)
    refine hasSub_append_cons _ _ '\x27' _ hsel ?_ (by decide)
    exact hasSub_concrete_left _ _ _ (by decide) htc (by decide)

theorem hasSub_fillCmd (p : Str)
    (hp : p ∈ ["// Recording ID:".data, "// Created:".data, "// Description:".data,
      "// MANUAL STEP:".data, "\n".data])
    (s v : Str) (o : Option ElementSelector)
    (hs : hasSub p (PlaywrightGenerator.escapeSelector s) = false)
    (hv : hasSub p (PlaywrightGenerator.escapeValue v) = false)
    (ht : hasSub p (PlaywrightGenerator.textOf o) = false) :
    hasSub p (PlaywrightGenerator.generateInputCommand s v o) = false := by
  have htc := hasSub_textComment p hp o ht
  unfold PlaywrightGenerator.generateInputCommand
  rw [List.append_assoc, List.append_assoc, List.append_assoc, List.append_assoc]
  simp only [List.mem_cons, List.not_mem_nil, or_false] at hp
  rcases hp with rfl | rfl | rfl | rfl | rfl <;>
  · refine hasSub_concrete_left _ _ _ (by decide) ?_ (by decide)
    refine hasSub_append_cons _ _ '\x27' _ hs ?_ (by decide)
    refine hasSub_concrete_left _ _ _ (by decide) ?_ (by decide)
    refine hasSub_append_cons _ _ '\x27' _ hv ?_ (by decide)
    exact hasSub_concrete_left _ _ _ (by decide) htc (by decide)

theorem hasSub_pressCmd (p : Str)
    (hp : p ∈ ["// Recording ID:".data, "// Created:".data, "// Description:".data,
      "// MANUAL STEP:".data, "\n".data])
    (a : RecordedAction)
    (hk : hasSub p (PlaywrightGenerator.keyRendered a) = false) :
    hasSub p (PlaywrightGenerator.generateKeypressCommand a) = false := by
  unfold PlaywrightGenerator.generateKeypressCommand
  unfold PlaywrightGenerator.keyRendered at hk
  cases hkv : PlaywrightGenerator.keypressKeyVal a with
  | none =>
    simp only [List.mem_cons, List.not_mem_nil, or_false] at hp
    rcases hp with rfl | rfl | rfl | rfl | rfl <;> decide
  | some kv =>
    rw [hkv] at hk
    cases his : isEnterVal kv <;> simp only [his, Bool.false_eq_true, if_false, if_true] <;>
      rw [List.append_assoc] <;>
      simp only [List.mem_cons, List.not_mem_nil, or_false] at hp <;>
      rcases hp with rfl | rfl | rfl | rfl | rfl <;>
    · refine hasSub_concrete_left _ _ _ (by decide) ?_ (by decide)
      refine hasSub_append_cons _ _ '\x27' _ hk ?_ (by decide)
      decide

theorem hasSub_selectCmd (p : Str)
    (hp : p ∈ ["// Recording ID:".data, "// Created:".data, "// Description:".data,
      "// MANUAL STEP:".data, "\n".data])
    (a : RecordedAction)
    (hs : hasSub p (PlaywrightGenerator.escapeSelector
      (PlaywrightGenerator.getPreferredSelector a.selector)) = false)
    (hv : hasSub p (PlaywrightGenerator.escapeValue (a.value.getD [])) = false) :
    hasSub p (PlaywrightGenerator.generateSelectCommand a) = false := by
  unfold PlaywrightGenerator.generateSelectCommand
  rw [List.append_assoc, List.append_assoc, List.append_assoc]
  simp only [List.mem_cons, List.not_mem_nil, or_false] at hp
  rcases hp with rfl | rfl | rfl | rfl | rfl <;>
  · refine hasSub_concrete_left _ _ _ (by decide) ?_ (by decide)
    refine hasSub_append_cons _ _ '\x27' _ hs ?_ (by decide)
    refine hasSub_concrete_left _ _ _ (by decide) ?_ (by decide)
    refine hasSub_append_cons _ _ '\x27' _ hv ?_ (by decide)
    decide

theorem hasSub_scrollCmd (p : Str)
    (hp : p ∈ ["// Recording ID:".data, "// Created:".data, "// Description:".data,
      "// MANUAL STEP:".data, "\n".data])
    (a : RecordedAction)
    (hxy : ∀ x y, PlaywrightGenerator.scrollXY a = some (x, y) →
      hasSub p x = false ∧ hasSub p y = false) :
    hasSub p (PlaywrightGenerator.generateScrollCommand a) = false := by
  unfold PlaywrightGenerator.generateScrollCommand
  cases hv : PlaywrightGenerator.scrollXY a with
  | none =>
    simp only [List.mem_cons, List.not_mem_nil, or_false] at hp
    rcases hp with rfl | rfl | rfl | rfl | rfl <;> decide
  | some xy =>
    obtain ⟨x, y⟩ := xy
    have hx := (hxy x y hv).1
    have hy := (hxy x y hv).2
    dsimp only
    rw [List.append_assoc, List.append_assoc, List.append_assoc]
    simp only [List.mem_cons, List.not_mem_nil, or_false] at hp
    rcases hp with rfl | rfl | rfl | rfl | rfl <;>
    · refine hasSub_concrete_left _ _ _ (by decide) ?_ (by decide)
      refine hasSub_append_cons _ _ ',' _ hx ?_ (by decide)
      refine hasSub_concrete_left _ _ _ (by decide) ?_ (by decide)
      refine hasSub_append_cons _ _ ')' _ hy ?_ (by decide)
      decide

theorem hasSub_waitLn (p : Str)
    (hp : p ∈ ["// Recording ID:".data, "// Created:".data, "// Description:".data,
      "// MANUAL STEP:".data, "\n".data])
    (w : Option Int) :
    hasSub p ("  await page.waitForTimeout(".data ++ PlaywrightGenerator.renderNum w ++
      ");".data) = false := by
  rw [List.append_assoc]
  simp only [List.mem_cons, List.not_mem_nil, or_false] at hp
  rcases hp with rfl | rfl | rfl | rfl | rfl <;>
  · refine hasSub_concrete_left _ _ _ (by decide) ?_ (by decide)
    refine hasSub_append_cons _ _ ')' _ (hasSub_renderNum_any _ (by decide) w) ?_
      (by decide)
    decide

theorem hasSub_manualCmd (p : Str)
    (hp : p ∈ ["// Recording ID:".data, "// Created:".data, "// Description:".data,
      "\n".data])
    (a : RecordedAction)
    (hd : hasSub p (jsOrDefault a.description "Complete this step manually".data) = false) :
    hasSub p (PlaywrightGenerator.generateManualStepComment a) = false := by
  unfold PlaywrightGenerator.generateManualStepComment
  simp only [List.mem_cons, List.not_mem_nil, or_false] at hp
  rcases hp with rfl | rfl | rfl | rfl <;>
    exact hasSub_concrete_left _ _ _ (by decide) hd (by decide)

theorem mapGet_mem (m : List (Str × Str)) (k v : Str)
    (h : PlaywrightGenerator.mapGet m k = some v) : (k, v) ∈ m := by
  unfold PlaywrightGenerator.mapGet at h
  cases hf : m.find? (fun q => q.1 == k) with
  | none => rw [hf] at h; cases h
  | some pr =>
    rw [hf] at h
    have hv : pr.2 = v := by
      cases h
      rfl
    have hmem : pr ∈ m := List.mem_of_find?_eq_some hf
    have hk : pr.1 = k := by
      have h2 := List.find?_some hf
      simpa [beq_iff_eq] using h2
    obtain ⟨p1, p2⟩ := pr
    dsimp only at hv hk
    subst hv
    subst hk
    exact hmem

theorem mapSet_mem (m : List (Str × Str)) (k v : Str) (x : Str × Str)
    (h : x ∈ PlaywrightGenerator.mapSet m k v) : x ∈ m ∨ x = (k, v) := by
  unfold PlaywrightGenerator.mapSet at h
  split at h
  · rcases List.mem_map.mp h with ⟨y, hy, hxy⟩
    by_cases hyk : (y.1 == k) = true
    · rw [if_pos hyk] at hxy
      right
      exact hxy.symm
    · rw [if_neg hyk] at hxy
      left
      rw [← hxy]
      exact hy
  · rcases List.mem_append.mp h with h1 | h1
    · left
      exact h1
    · right
      simpa using h1

theorem flushPending_lines (p : Str)
    (hp4 : p ∈ ["// Recording ID:".data, "// Created:".data, "// Description:".data,
      "// MANUAL STEP:".data, "\n".data])
    (hpne : p ≠ [])
    (pending : List (Str × Str)) (lastSel : Option Str) (selObj : Option ElementSelector)
    (hpend : ∀ kv ∈ pending, hasSub p (PlaywrightGenerator.escapeSelector kv.1) = false ∧
      hasSub p (PlaywrightGenerator.escapeValue kv.2) = false)
    (hsel : ∀ s, lastSel = some s →
      hasSub p (PlaywrightGenerator.escapeSelector s) = false)
    (ht : hasSub p (PlaywrightGenerator.textOf selObj) = false) :
    ∀ l ∈ (PlaywrightGenerator.flushPending pending lastSel selObj).1,
      hasSub p l = false := by
  cases lastSel with
  | none =>
    intro l hl
    cases hl
  | some s =>
    intro l hl
    rw [show PlaywrightGenerator.flushPending pending (some s) selObj =
        (if (!s.isEmpty && PlaywrightGenerator.mapHas pending s) = true then
          ([PlaywrightGenerator.generateInputCommand s
              ((PlaywrightGenerator.mapGet pending s).getD []) selObj], [], none)
        else ([], pending, some s)) from rfl] at hl
    split at hl
    · cases hl with
      | tail _ h => cases h
      | head =>
        refine hasSub_fillCmd p hp4 _ _ _ (hsel s rfl) ?_ ht
        cases hg : PlaywrightGenerator.mapGet pending s with
        | none => exact hasSub_nil p hpne
        | some v =>
          exact (hpend (s, v) (mapGet_mem pending s v hg)).2
    · cases hl

theorem urlLines_free (p : Str)
    (hp : p ∈ ["// Recording ID:".data, "// Created:".data, "// Description:".data,
      "// MANUAL STEP:".data, "\n".data])
    (lastUrl : Option Str) (u : Str) (hu : hasSub p u = false) :
    ∀ l ∈ (if some u ≠ lastUrl then ["  // Page navigated to: ".data ++ u] else []),
      hasSub p l = false := by
  split
  · intro l hl
    cases hl with
    | head => exact hasSub_urlCmt p hp u hu
    | tail _ h => cases h
  · intro l hl
    cases hl

theorem flushPending_pend (p : Str) (pending : List (Str × Str)) (lastSel : Option Str)
    (selObj : Option ElementSelector)
    (hpend : ∀ kv ∈ pending, hasSub p (PlaywrightGenerator.escapeSelector kv.1) = false ∧
      hasSub p (PlaywrightGenerator.escapeValue kv.2) = false) :
    ∀ kv ∈ (PlaywrightGenerator.flushPending pending lastSel selObj).2.1,
      hasSub p (PlaywrightGenerator.escapeSelector kv.1) = false ∧
      hasSub p (PlaywrightGenerator.escapeValue kv.2) = false := by
  cases lastSel with
  | none => exact hpend
  | some s =>
    intro kv hkv
    rw [show PlaywrightGenerator.flushPending pending (some s) selObj =
        (if (!s.isEmpty && PlaywrightGenerator.mapHas pending s) = true then
          ([PlaywrightGenerator.generateInputCommand s
              ((PlaywrightGenerator.mapGet pending s).getD []) selObj], [], none)
        else ([], pending, some s)) from rfl] at hkv
    split at hkv
    · cases hkv
    · exact hpend kv hkv

theorem flushPending_sel (p : Str) (pending : List (Str × Str)) (lastSel : Option Str)
    (selObj : Option ElementSelector)
    (hsel : ∀ s, lastSel = some s →
      hasSub p (PlaywrightGenerator.escapeSelector s) = false) :
    ∀ s, (PlaywrightGenerator.flushPending pending lastSel selObj).2.2 = some s →
      hasSub p (PlaywrightGenerator.escapeSelector s) = false := by
  cases lastSel with
  | none => exact hsel
  | some s0 =>
    intro s hs
    rw [show PlaywrightGenerator.flushPending pending (some s0) selObj =
        (if (!s0.isEmpty && PlaywrightGenerator.mapHas pending s0) = true then
          ([PlaywrightGenerator.generateInputCommand s0
              ((PlaywrightGenerator.mapGet pending s0).getD []) selObj], [], none)
        else ([], pending, some s0)) from rfl] at hs
    split at hs
    · cases hs
    · injection hs with h
      exact h ▸ hsel s0 rfl

theorem processActions_header_free (p : Str)
    (hp : p ∈ ["// Recording ID:".data, "// Created:".data, "// Description:".data,
      "\n".data]) :
    ∀ as : List RecordedAction,
    (∀ a ∈ as, ∀ f ∈ PlaywrightGenerator.actionFragments a, hasSub p f = false) →
    ∀ (lastUrl : Option Str) (pending : List (Str × Str)) (lastSel : Option Str),
    (∀ kv ∈ pending, hasSub p (PlaywrightGenerator.escapeSelector kv.1) = false ∧
      hasSub p (PlaywrightGenerator.escapeValue kv.2) = false) →
    (∀ s, lastSel = some s → hasSub p (PlaywrightGenerator.escapeSelector s) = false) →
    ∀ l ∈ PlaywrightGenerator.processActions lastUrl pending lastSel as,
      hasSub p l = false := by
  have hp4 : p ∈ ["// Recording ID:".data, "// Created:".data, "// Description:".data,
      "// MANUAL STEP:".data, "\n".data] := by
    simp only [List.mem_cons, List.not_mem_nil, or_false] at hp ⊢
    tauto
  have hpne : p ≠ [] := by
    simp only [List.mem_cons, List.not_mem_nil, or_false] at hp
    rcases hp with rfl | rfl | rfl | rfl <;> decide
  intro as
  induction as with
  | nil =>
    intro _ _ _ _ _ _ l hl
    cases hl
  | cons a rest ih =>
    intro hfrag lastUrl pending lastSel hpend hsel l hl
    have hfa : ∀ f ∈ PlaywrightGenerator.actionFragments a, hasSub p f = false :=
      hfrag a (List.mem_cons_self a rest)
    have hfr : ∀ b ∈ rest, ∀ f ∈ PlaywrightGenerator.actionFragments b,
        hasSub p f = false := fun b hb => hfrag b (List.mem_cons_of_mem a hb)
    have hurl : hasSub p a.url = false := hfa a.url (List.mem_cons_self _ _)
    cases ht : a.type with
    | click =>
      simp only [PlaywrightGenerator.processActions] at hl
      rw [ht] at hl
      have hsel2 : hasSub p (PlaywrightGenerator.escapeSelector
          (PlaywrightGenerator.getPreferredSelector a.selector)) = false :=
        hfa _ (by simp [PlaywrightGenerator.actionFragments, ht])
      have htxt : hasSub p (PlaywrightGenerator.textOf a.selector) = false :=
        hfa _ (by simp [PlaywrightGenerator.actionFragments, ht])
      rcases List.mem_append.mp hl with h1 | hrec
      · rcases List.mem_append.mp h1 with h2 | hcmd
        · rcases List.mem_append.mp h2 with h3 | h4
          · exact urlLines_free p hp4 lastUrl a.url hurl l h3
          · exact flushPending_lines p hp4 hpne pending lastSel a.selector hpend hsel htxt
              l h4
        · cases hcmd with
          | head => exact hasSub_clickCmd p hp4 a hsel2 htxt
          | tail _ h => cases h
      · exact ih hfr _ _ _ (flushPending_pend p pending lastSel a.selector hpend)
          (flushPending_sel p pending lastSel a.selector hsel) l hrec
    | keypress =>
      simp only [PlaywrightGenerator.processActions] at hl
      rw [ht] at hl
      have hkey : hasSub p (PlaywrightGenerator.keyRendered a) = false :=
        hfa _ (by simp [PlaywrightGenerator.actionFragments, ht])
      have htxt : hasSub p (PlaywrightGenerator.textOf a.selector) = false :=
        hfa _ (by simp [PlaywrightGenerator.actionFragments, ht])
      rcases List.mem_append.mp hl with h1 | hrec
      · rcases List.mem_append.mp h1 with h2 | hcmd
        · rcases List.mem_append.mp h2 with h3 | h4
          · exact urlLines_free p hp4 lastUrl a.url hurl l h3
          · exact flushPending_lines p hp4 hpne pending lastSel a.selector hpend hsel htxt
              l h4
        · cases hcmd with
          | head => exact hasSub_pressCmd p hp4 a hkey
          | tail _ h => cases h
      · exact ih hfr _ _ _ (flushPending_pend p pending lastSel a.selector hpend)
          (flushPending_sel p pending lastSel a.selector hsel) l hrec
    | select =>
      simp only [PlaywrightGenerator.processActions] at hl
      rw [ht] at hl
      have hsel2 : hasSub p (PlaywrightGenerator.escapeSelector
          (PlaywrightGenerator.getPreferredSelector a.selector)) = false :=
        hfa _ (by simp [PlaywrightGenerator.actionFragments, ht])
      have hval : hasSub p (PlaywrightGenerator.escapeValue (a.value.getD [])) = false :=
        hfa _ (by simp [PlaywrightGenerator.actionFragments, ht])
      rcases List.mem_append.mp hl with h1 | hrec
      · rcases List.mem_append.mp h1 with h3 | hcmd
        · exact urlLines_free p hp4 lastUrl a.url hurl l h3
        · cases hcmd with
          | head => exact hasSub_selectCmd p hp4 a hsel2 hval
          | tail _ h => cases h
      · exact ih hfr _ _ _ hpend hsel l hrec
    | scroll =>
      simp only [PlaywrightGenerator.processActions] at hl
      rw [ht] at hl
      have hxy : ∀ x y, PlaywrightGenerator.scrollXY a = some (x, y) →
          hasSub p x = false ∧ hasSub p y = false := by
        intro x y hv
        exact ⟨hfa x (by simp [PlaywrightGenerator.actionFragments, ht, hv]),
          hfa y (by simp [PlaywrightGenerator.actionFragments, ht, hv])⟩
      rcases List.mem_append.mp hl with h1 | hrec
      · rcases List.mem_append.mp h1 with h3 | hcmd
        · exact urlLines_free p hp4 lastUrl a.url hurl l h3
        · cases hcmd with
          | head => exact hasSub_scrollCmd p hp4 a hxy
          | tail _ h => cases h
      · exact ih hfr _ _ _ hpend hsel l hrec
    | manual_step =>
      simp only [PlaywrightGenerator.processActions] at hl
      rw [ht] at hl
      have hd : hasSub p
          (jsOrDefault a.description "Complete this step manually".data) = false :=
        hfa _ (by simp [PlaywrightGenerator.actionFragments, ht])
      rcases List.mem_append.mp hl with h1 | hrec
      · rcases List.mem_append.mp h1 with h3 | hcmd
        · exact urlLines_free p hp4 lastUrl a.url hurl l h3
        · cases hcmd with
          | head => exact hasSub_manualCmd p hp a hd
          | tail _ h => cases h
      · exact ih hfr _ _ _ hpend hsel l hrec
    | wait =>
      simp only [PlaywrightGenerator.processActions] at hl
      rw [ht] at hl
      rcases List.mem_append.mp hl with h1 | hrec
      · rcases List.mem_append.mp h1 with h3 | hcmd
        · exact urlLines_free p hp4 lastUrl a.url hurl l h3
        · cases hcmd with
          | head => exact hasSub_waitLn p hp4 _
          | tail _ h => cases h
      · exact ih hfr _ _ _ hpend hsel l hrec
    | navigate =>
      simp only [PlaywrightGenerator.processActions] at hl
      rw [ht] at hl
      rcases List.mem_append.mp hl with h3 | hrec
      · exact urlLines_free p hp4 lastUrl a.url hurl l h3
      · exact ih hfr _ _ _ hpend hsel l hrec
    | input =>
      have hsel2 : hasSub p (PlaywrightGenerator.escapeSelector
          (PlaywrightGenerator.getSelectorString a.selector)) = false :=
        hfa _ (by simp [PlaywrightGenerator.actionFragments, ht])
      have hval : hasSub p (PlaywrightGenerator.escapeValue (a.value.getD [])) = false :=
        hfa _ (by simp [PlaywrightGenerator.actionFragments, ht])
      have htxt : hasSub p (PlaywrightGenerator.textOf a.selector) = false :=
        hfa _ (by simp [PlaywrightGenerator.actionFragments, ht])
      have hnew : ∀ oldp : List (Str × Str),
          (∀ kv ∈ oldp, hasSub p (PlaywrightGenerator.escapeSelector kv.1) = false ∧
            hasSub p (PlaywrightGenerator.escapeValue kv.2) = false) →
          ∀ kv ∈ PlaywrightGenerator.mapSet oldp
            (PlaywrightGenerator.getSelectorString a.selector) (a.value.getD []),
            hasSub p (PlaywrightGenerator.escapeSelector kv.1) = false ∧
            hasSub p (PlaywrightGenerator.escapeValue kv.2) = false := by
        intro oldp hold kv hkv
        rcases mapSet_mem _ _ _ kv hkv with hin | heq
        · exact hold kv hin
        · subst heq
          exact ⟨hsel2, hval⟩
      have hfillnew : ∀ oldp : List (Str × Str),
          (∀ kv ∈ oldp, hasSub p (PlaywrightGenerator.escapeSelector kv.1) = false ∧
            hasSub p (PlaywrightGenerator.escapeValue kv.2) = false) →
          hasSub p (PlaywrightGenerator.escapeValue
            ((PlaywrightGenerator.mapGet (PlaywrightGenerator.mapSet oldp
              (PlaywrightGenerator.getSelectorString a.selector) (a.value.getD []))
              (PlaywrightGenerator.getSelectorString a.selector)).getD [])) = false := by
        intro oldp hold
        cases hg : PlaywrightGenerator.mapGet (PlaywrightGenerator.mapSet oldp
            (PlaywrightGenerator.getSelectorString a.selector) (a.value.getD []))
            (PlaywrightGenerator.getSelectorString a.selector) with
        | none => exact hasSub_nil p hpne
        | some v => exact (hnew oldp hold _ (mapGet_mem _ _ v hg)).2
      cases hls : lastSel with
      | none =>
        rw [hls] at hl
        simp only [PlaywrightGenerator.processActions] at hl
        rw [ht] at hl
        dsimp only at hl
        split at hl
        · rcases List.mem_append.mp hl with h1 | hrec
          · rcases List.mem_append.mp h1 with h2 | hcmd
            · rcases List.mem_append.mp h2 with h3 | h4
              · exact urlLines_free p hp4 lastUrl a.url hurl l h3
              · cases h4
            · cases hcmd with
              | head => exact hasSub_fillCmd p hp4 _ _ _ hsel2 (hfillnew pending hpend) htxt
              | tail _ h => cases h
          · refine ih hfr _ [] none ?_ ?_ l hrec
            · intro kv hkv
              cases hkv
            · intro s hs
              cases hs
        · rcases List.mem_append.mp hl with h1 | hrec
          · rcases List.mem_append.mp h1 with h3 | h4
            · exact urlLines_free p hp4 lastUrl a.url hurl l h3
            · cases h4
          · refine ih hfr _ _ _ (hnew pending hpend) ?_ l hrec
            intro s hs
            injection hs with h
            exact h ▸ hsel2
      | some ls =>
        rw [hls] at hl
        have hsl : hasSub p (PlaywrightGenerator.escapeSelector ls) = false := hsel ls hls
        simp only [PlaywrightGenerator.processActions] at hl
        rw [ht] at hl
        dsimp only at hl
        by_cases hpc : PlaywrightGenerator.getSelectorString a.selector ≠ ls ∧
            (!List.isEmpty ls) = true
        · rw [if_pos hpc] at hl
          by_cases hfn : (match rest.head? with
              | none => true
              | some na => !decide (na.type = ActionType.input ∧
                  PlaywrightGenerator.getSelectorString na.selector =
                    PlaywrightGenerator.getSelectorString a.selector)) = true
          · rw [if_pos hfn] at hl
            rcases List.mem_append.mp hl with h1 | hrec
            · rcases List.mem_append.mp h1 with h2 | hcmd
              · rcases List.mem_append.mp h2 with h3 | h4
                · exact urlLines_free p hp4 lastUrl a.url hurl l h3
                · cases h4 with
                  | head =>
                    refine hasSub_fillCmd p hp4 _ _ _ hsl ?_ htxt
                    cases hg : PlaywrightGenerator.mapGet pending ls with
                    | none => exact hasSub_nil p hpne
                    | some v => exact (hpend (ls, v) (mapGet_mem pending ls v hg)).2
                  | tail _ h => cases h
              · cases hcmd with
                | head =>
                  refine hasSub_fillCmd p hp4 _ _ _ hsel2 ?_ htxt
                  exact hfillnew [] (by intro kv hkv; cases hkv)
                | tail _ h => cases h
            · refine ih hfr _ [] none ?_ ?_ l hrec
              · intro kv hkv
                cases hkv
              · intro s hs
                cases hs
          · rw [if_neg hfn] at hl
            rcases List.mem_append.mp hl with h1 | hrec
            · rcases List.mem_append.mp h1 with h3 | h5
              · exact urlLines_free p hp4 lastUrl a.url hurl l h3
              · cases h5 with
                | head =>
                  refine hasSub_fillCmd p hp4 _ _ _ hsl ?_ htxt
                  cases hg : PlaywrightGenerator.mapGet pending ls with
                  | none => exact hasSub_nil p hpne
                  | some v => exact (hpend (ls, v) (mapGet_mem pending ls v hg)).2
                | tail _ h => cases h
            · refine ih hfr _ _ _ (hnew [] (by intro kv hkv; cases hkv)) ?_ l hrec
              intro s hs
              injection hs with h
              exact h ▸ hsel2
        · rw [if_neg hpc] at hl
          by_cases hfn : (match rest.head? with
              | none => true
              | some na => !decide (na.type = ActionType.input ∧
                  PlaywrightGenerator.getSelectorString na.selector =
                    PlaywrightGenerator.getSelectorString a.selector)) = true
          · rw [if_pos hfn] at hl
            rcases List.mem_append.mp hl with h1 | hrec
            · rcases List.mem_append.mp h1 with h2 | hcmd
              · rcases List.mem_append.mp h2 with h3 | h4
                · exact urlLines_free p hp4 lastUrl a.url hurl l h3
                · cases h4
              · cases hcmd with
                | head =>
                  exact hasSub_fillCmd p hp4 _ _ _ hsel2 (hfillnew pending hpend) htxt
                | tail _ h => cases h
            · refine ih hfr _ [] none ?_ ?_ l hrec
              · intro kv hkv
                cases hkv
              · intro s hs
                cases hs
          · rw [if_neg hfn] at hl
            rcases List.mem_append.mp hl with h1 | hrec
            · rcases List.mem_append.mp h1 with h3 | h4
              · exact urlLines_free p hp4 lastUrl a.url hurl l h3
              · cases h4
            · refine ih hfr _ _ _ (hnew pending hpend) ?_ l hrec
              intro s hs
              injection hs with h
              exact h ▸ hsel2

/-! ## C3 development: the header round trip -/

theorem toISO_mem (t : Nat) : ∀ c ∈ toISOString t, c ∈ "0123456789-:.TZ".data := by
  have hd : ∀ n, dchar n ∈ "0123456789-:.TZ".data := by
    intro n
    have h1 := dchar_mem n
    have hsub : ∀ x ∈ "0123456789".data, x ∈ "0123456789-:.TZ".data := by decide
    exact hsub _ h1
  unfold toISOString
  simp only [pad4, pad2, pad3, List.forall_mem_append, List.forall_mem_cons,
    List.forall_mem_nil]
  and_intros <;> first | exact hd _ | decide | trivial

theorem jsTrim_eq_self_of_all (s : Str) (h : ∀ c ∈ s, isWsChar c = false) :
    jsTrim s = s := by
  refine jsTrim_eq_self_of_ends s ?_ ?_
  · intro c hc
    refine h c (List.mem_of_mem_head? ?_)
    rw [hc]
    rfl
  · intro c hc
    exact h c (List.mem_of_getLast?_eq_some hc)

theorem jsTrim_toISO (t : Nat) : jsTrim (toISOString t) = toISOString t := by
  refine jsTrim_eq_self_of_all _ ?_
  intro c hc
  have hsub : ∀ x ∈ "0123456789-:.TZ".data, isWsChar x = false := by decide
  exact hsub c (toISO_mem t c hc)

theorem hasSub_toISO (p : Str) (hs : '/' ∈ p) (t : Nat) :
    hasSub p (toISOString t) = false := by
  refine hasSub_false_of_missing p _ '/' hs ?_
  intro hmem
  have := toISO_mem t '/' hmem
  revert this
  decide

theorem nl_toISO (t : Nat) : '\n' ∉ toISOString t := by
  intro hmem
  have := toISO_mem t '\n' hmem
  revert this
  decide

theorem hasSub_singleton_false (c : Char) (l : Str) (h : hasSub [c] l = false) : c ∉ l := by
  intro hmem
  induction l with
  | nil => cases hmem
  | cons x r ih =>
    rw [show hasSub [c] (x :: r) = (hasPre [c] (x :: r) || hasSub [c] r) from rfl] at h
    rw [Bool.or_eq_false_iff] at h
    rcases List.mem_cons.mp hmem with rfl | hm2
    · have h1 := h.1
      simp [hasPre_cons_cons, hasPre_nil] at h1
    · exact ih h.2 hm2

theorem hasSub_testLine (p : Str)
    (hp : p ∈ ["// Recording ID:".data, "// Created:".data, "// Description:".data,
      "// MANUAL STEP:".data, "\n".data])
    (nm : Str) (hn : hasSub p nm = false) :
    hasSub p ("test(\x27".data ++ nm ++ "\x27, async (\x7b page \x7d) => \x7b".data) =
      false := by
  rw [List.append_assoc]
  simp only [List.mem_cons, List.not_mem_nil, or_false] at hp
  rcases hp with rfl | rfl | rfl | rfl | rfl <;>
  · refine hasSub_concrete_left _ _ _ (by decide) ?_ (by decide)
    refine hasSub_append_cons _ _ '\x27' _ hn ?_ (by decide)
    decide

theorem hasSub_gotoLine (p : Str)
    (hp : p ∈ ["// Recording ID:".data, "// Created:".data, "// Description:".data,
      "// MANUAL STEP:".data, "\n".data])
    (site : Str) (hs : hasSub p site = false) :
    hasSub p ("  await page.goto(\x27".data ++ site ++ "\x27);".data) = false := by
  rw [List.append_assoc]
  simp only [List.mem_cons, List.not_mem_nil, or_false] at hp
  rcases hp with rfl | rfl | rfl | rfl | rfl <;>
  · refine hasSub_concrete_left _ _ _ (by decide) ?_ (by decide)
    refine hasSub_append_cons _ _ '\x27' _ hs ?_ (by decide)
    decide

theorem hasSub_ridLine (p : Str)
    (hp : p ∈ ["// Created:".data, "// Description:".data, "// MANUAL STEP:".data, "\n".data])
    (idv : Str) (hf : hasSub p idv = false) :
    hasSub p ("// Recording ID: ".data ++ idv) = false := by
  simp only [List.mem_cons, List.not_mem_nil, or_false] at hp
  rcases hp with rfl | rfl | rfl | rfl <;>
    exact hasSub_concrete_left _ _ _ (by decide) hf (by decide)

theorem hasSub_creLine (p : Str)
    (hp : p ∈ ["// Recording ID:".data, "// Description:".data, "// MANUAL STEP:".data, "\n".data])
    (iso : Str) (hf : hasSub p iso = false) :
    hasSub p ("// Created: ".data ++ iso) = false := by
  simp only [List.mem_cons, List.not_mem_nil, or_false] at hp
  rcases hp with rfl | rfl | rfl | rfl <;>
    exact hasSub_concrete_left _ _ _ (by decide) hf (by decide)

theorem hasSub_descLine (p : Str)
    (hp : p ∈ ["// Recording ID:".data, "// Created:".data, "// MANUAL STEP:".data, "\n".data])
    (d : Str) (hf : hasSub p d = false) :
    hasSub p ("// Description: ".data ++ d) = false := by
  simp only [List.mem_cons, List.not_mem_nil, or_false] at hp
  rcases hp with rfl | rfl | rfl | rfl <;>
    exact hasSub_concrete_left _ _ _ (by decide) hf (by decide)

theorem parseLine_skip (acc : ActionRecorder.ParseAcc) (l : Str)
    (h1 : hasSub "// Recording ID:".data l = false)
    (h2 : hasSub "// Created:".data l = false)
    (h3 : hasSub "// Description:".data l = false)
    (h4 : hasSub "test(\x27".data l = false)
    (h5 : hasSub "await page.goto(\x27".data l = false) :
    ActionRecorder.parseLine acc l = acc := by
  unfold ActionRecorder.parseLine
  rw [h1, h2, h3, h4, h5]
  rfl

theorem parseLine_preserves (acc : ActionRecorder.ParseAcc) (l : Str)
    (h1 : hasSub "// Recording ID:".data l = false)
    (h2 : hasSub "// Created:".data l = false)
    (h3 : hasSub "// Description:".data l = false) :
    (ActionRecorder.parseLine acc l).id = acc.id ∧
    (ActionRecorder.parseLine acc l).createdAt = acc.createdAt ∧
    (ActionRecorder.parseLine acc l).description = acc.description := by
  unfold ActionRecorder.parseLine
  rw [h1, h2, h3]
  simp only [Bool.false_eq_true, if_false]
  by_cases h4 : hasSub "test(\x27".data l = true
  · rw [if_pos h4]
    cases scanCap1 "test(\x27".data "\x27".data l <;> exact ⟨rfl, rfl, rfl⟩
  · rw [if_neg h4]
    by_cases h5 : hasSub "await page.goto(\x27".data l = true
    · rw [if_pos h5]
      cases scanCap1 "goto(\x27".data "\x27)".data l <;> exact ⟨rfl, rfl, rfl⟩
    · rw [if_neg h5]
      exact ⟨rfl, rfl, rfl⟩

theorem foldl_parse_preserves (ls : List Str)
    (h : ∀ l ∈ ls, hasSub "// Recording ID:".data l = false ∧
      hasSub "// Created:".data l = false ∧ hasSub "// Description:".data l = false) :
    ∀ acc : ActionRecorder.ParseAcc,
      (ls.foldl ActionRecorder.parseLine acc).id = acc.id ∧
      (ls.foldl ActionRecorder.parseLine acc).createdAt = acc.createdAt ∧
      (ls.foldl ActionRecorder.parseLine acc).description = acc.description := by
  induction ls with
  | nil => exact fun acc => ⟨rfl, rfl, rfl⟩
  | cons l ls ih =>
    intro acc
    obtain ⟨h1, h2, h3⟩ := h l (List.mem_cons_self l ls)
    have hstep := parseLine_preserves acc l h1 h2 h3
    have hrest := ih (fun x hx => h x (List.mem_cons_of_mem l hx))
      (ActionRecorder.parseLine acc l)
    exact ⟨hrest.1.trans hstep.1, hrest.2.1.trans hstep.2.1, hrest.2.2.trans hstep.2.2⟩

theorem parseLine_id (acc : ActionRecorder.ParseAcc) (idv : Str)
    (hfree : hasSub "// Recording ID:".data (' ' :: idv) = false) :
    ActionRecorder.parseLine acc ("// Recording ID: ".data ++ idv) =
      { acc with id := jsTrim idv } := by
  unfold ActionRecorder.parseLine
  rw [show "// Recording ID: ".data ++ idv =
    "// Recording ID:".data ++ (' ' :: idv) from rfl]
  rw [if_pos (hasSub_append_self "// Recording ID:".data (' ' :: idv))]
  rw [jsSplitOn_head_match _ _ (by decide), jsSplitOn_no_sub _ _ hfree]
  rw [show ([[], ' ' :: idv] : List Str).getD 1 [] = ' ' :: idv from rfl]
  rw [jsTrim_cons_ws _ _ (by decide)]

theorem parseLine_created (acc : ActionRecorder.ParseAcc) (iso : Str)
    (h1 : hasSub "// Recording ID:".data ("// Created: ".data ++ iso) = false)
    (hfree : hasSub "// Created:".data (' ' :: iso) = false) :
    ActionRecorder.parseLine acc ("// Created: ".data ++ iso) =
      { acc with createdAt := dateGetTime (jsTrim iso) } := by
  unfold ActionRecorder.parseLine
  rw [h1]
  simp only [Bool.false_eq_true, if_false]
  rw [show "// Created: ".data ++ iso = "// Created:".data ++ (' ' :: iso) from rfl]
  rw [if_pos (hasSub_append_self "// Created:".data (' ' :: iso))]
  rw [jsSplitOn_head_match _ _ (by decide), jsSplitOn_no_sub _ _ hfree]
  rw [show ([[], ' ' :: iso] : List Str).getD 1 [] = ' ' :: iso from rfl]
  rw [jsTrim_cons_ws _ _ (by decide)]

theorem parseLine_desc (acc : ActionRecorder.ParseAcc) (d : Str)
    (h1 : hasSub "// Recording ID:".data ("// Description: ".data ++ d) = false)
    (h2 : hasSub "// Created:".data ("// Description: ".data ++ d) = false)
    (hfree : hasSub "// Description:".data (' ' :: d) = false) :
    ActionRecorder.parseLine acc ("// Description: ".data ++ d) =
      { acc with description := some (jsTrim d) } := by
  unfold ActionRecorder.parseLine
  rw [h1, h2]
  simp only [Bool.false_eq_true, if_false]
  rw [show "// Description: ".data ++ d = "// Description:".data ++ (' ' :: d) from rfl]
  rw [if_pos (hasSub_append_self "// Description:".data (' ' :: d))]
  rw [jsSplitOn_head_match _ _ (by decide), jsSplitOn_no_sub _ _ hfree]
  rw [show ([[], ' ' :: d] : List Str).getD 1 [] = ' ' :: d from rfl]
  rw [jsTrim_cons_ws _ _ (by decide)]

/-- C3 (amended): parsing a generated script recovers the id, the
createdAt timestamp and the description exactly, provided the embedded
free-text fields are header-safe (no header comment marker, no
newline), the id and description carry no surrounding whitespace, the
description is absent or non-empty, the timestamp is before the year
10000, and every action fragment is header-safe. -/
theorem c3_header_roundtrip (filename : Str) (metadata : PlaywrightScriptMetadata)
    (actions : List RecordedAction)
    (hid : headerSafe metadata.id) (hidt : jsTrim metadata.id = metadata.id)
    (hname : headerSafe metadata.name)
    (hsite : ∀ s, metadata.targetSite = some s → headerSafe s)
    (hdesc : ∀ d, metadata.description = some d → headerSafe d ∧ jsTrim d = d ∧ d ≠ [])
    (hcre : metadata.createdAt < 253402300800000)
    (hfrag : ∀ a ∈ actions, ∀ f ∈ PlaywrightGenerator.actionFragments a, headerSafe f) :
    (ActionRecorder.parsePlaywrightScript filename
        (PlaywrightGenerator.generate metadata actions)).id = metadata.id ∧
    (ActionRecorder.parsePlaywrightScript filename
        (PlaywrightGenerator.generate metadata actions)).createdAt =
      some (metadata.createdAt : Int) ∧
    (ActionRecorder.parsePlaywrightScript filename
        (PlaywrightGenerator.generate metadata actions)).description =
      metadata.description := by
  have hsafe4 : ∀ s, headerSafe s →
      ∀ p ∈ ["// Recording ID:".data, "// Created:".data, "// Description:".data,
        "\n".data], hasSub p s = false := by
    intro s hs p hp
    simp only [List.mem_cons, List.not_mem_nil, or_false] at hp
    rcases hp with rfl | rfl | rfl | rfl
    · exact hs.1
    · exact hs.2.1
    · exact hs.2.2.1
    · exact hasSub_false_of_missing _ _ '\n' (by decide) hs.2.2.2
  have hfrag4 : ∀ p ∈ ["// Recording ID:".data, "// Created:".data,
      "// Description:".data, "\n".data], ∀ a ∈ actions,
      ∀ f ∈ PlaywrightGenerator.actionFragments a, hasSub p f = false :=
    fun p hp a ha f hf => hsafe4 f (hfrag a ha f hf) p hp
  have hact : ∀ p ∈ ["// Recording ID:".data, "// Created:".data,
      "// Description:".data, "\n".data],
      ∀ l ∈ PlaywrightGenerator.processActions metadata.targetSite [] none actions,
        hasSub p l = false := by
    intro p hp
    refine processActions_header_free p hp actions (hfrag4 p hp) metadata.targetSite [] none
      ?_ ?_
    · intro kv hkv
      cases hkv
    · intro s hs
      cases hs
  have hgetDsite : ∀ p ∈ ["// Recording ID:".data, "// Created:".data,
      "// Description:".data, "\n".data],
      hasSub p (metadata.targetSite.getD []) = false := by
    intro p hp
    cases hts : metadata.targetSite with
    | none =>
      have hpne : p ≠ [] := by
        simp only [List.mem_cons, List.not_mem_nil, or_false] at hp
        rcases hp with rfl | rfl | rfl | rfl <;> decide
      exact hasSub_nil p hpne
    | some s => exact hsafe4 s (hsite s hts) p hp
  have hdescGetD : ∀ p ∈ ["// Recording ID:".data, "// Created:".data,
      "// Description:".data, "\n".data],
      hasSub p (metadata.description.getD []) = false := by
    intro p hp
    cases hde : metadata.description with
    | none =>
      have hpne : p ≠ [] := by
        simp only [List.mem_cons, List.not_mem_nil, or_false] at hp
        rcases hp with rfl | rfl | rfl | rfl <;> decide
      exact hasSub_nil p hpne
    | some d => exact hsafe4 d (hdesc d hde).1 p hp
  have hnl : ∀ l ∈ PlaywrightGenerator.generateLines metadata actions, '\n' ∉ l := by
    intro l hl
    refine hasSub_singleton_false '\n' l ?_
    unfold PlaywrightGenerator.generateLines at hl
    rcases List.mem_append.mp hl with h1 | hc
    · rcases List.mem_append.mp h1 with h2 | hact1
      · rcases List.mem_append.mp h2 with h3 | hnav
        · rcases List.mem_append.mp h3 with h4 | htest
          · rcases List.mem_append.mp h4 with hhead | hdescb
            · simp only [List.mem_cons, List.not_mem_nil, or_false] at hhead
              rcases hhead with rfl | rfl | rfl | rfl
              · decide
              · decide
              · exact hasSub_ridLine "\n".data (by decide) _ (hsafe4 _ hid _ (by decide))
              · exact hasSub_creLine "\n".data (by decide) _
                  (hasSub_false_of_missing _ _ '\n' (by decide) (nl_toISO _))
            · split at hdescb
              · simp only [List.mem_cons, List.not_mem_nil, or_false] at hdescb
                subst hdescb
                exact hasSub_descLine "\n".data (by decide) _
                  (hdescGetD "\n".data (by decide))
              · cases hdescb
          · simp only [List.mem_cons, List.not_mem_nil, or_false] at htest
            rcases htest with rfl | rfl
            · decide
            · exact hasSub_testLine "\n".data (by decide) _
                (hsafe4 _ hname _ (by decide))
        · split at hnav
          · simp only [List.mem_cons, List.not_mem_nil, or_false] at hnav
            rcases hnav with rfl | rfl | rfl
            · decide
            · exact hasSub_gotoLine "\n".data (by decide) _
                (hgetDsite "\n".data (by decide))
            · decide
          · cases hnav
      · exact hact "\n".data (by decide) l hact1
    · simp only [List.mem_cons, List.not_mem_nil, or_false] at hc
      subst hc
      decide
  have hlne : PlaywrightGenerator.generateLines metadata actions ≠ [] := by
    unfold PlaywrightGenerator.generateLines
    intro h
    rw [List.append_eq_nil] at h
    exact absurd h.2 (by decide)
  have hsplit : splitNL (PlaywrightGenerator.generate metadata actions) =
      PlaywrightGenerator.generateLines metadata actions :=
    splitNL_join _ hnl hlne
  have hfree_id : hasSub "// Recording ID:".data (' ' :: metadata.id) = false :=
    hasSub_cons_false _ _ _ (hasPre_cons_head_ne '/' _ ' ' _ (by decide)) hid.1
  have h1cre : hasSub "// Recording ID:".data
      ("// Created: ".data ++ toISOString metadata.createdAt) = false :=
    hasSub_creLine _ (by decide) _ (hasSub_toISO _ (by decide) _)
  have hfree_cre : hasSub "// Created:".data
      (' ' :: toISOString metadata.createdAt) = false :=
    hasSub_cons_false _ _ _ (hasPre_cons_head_ne '/' _ ' ' _ (by decide))
      (hasSub_toISO _ (by decide) _)
  have htst1 : hasSub "// Recording ID:".data ("test(\x27".data ++ metadata.name ++
      "\x27, async (\x7b page \x7d) => \x7b".data) = false :=
    hasSub_testLine _ (by decide) _ (hsafe4 _ hname _ (by decide))
  have htst2 : hasSub "// Created:".data ("test(\x27".data ++ metadata.name ++
      "\x27, async (\x7b page \x7d) => \x7b".data) = false :=
    hasSub_testLine _ (by decide) _ (hsafe4 _ hname _ (by decide))
  have htst3 : hasSub "// Description:".data ("test(\x27".data ++ metadata.name ++
      "\x27, async (\x7b page \x7d) => \x7b".data) = false :=
    hasSub_testLine _ (by decide) _ (hsafe4 _ hname _ (by decide))
  have hNAV : ∀ l ∈ (if truthyStr metadata.targetSite then
      ["  // Navigate to starting URL".data,
       "  await page.goto(\x27".data ++ metadata.targetSite.getD [] ++ "\x27);".data, []]
      else []),
      hasSub "// Recording ID:".data l = false ∧ hasSub "// Created:".data l = false ∧
      hasSub "// Description:".data l = false := by
    intro l hl
    split at hl
    · simp only [List.mem_cons, List.not_mem_nil, or_false] at hl
      rcases hl with rfl | rfl | rfl
      · exact ⟨by decide, by decide, by decide⟩
      · exact ⟨hasSub_gotoLine _ (by decide) _ (hgetDsite _ (by decide)),
          hasSub_gotoLine _ (by decide) _ (hgetDsite _ (by decide)),
          hasSub_gotoLine _ (by decide) _ (hgetDsite _ (by decide))⟩
      · exact ⟨by decide, by decide, by decide⟩
    · cases hl
  have hACT : ∀ l ∈ PlaywrightGenerator.processActions metadata.targetSite [] none actions,
      hasSub "// Recording ID:".data l = false ∧ hasSub "// Created:".data l = false ∧
      hasSub "// Description:".data l = false :=
    fun l hl => ⟨hact _ (by decide) l hl, hact _ (by decide) l hl, hact _ (by decide) l hl⟩
  have hclid : ∀ X : ActionRecorder.ParseAcc,
      (ActionRecorder.parseLine X "\x7d);".data).id = X.id :=
    fun X => (parseLine_preserves X _ (by decide) (by decide) (by decide)).1
  have hclcre : ∀ X : ActionRecorder.ParseAcc,
      (ActionRecorder.parseLine X "\x7d);".data).createdAt = X.createdAt :=
    fun X => (parseLine_preserves X _ (by decide) (by decide) (by decide)).2.1
  have hcldsc : ∀ X : ActionRecorder.ParseAcc,
      (ActionRecorder.parseLine X "\x7d);".data).description = X.description :=
    fun X => (parseLine_preserves X _ (by decide) (by decide) (by decide)).2.2
  have hactid : ∀ X : ActionRecorder.ParseAcc,
      (List.foldl ActionRecorder.parseLine X
        (PlaywrightGenerator.processActions metadata.targetSite [] none actions)).id =
      X.id := fun X => (foldl_parse_preserves _ hACT X).1
  have hactcre : ∀ X : ActionRecorder.ParseAcc,
      (List.foldl ActionRecorder.parseLine X
        (PlaywrightGenerator.processActions metadata.targetSite [] none
          actions)).createdAt = X.createdAt := fun X => (foldl_parse_preserves _ hACT X).2.1
  have hactdsc : ∀ X : ActionRecorder.ParseAcc,
      (List.foldl ActionRecorder.parseLine X
        (PlaywrightGenerator.processActions metadata.targetSite [] none
          actions)).description = X.description :=
    fun X => (foldl_parse_preserves _ hACT X).2.2
  have hnavid : ∀ X : ActionRecorder.ParseAcc,
      (List.foldl ActionRecorder.parseLine X (if truthyStr metadata.targetSite then
        ["  // Navigate to starting URL".data,
         "  await page.goto(\x27".data ++ metadata.targetSite.getD [] ++ "\x27);".data, []]
        else [])).id = X.id := fun X => (foldl_parse_preserves _ hNAV X).1
  have hnavcre : ∀ X : ActionRecorder.ParseAcc,
      (List.foldl ActionRecorder.parseLine X (if truthyStr metadata.targetSite then
        ["  // Navigate to starting URL".data,
         "  await page.goto(\x27".data ++ metadata.targetSite.getD [] ++ "\x27);".data, []]
        else [])).createdAt = X.createdAt := fun X => (foldl_parse_preserves _ hNAV X).2.1
  have hnavdsc : ∀ X : ActionRecorder.ParseAcc,
      (List.foldl ActionRecorder.parseLine X (if truthyStr metadata.targetSite then
        ["  // Navigate to starting URL".data,
         "  await page.goto(\x27".data ++ metadata.targetSite.getD [] ++ "\x27);".data, []]
        else [])).description = X.description := fun X => (foldl_parse_preserves _ hNAV X).2.2
  have htstid : ∀ X : ActionRecorder.ParseAcc,
      (ActionRecorder.parseLine X ("test(\x27".data ++ metadata.name ++
        "\x27, async (\x7b page \x7d) => \x7b".data)).id = X.id :=
    fun X => (parseLine_preserves X _ htst1 htst2 htst3).1
  have htstcre : ∀ X : ActionRecorder.ParseAcc,
      (ActionRecorder.parseLine X ("test(\x27".data ++ metadata.name ++
        "\x27, async (\x7b page \x7d) => \x7b".data)).createdAt = X.createdAt :=
    fun X => (parseLine_preserves X _ htst1 htst2 htst3).2.1
  have htstdsc : ∀ X : ActionRecorder.ParseAcc,
      (ActionRecorder.parseLine X ("test(\x27".data ++ metadata.name ++
        "\x27, async (\x7b page \x7d) => \x7b".data)).description = X.description :=
    fun X => (parseLine_preserves X _ htst1 htst2 htst3).2.2
  unfold ActionRecorder.parsePlaywrightScript
  dsimp only
  rw [hsplit]
  unfold PlaywrightGenerator.generateLines
  rw [List.foldl_append, List.foldl_append, List.foldl_append, List.foldl_append,
    List.foldl_append]
  simp only [List.foldl_cons, List.foldl_nil]
  rw [parseLine_skip _ "import \x7b test, expect \x7d from \x27@playwright/test\x27;".data
    (by decide) (by decide) (by decide) (by decide) (by decide)]
  rw [parseLine_skip _ ([] : Str) (by decide) (by decide) (by decide) (by decide)
    (by decide)]
  rw [parseLine_skip _ ([] : Str) (by decide) (by decide) (by decide) (by decide)
    (by decide)]
  rw [parseLine_id _ metadata.id hfree_id, hidt]
  rw [parseLine_created _ (toISOString metadata.createdAt) h1cre hfree_cre]
  rw [jsTrim_toISO, dateGetTime_toISO _ hcre]
  cases hds : metadata.description with
  | none =>
    rw [show truthyStr none = false from rfl]
    simp only [Bool.false_eq_true, if_false, List.foldl_nil]
    refine ⟨?_, ?_, ?_⟩
    · rw [hclid, hactid, hnavid, htstid]
    · rw [hclcre, hactcre, hnavcre, htstcre]
    · rw [hcldsc, hactdsc, hnavdsc, htstdsc]
  | some d =>
    obtain ⟨hdsafe, hdtrim, hdne⟩ := hdesc d hds
    rw [show truthyStr (some d) = true from by
      cases d with
      | nil => exact absurd rfl hdne
      | cons c cs => rfl]
    rw [if_pos (show (true : Bool) = true from rfl)]
    simp only [List.foldl_cons, List.foldl_nil]
    rw [show (some d).getD ([] : Str) = d from rfl]
    rw [parseLine_desc _ d (hasSub_descLine _ (by decide) _ hdsafe.1)
      (hasSub_descLine _ (by decide) _ hdsafe.2.1)
      (hasSub_cons_false _ _ _ (hasPre_cons_head_ne '/' _ ' ' _ (by decide))
        hdsafe.2.2.1), hdtrim]
    refine ⟨?_, ?_, ?_⟩
    · rw [hclid, hactid, hnavid, htstid]
    · rw [hclcre, hactcre, hnavcre, htstcre]
    · rw [hcldsc, hactdsc, hnavdsc, htstdsc]

/-- C3 counterexample: an id with a trailing space is not recovered —
the parser trims the header line, so the round trip returns the
truncated id. -/
theorem c3_counterexample :
    (ActionRecorder.parsePlaywrightScript "f.spec.ts".data
      (PlaywrightGenerator.generate
        { id := "rec-7 ".data, name := "T".data, createdAt := 0 } [])).id =
      "rec-7".data ∧
    ({ id := "rec-7 ".data, name := "T".data, createdAt := 0 } :
      PlaywrightScriptMetadata).id ≠ "rec-7".data := by
  constructor
  · decide
  · decide

theorem c3_header_roundtrip_witness :
    (ActionRecorder.parsePlaywrightScript "x.spec.ts".data
        (PlaywrightGenerator.generate exMetadata exActions)).id = exMetadata.id ∧
    (ActionRecorder.parsePlaywrightScript "x.spec.ts".data
        (PlaywrightGenerator.generate exMetadata exActions)).createdAt =
      some (exMetadata.createdAt : Int) ∧
    (ActionRecorder.parsePlaywrightScript "x.spec.ts".data
        (PlaywrightGenerator.generate exMetadata exActions)).description =
      exMetadata.description :=
  c3_header_roundtrip "x.spec.ts".data exMetadata exActions (by decide) (by decide)
    (by decide) (by intro s hs; cases hs; decide)
    (by intro d hd; exact Option.noConfusion hd) (by decide) (by decide)
/-! ## C8 development: the manual-step count round trip -/

theorem sum_cm_zero (p : Str) (ls : List Str) (h : ∀ l ∈ ls, hasSub p l = false) :
    (ls.map (countMatches p)).sum = 0 := by
  induction ls with
  | nil => rfl
  | cons l ls ih =>
    rw [List.map_cons, List.sum_cons, countMatches_eq_zero p l (h l (by simp)),
      ih fun x hx => h x (by simp [hx])]

theorem countMatches_manualCmd (a : RecordedAction)
    (hd : hasSub "// MANUAL STEP:".data
      (jsOrDefault a.description "Complete this step manually".data) = false) :
    countMatches "// MANUAL STEP:".data
      (PlaywrightGenerator.generateManualStepComment a) = 1 := by
  unfold PlaywrightGenerator.generateManualStepComment
  rw [countMatches_concrete_left _ (by decide) _ _ (by decide)]
  rw [countMatches_eq_zero _ _ hd]
  decide

theorem manualCount_cons (a : RecordedAction) (rest : List RecordedAction) :
    manualCount (a :: rest) =
      (if a.type = ActionType.manual_step then 1 else 0) + manualCount rest := by
  unfold manualCount
  rw [List.filter_cons]
  by_cases h : a.type = ActionType.manual_step
  · simp [h]
    omega
  · simp [h]

theorem processActions_manual_sum :
    ∀ as : List RecordedAction,
    (∀ a ∈ as, ∀ f ∈ PlaywrightGenerator.actionFragments a,
      hasSub "// MANUAL STEP:".data f = false) →
    ∀ (lastUrl : Option Str) (pending : List (Str × Str)) (lastSel : Option Str),
    (∀ kv ∈ pending,
      hasSub "// MANUAL STEP:".data (PlaywrightGenerator.escapeSelector kv.1) = false ∧
      hasSub "// MANUAL STEP:".data (PlaywrightGenerator.escapeValue kv.2) = false) →
    (∀ s, lastSel = some s →
      hasSub "// MANUAL STEP:".data (PlaywrightGenerator.escapeSelector s) = false) →
    ((PlaywrightGenerator.processActions lastUrl pending lastSel as).map
      (countMatches "// MANUAL STEP:".data)).sum = manualCount as := by
  intro as
  induction as with
  | nil =>
    intro _ _ _ _ _ _
    rfl
  | cons a rest ih =>
    intro hfrag lastUrl pending lastSel hpend hsel
    have hfa : ∀ f ∈ PlaywrightGenerator.actionFragments a,
        hasSub "// MANUAL STEP:".data f = false := hfrag a (List.mem_cons_self a rest)
    have hfr : ∀ b ∈ rest, ∀ f ∈ PlaywrightGenerator.actionFragments b,
        hasSub "// MANUAL STEP:".data f = false :=
      fun b hb => hfrag b (List.mem_cons_of_mem a hb)
    have hurl : hasSub "// MANUAL STEP:".data a.url = false :=
      hfa a.url (List.mem_cons_self _ _)
    have hurlz : ((if some a.url ≠ lastUrl then
        ["  // Page navigated to: ".data ++ a.url] else []).map
        (countMatches "// MANUAL STEP:".data)).sum = 0 :=
      sum_cm_zero _ _ (urlLines_free _ (by decide) lastUrl a.url hurl)
    cases ht : a.type with
    | click =>
      simp only [PlaywrightGenerator.processActions]
      rw [ht]
      simp only [List.map_append, List.sum_append, List.map_cons, List.map_nil,
        List.sum_cons, List.sum_nil]
      rw [hurlz]
      rw [sum_cm_zero _ _ (flushPending_lines _ (by decide) (by decide) pending lastSel
        a.selector hpend hsel (hfa _ (by simp [PlaywrightGenerator.actionFragments, ht])))]
      rw [countMatches_eq_zero _ _ (hasSub_clickCmd _ (by decide) a
        (hfa _ (by simp [PlaywrightGenerator.actionFragments, ht]))
        (hfa _ (by simp [PlaywrightGenerator.actionFragments, ht])))]
      rw [ih hfr _ _ _ (flushPending_pend _ pending lastSel a.selector hpend)
        (flushPending_sel _ pending lastSel a.selector hsel)]
      rw [manualCount_cons, ht]
      simp
    | keypress =>
      simp only [PlaywrightGenerator.processActions]
      rw [ht]
      simp only [List.map_append, List.sum_append, List.map_cons, List.map_nil,
        List.sum_cons, List.sum_nil]
      rw [hurlz]
      rw [sum_cm_zero _ _ (flushPending_lines _ (by decide) (by decide) pending lastSel
        a.selector hpend hsel (hfa _ (by simp [PlaywrightGenerator.actionFragments, ht])))]
      rw [countMatches_eq_zero _ _ (hasSub_pressCmd _ (by decide) a
        (hfa _ (by simp [PlaywrightGenerator.actionFragments, ht])))]
      rw [ih hfr _ _ _ (flushPending_pend _ pending lastSel a.selector hpend)
        (flushPending_sel _ pending lastSel a.selector hsel)]
      rw [manualCount_cons, ht]
      simp
    | select =>
      simp only [PlaywrightGenerator.processActions]
      rw [ht]
      simp only [List.map_append, List.sum_append, List.map_cons, List.map_nil,
        List.sum_cons, List.sum_nil]
      rw [hurlz]
      rw [countMatches_eq_zero _ _ (hasSub_selectCmd _ (by decide) a
        (hfa _ (by simp [PlaywrightGenerator.actionFragments, ht]))
        (hfa _ (by simp [PlaywrightGenerator.actionFragments, ht])))]
      rw [ih hfr _ _ _ hpend hsel]
      rw [manualCount_cons, ht]
      simp
    | scroll =>
      simp only [PlaywrightGenerator.processActions]
      rw [ht]
      simp only [List.map_append, List.sum_append, List.map_cons, List.map_nil,
        List.sum_cons, List.sum_nil]
      rw [hurlz]
      rw [countMatches_eq_zero _ _ (hasSub_scrollCmd _ (by decide) a (by
        intro x y hv
        exact ⟨hfa x (by simp [PlaywrightGenerator.actionFragments, ht, hv]),
          hfa y (by simp [PlaywrightGenerator.actionFragments, ht, hv])⟩))]
      rw [ih hfr _ _ _ hpend hsel]
      rw [manualCount_cons, ht]
      simp
    | manual_step =>
      simp only [PlaywrightGenerator.processActions]
      rw [ht]
      simp only [List.map_append, List.sum_append, List.map_cons, List.map_nil,
        List.sum_cons, List.sum_nil]
      rw [hurlz]
      rw [countMatches_manualCmd a
        (hfa _ (by simp [PlaywrightGenerator.actionFragments, ht]))]
      rw [ih hfr _ _ _ hpend hsel]
      rw [manualCount_cons, ht]
      simp
    | wait =>
      simp only [PlaywrightGenerator.processActions]
      rw [ht]
      simp only [List.map_append, List.sum_append, List.map_cons, List.map_nil,
        List.sum_cons, List.sum_nil]
      rw [hurlz]
      rw [countMatches_eq_zero _ _ (hasSub_waitLn _ (by decide) _)]
      rw [ih hfr _ _ _ hpend hsel]
      rw [manualCount_cons, ht]
      simp
    | navigate =>
      simp only [PlaywrightGenerator.processActions]
      rw [ht]
      simp only [List.map_append, List.sum_append]
      rw [hurlz]
      rw [ih hfr _ _ _ hpend hsel]
      rw [manualCount_cons, ht]
      simp
    | input =>
      have hsel2 : hasSub "// MANUAL STEP:".data (PlaywrightGenerator.escapeSelector
          (PlaywrightGenerator.getSelectorString a.selector)) = false :=
        hfa _ (by simp [PlaywrightGenerator.actionFragments, ht])
      have hval : hasSub "// MANUAL STEP:".data
          (PlaywrightGenerator.escapeValue (a.value.getD [])) = false :=
        hfa _ (by simp [PlaywrightGenerator.actionFragments, ht])
      have htxt : hasSub "// MANUAL STEP:".data
          (PlaywrightGenerator.textOf a.selector) = false :=
        hfa _ (by simp [PlaywrightGenerator.actionFragments, ht])
      have hnew : ∀ oldp : List (Str × Str),
          (∀ kv ∈ oldp,
            hasSub "// MANUAL STEP:".data
              (PlaywrightGenerator.escapeSelector kv.1) = false ∧
            hasSub "// MANUAL STEP:".data
              (PlaywrightGenerator.escapeValue kv.2) = false) →
          ∀ kv ∈ PlaywrightGenerator.mapSet oldp
            (PlaywrightGenerator.getSelectorString a.selector) (a.value.getD []),
            hasSub "// MANUAL STEP:".data
              (PlaywrightGenerator.escapeSelector kv.1) = false ∧
            hasSub "// MANUAL STEP:".data
              (PlaywrightGenerator.escapeValue kv.2) = false := by
        intro oldp hold kv hkv
        rcases mapSet_mem _ _ _ kv hkv with hin | heq
        · exact hold kv hin
        · subst heq
          exact ⟨hsel2, hval⟩
      have hfillnew : ∀ oldp : List (Str × Str),
          (∀ kv ∈ oldp,
            hasSub "// MANUAL STEP:".data
              (PlaywrightGenerator.escapeSelector kv.1) = false ∧
            hasSub "// MANUAL STEP:".data
              (PlaywrightGenerator.escapeValue kv.2) = false) →
          hasSub "// MANUAL STEP:".data (PlaywrightGenerator.escapeValue
            ((PlaywrightGenerator.mapGet (PlaywrightGenerator.mapSet oldp
              (PlaywrightGenerator.getSelectorString a.selector) (a.value.getD []))
              (PlaywrightGenerator.getSelectorString a.selector)).getD [])) = false := by
        intro oldp hold
        cases hg : PlaywrightGenerator.mapGet (PlaywrightGenerator.mapSet oldp
            (PlaywrightGenerator.getSelectorString a.selector) (a.value.getD []))
            (PlaywrightGenerator.getSelectorString a.selector) with
        | none => exact hasSub_nil _ (by decide)
        | some v => exact (hnew oldp hold _ (mapGet_mem _ _ v hg)).2
      cases hls : lastSel with
      | none =>
        simp only [PlaywrightGenerator.processActions]
        rw [ht]
        dsimp only
        split
        · simp only [List.map_append, List.sum_append, List.map_cons, List.map_nil,
            List.sum_cons, List.sum_nil]
          rw [hurlz]
          rw [countMatches_eq_zero _ _ (hasSub_fillCmd _ (by decide) _ _ _ hsel2
            (hfillnew pending hpend) htxt)]
          rw [ih hfr _ [] none (by intro kv hkv; cases hkv) (by intro s hs; cases hs)]
          rw [manualCount_cons, ht]
          simp
        · simp only [List.map_append, List.sum_append, List.map_nil, List.sum_nil]
          rw [hurlz]
          rw [ih hfr _ _ _ (hnew pending hpend)
            (by intro s hs; injection hs with h; exact h ▸ hsel2)]
          rw [manualCount_cons, ht]
          simp
      | some ls =>
        have hsl : hasSub "// MANUAL STEP:".data
            (PlaywrightGenerator.escapeSelector ls) = false := hsel ls hls
        simp only [PlaywrightGenerator.processActions]
        rw [ht]
        dsimp only
        by_cases hpc : PlaywrightGenerator.getSelectorString a.selector ≠ ls ∧
            (!List.isEmpty ls) = true
        · rw [if_pos hpc]
          have hprez : countMatches "// MANUAL STEP:".data
              (PlaywrightGenerator.generateInputCommand ls
                ((PlaywrightGenerator.mapGet pending ls).getD []) a.selector) = 0 := by
            refine countMatches_eq_zero _ _ ?_
            refine hasSub_fillCmd _ (by decide) _ _ _ hsl ?_ htxt
            cases hg : PlaywrightGenerator.mapGet pending ls with
            | none => exact hasSub_nil _ (by decide)
            | some v => exact (hpend (ls, v) (mapGet_mem pending ls v hg)).2
          split
          · simp only [List.map_append, List.sum_append, List.map_cons, List.map_nil,
              List.sum_cons, List.sum_nil]
            rw [hurlz, hprez]
            rw [countMatches_eq_zero _ _ (hasSub_fillCmd _ (by decide) _ _ _ hsel2
              (hfillnew [] (by intro kv hkv; cases hkv)) htxt)]
            rw [ih hfr _ [] none (by intro kv hkv; cases hkv) (by intro s hs; cases hs)]
            rw [manualCount_cons, ht]
            simp
          · simp only [List.map_append, List.sum_append, List.map_cons, List.map_nil,
              List.sum_cons, List.sum_nil]
            rw [hurlz, hprez]
            rw [ih hfr _ _ _ (hnew [] (by intro kv hkv; cases hkv))
              (by intro s hs; injection hs with h; exact h ▸ hsel2)]
            rw [manualCount_cons, ht]
            simp
        · rw [if_neg hpc]
          split
          · simp only [List.map_append, List.sum_append, List.map_cons, List.map_nil,
              List.sum_cons, List.sum_nil]
            rw [hurlz]
            rw [countMatches_eq_zero _ _ (hasSub_fillCmd _ (by decide) _ _ _ hsel2
              (hfillnew pending hpend) htxt)]
            rw [ih hfr _ [] none (by intro kv hkv; cases hkv) (by intro s hs; cases hs)]
            rw [manualCount_cons, ht]
            simp
          · simp only [List.map_append, List.sum_append, List.map_nil, List.sum_nil]
            rw [hurlz]
            rw [ih hfr _ _ _ (hnew pending hpend)
              (by intro s hs; injection hs with h; exact h ▸ hsel2)]
            rw [manualCount_cons, ht]
            simp

/-- C8 (amended): the manual-step count recovered by re-parsing equals
the number of `manual_step` actions, provided none of the embedded
strings (metadata fields and action fragments, including the manual
step descriptions themselves) contains the `// MANUAL STEP:` marker. -/
theorem c8_manual_count (filename : Str) (metadata : PlaywrightScriptMetadata)
    (actions : List RecordedAction)
    (hid : manualSafe metadata.id) (hname : manualSafe metadata.name)
    (hsite : ∀ s, metadata.targetSite = some s → manualSafe s)
    (hdesc : ∀ d, metadata.description = some d → manualSafe d)
    (hfrag : ∀ a ∈ actions, ∀ f ∈ PlaywrightGenerator.actionFragments a, manualSafe f) :
    ((ActionRecorder.parsePlaywrightScript filename
        (PlaywrightGenerator.generate metadata actions)).metadata.bind
      fun m => m.manualSteps) = some (manualCount actions) := by
  have hsitez : hasSub "// MANUAL STEP:".data (metadata.targetSite.getD []) = false := by
    cases hts : metadata.targetSite with
    | none => exact hasSub_nil _ (by decide)
    | some s => exact hsite s hts
  have hdescz : hasSub "// MANUAL STEP:".data (metadata.description.getD []) = false := by
    cases hde : metadata.description with
    | none => exact hasSub_nil _ (by decide)
    | some d => exact hdesc d hde
  have hdescB : ((if truthyStr metadata.description then
      ["// Description: ".data ++ metadata.description.getD []] else []).map
      (countMatches "// MANUAL STEP:".data)).sum = 0 := by
    split
    · simp only [List.map_cons, List.map_nil, List.sum_cons, List.sum_nil]
      rw [countMatches_eq_zero _ _ (hasSub_descLine _ (by decide) _ hdescz)]
      decide
    · rfl
  have hnavB : ((if truthyStr metadata.targetSite then
      ["  // Navigate to starting URL".data,
       "  await page.goto(\x27".data ++ metadata.targetSite.getD [] ++ "\x27);".data, []]
      else []).map (countMatches "// MANUAL STEP:".data)).sum = 0 := by
    split
    · simp only [List.map_cons, List.map_nil, List.sum_cons, List.sum_nil]
      rw [countMatches_eq_zero _ _ (hasSub_gotoLine _ (by decide) _ hsitez)]
      decide
    · rfl
  have hactS : ((PlaywrightGenerator.processActions metadata.targetSite [] none
      actions).map (countMatches "// MANUAL STEP:".data)).sum = manualCount actions := by
    refine processActions_manual_sum actions hfrag metadata.targetSite [] none ?_ ?_
    · intro kv hkv
      cases hkv
    · intro s hs
      cases hs
  unfold ActionRecorder.parsePlaywrightScript
  dsimp only
  rw [show PlaywrightGenerator.generate metadata actions =
    joinNL (PlaywrightGenerator.generateLines metadata actions) from rfl]
  rw [countMatches_joinNL _ (by decide) (by decide)]
  unfold PlaywrightGenerator.generateLines
  simp only [List.map_append, List.sum_append, List.map_cons, List.map_nil,
    List.sum_cons, List.sum_nil]
  rw [hdescB, hnavB, hactS]
  rw [countMatches_eq_zero _ _ (hasSub_ridLine _ (by decide) _ hid)]
  rw [countMatches_eq_zero _ _ (hasSub_creLine _ (by decide) _
    (hasSub_toISO _ (by decide) _))]
  rw [countMatches_eq_zero _ _ (hasSub_testLine _ (by decide) _ hname)]
  rw [show countMatches "// MANUAL STEP:".data
    "import \x7b test, expect \x7d from \x27@playwright/test\x27;".data = 0 from by decide]
  rw [show countMatches "// MANUAL STEP:".data ([] : Str) = 0 from by decide]
  rw [show countMatches "// MANUAL STEP:".data "\x7d);".data = 0 from by decide]
  simp

set_option maxRecDepth 100000 in
/-- C8 counterexample: a `manual_step` action whose description itself
contains the `// MANUAL STEP:` marker is counted twice on re-parsing,
while the action list contains a single manual step. -/
theorem c8_counterexample :
    ((ActionRecorder.parsePlaywrightScript "f.spec.ts".data
      (PlaywrightGenerator.generate
        { id := "r1".data, name := "T".data, createdAt := 0 }
        [{ id := "a1".data, type := ActionType.manual_step, timestamp := 0,
           url := "https://e.com/".data,
           description := some "x // MANUAL STEP: y".data }])).metadata.bind
      fun m => m.manualSteps) = some 2 ∧
    manualCount
      [{ id := "a1".data, type := ActionType.manual_step, timestamp := 0,
         url := "https://e.com/".data,
         description := some "x // MANUAL STEP: y".data }] = 1 := by
  constructor
  · decide
  · decide

theorem c8_manual_count_witness :
    ((ActionRecorder.parsePlaywrightScript "x.spec.ts".data
        (PlaywrightGenerator.generate
          { id := "r1".data, name := "T".data, createdAt := 0 }
          [{ id := "a1".data, type := ActionType.manual_step, timestamp := 0,
             url := "https://e.com/".data,
             description := some "Log in".data }])).metadata.bind
      fun m => m.manualSteps) =
      some (manualCount
        [{ id := "a1".data, type := ActionType.manual_step, timestamp := 0,
           url := "https://e.com/".data,
           description := some "Log in".data }]) :=
  c8_manual_count "x.spec.ts".data
    { id := "r1".data, name := "T".data, createdAt := 0 }
    [{ id := "a1".data, type := ActionType.manual_step, timestamp := 0,
       url := "https://e.com/".data, description := some "Log in".data }]
    (by decide) (by decide) (by intro s hs; exact Option.noConfusion hs)
    (by intro d hd; exact Option.noConfusion hd) (by decide)
